import Mathlib

/-!
# BookVault-API: cart consolidation, order life cycle and authorization gate

A shallow embedding of the service layer (`service/cartService.go`,
`service/orderService.go`, `service/bookService.go`, `service/userService.go`),
of `jwt/jwt.go` and of `middleware/authMiddleware.go`.

Conventions of the embedding.

* The gorm handle `db` is an explicit `Store` value threaded through every
  operation.  A table is the list of its live rows in primary-key order
  (`Create` appends a row carrying the next value of the table's sequence), so
  `First` (`ORDER BY id LIMIT 1`) is `List.find?` and `Find` is `List.filter`.
  Every model embeds `gorm.Model`, hence `Delete` is a soft delete and no query
  of the source is `Unscoped`: a deleted row is invisible to all of them and is
  dropped from the list.  The time stamps of `gorm.Model` are not represented.
* Every store call may fail (lost connection, violated foreign key or unique
  index).  `Faults` tells, per call site of an operation (numbered in source
  order), whether that call fails and with which message; a failed call leaves
  the store as it was.  `gorm.ErrRecordNotFound` is not a fault: it is what
  `First` reports when no row matches.  One failure is decided by the values
  written and not by `Faults`: `Create(&order)` is refused when the quantity of
  a line does not fit its signed 64-bit column (`createOrder`).
* Go `error` results are `Option Error` (`none` is `nil`); pointers that may be
  `nil` are `Option`.
* `uint` identifiers are `Nat`; the `int` quantity is an `Int` with explicit
  64-bit wrap-around; `float32` is a type parameter with its arithmetic in the
  class `Float32`.
* What the libraries compute is a parameter of the operation that calls them:
  the verification of a token and its signature (jwt), the hash of a password
  and its comparison (bcrypt), and the reading of the clock.
-/

namespace BookVault

/-! ## Machine numbers -/

/-- The `float32` operations the order engine uses: the literal zero of
`var total float32`, `+`, `*`, and the conversion `float32(n)` of an integer
(the binary32 value nearest to `n`). -/
class Float32 (F : Type) where
  zero : F
  add : F → F → F
  mul : F → F → F
  ofInt : Int → F

/-- Number of binary digits of `n` (with enough `fuel`). -/
def bitLen : Nat → Nat → Nat
  | 0, _ => 0
  | fuel + 1, n => if n = 0 then 0 else bitLen fuel (n / 2) + 1

/-- Rounding of an integer to 24 significant bits, ties to even: the binary32
value nearest to an integer of magnitude below `2^128`. -/
def round24Nat (n : Nat) : Nat :=
  let k := bitLen n n - 24
  let q := n / 2 ^ k
  let r := n % 2 ^ k
  if 2 * r < 2 ^ k then q * 2 ^ k
  else if 2 ^ k < 2 * r then (q + 1) * 2 ^ k
  else if q % 2 = 0 then q * 2 ^ k
  else (q + 1) * 2 ^ k

/-- Signed version of `round24Nat`. -/
def round24 (x : Int) : Int :=
  if 0 ≤ x then (round24Nat x.toNat : Int) else - (round24Nat (-x).toNat : Int)

/-- Integer-valued binary32 numbers.  On integer operands whose results stay
below `2^128` in magnitude, binary32 addition and multiplication are the exact
result rounded to 24 significant bits; this instance is used to evaluate the
operations on concrete stores with integer prices. -/
structure IntF32 where
  val : Int
  deriving DecidableEq

instance : Float32 IntF32 where
  zero := ⟨0⟩
  add a b := ⟨round24 (a.val + b.val)⟩
  mul a b := ⟨round24 (a.val * b.val)⟩
  ofInt n := ⟨round24 n⟩

/-- Two-complement wrap-around of a signed 64-bit `int`: the value of an `int`
expression whose mathematical result is `x`, and the conversion `int(u)`. -/
def wrapInt (x : Int) : Int := (x + 2 ^ 63) % 2 ^ 64 - 2 ^ 63

/-- The conversion `uint(q)` of a signed `int`. -/
def toUint (q : Int) : Nat := (q % 2 ^ 64).toNat

/-- The values of a Go `int` (64 bits). -/
def isInt (q : Int) : Prop := -(2 : Int) ^ 63 ≤ q ∧ q < 2 ^ 63

instance (q : Int) : Decidable (isInt q) := by
  unfold isInt
  infer_instance

/-- Largest Go `int`. -/
def maxInt : Int := 9223372036854775807

/-! ## Data model (`model/*.go`) -/

/-- Row of `users`. -/
structure User where
  ID : Nat
  Username : String
  Password : String
  Email : String
  Role : String
  deriving DecidableEq

/-- Row of `books`. -/
structure Book (F : Type) where
  ID : Nat
  Title : String
  Author : String
  Description : String
  Price : F
  InStock : Bool
  deriving DecidableEq

/-- Row of `carts`; `user_id` carries a unique index. -/
structure Cart where
  ID : Nat
  UserID : Nat
  deriving DecidableEq

/-- Row of `cart_books`. -/
structure CartBook where
  ID : Nat
  CartID : Nat
  BookID : Nat
  Quantity : Int
  deriving DecidableEq

/-- Row of `orders`. -/
structure Order (F : Type) where
  ID : Nat
  UserID : Nat
  Status : String
  Address : String
  Total : F
  deriving DecidableEq

/-- Row of `order_books`. -/
structure OrderBook (F : Type) where
  ID : Nat
  OrderID : Nat
  BookID : Nat
  Quantity : Nat
  Price : F
  deriving DecidableEq

/-- `model.OrderBookDetails`. -/
structure OrderBookDetails (F : Type) where
  Title : String
  Author : String
  Quantity : Int
  Price : F
  deriving DecidableEq

/-- `model.OrderResponse` (without `CreatedAt`). -/
structure OrderResponse (F : Type) where
  ID : Nat
  Status : String
  Total : F
  Address : String
  Books : List (OrderBookDetails F)
  deriving DecidableEq

/-- `model.BookRequest`; `Price` is a pointer. -/
structure BookRequest (F : Type) where
  Title : String
  Author : String
  Description : String
  Price : Option F

/-- The zero value of `model.Book`, what a preloaded association holds when no
row was found. -/
def Book.zeroValue {F : Type} [Float32 F] : Book F :=
  { ID := 0, Title := "", Author := "", Description := "", Price := Float32.zero, InStock := false }

/-! ## The store -/

/-- The database: one list per table, and the next value of each table's
sequence. -/
structure Store (F : Type) where
  users : List User
  books : List (Book F)
  carts : List Cart
  cartBooks : List CartBook
  orders : List (Order F)
  orderBooks : List (OrderBook F)
  nextUserID : Nat
  nextBookID : Nat
  nextCartID : Nat
  nextCartBookID : Nat
  nextOrderID : Nat
  nextOrderBookID : Nat
  deriving DecidableEq

/-- The freshly migrated database (`TRUNCATE ... RESTART IDENTITY`). -/
def Store.empty {F : Type} : Store F :=
  { users := [], books := [], carts := [], cartBooks := [], orders := [], orderBooks := [],
    nextUserID := 1, nextBookID := 1, nextCartID := 1, nextCartBookID := 1,
    nextOrderID := 1, nextOrderBookID := 1 }

/-- Which store calls of an operation fail: call site number to error message. -/
abbrev Faults := Nat → Option String

/-- No store call fails. -/
def noFaults : Faults := fun _ => none

/-- The sentinel errors of package `service`, and a raw store error. -/
inductive Error where
  | ErrEmptyCart
  | ErrOrderNotFound
  | ErrOrderCancel
  | ErrCartNotFound
  | ErrCartBookNotFound
  | ErrBookNotFound
  | ErrNoBooks
  | ErrUsernameExist
  | ErrEmailExist
  | ErrInvalidCredentials
  | ErrEmptyFields
  | ErrCreatingToken
  | ErrUserNotFound
  | ErrUserDetailsNotFound
  | ErrHashPassword
  | store (msg : String)
  deriving DecidableEq

variable {F : Type}

/-- Query `Where("user_id = ?", userID).First(&cart)`. -/
def firstCartByUser (s : Store F) (userID : Nat) : Option Cart :=
  s.carts.find? (fun c => c.UserID == userID)

/-- Query `First(&book, bookID)`. -/
def firstBook (s : Store F) (bookID : Nat) : Option (Book F) :=
  s.books.find? (fun b => b.ID == bookID)

/-- Query `Where("cart_id = ? AND book_id = ?", cartID, bookID).First(&cartBook)`. -/
def firstCartBook (s : Store F) (cartID bookID : Nat) : Option CartBook :=
  s.cartBooks.find? (fun cb => cb.CartID == cartID && cb.BookID == bookID)

/-- Query `First(&order, orderID)`. -/
def firstOrder (s : Store F) (orderID : Nat) : Option (Order F) :=
  s.orders.find? (fun o => o.ID == orderID)

/-- The association filled by `Preload("Books.Book")` on a line: the book row,
or the zero value. -/
def preloadBook [Float32 F] (s : Store F) (bookID : Nat) : Book F :=
  (firstBook s bookID).getD Book.zeroValue

/-- The lines of a cart as loaded by `Preload("Books.Book")`. -/
def preloadCartBooks [Float32 F] (s : Store F) (cartID : Nat) : List (CartBook × Book F) :=
  (s.cartBooks.filter (fun cb => cb.CartID == cartID)).map (fun cb => (cb, preloadBook s cb.BookID))

/-- The lines of an order as loaded by `Preload("Books.Book")`. -/
def preloadOrderBooks [Float32 F] (s : Store F) (orderID : Nat) : List (OrderBook F × Book F) :=
  (s.orderBooks.filter (fun ob => ob.OrderID == orderID)).map (fun ob => (ob, preloadBook s ob.BookID))

/-- Statement `Save(&cartBook)`: update of the row with that primary key. -/
def saveCartBook (s : Store F) (cb : CartBook) : Store F :=
  { s with cartBooks := s.cartBooks.map (fun r => if r.ID == cb.ID then cb else r) }

/-- Statement `Save(&order)`. -/
def saveOrder (s : Store F) (o : Order F) : Store F :=
  { s with orders := s.orders.map (fun r => if r.ID == o.ID then o else r) }

/-- Statement `Save(&book)`. -/
def saveBook (s : Store F) (b : Book F) : Store F :=
  { s with books := s.books.map (fun r => if r.ID == b.ID then b else r) }

/-- Statement `Where("cart_id = ?", cartID).Delete(&model.CartBook{})`. -/
def deleteCartBooks (s : Store F) (cartID : Nat) : Store F :=
  { s with cartBooks := s.cartBooks.filter (fun cb => !(cb.CartID == cartID)) }

/-- Statement `Where("cart_id = ? AND book_id = ?", ...).Delete(&model.CartBook{})`,
with its `RowsAffected`. -/
def deleteCartBook (s : Store F) (cartID bookID : Nat) : Store F × Nat :=
  ({ s with cartBooks := s.cartBooks.filter (fun cb => !(cb.CartID == cartID && cb.BookID == bookID)) },
   (s.cartBooks.filter (fun cb => cb.CartID == cartID && cb.BookID == bookID)).length)

/-- Statement `Create(&user)`, the write by which `userService.Register` (and
the fixtures of the tests) put a user row in the store. -/
def createUser (s : Store F) (u : User) : Store F :=
  { s with users := s.users ++ [{ u with ID := s.nextUserID }], nextUserID := s.nextUserID + 1 }

/-- Statement `Create(&cart)`: the row gets the next id. -/
def createCart (s : Store F) (userID : Nat) : Cart × Store F :=
  let cart : Cart := { ID := s.nextCartID, UserID := userID }
  (cart, { s with carts := s.carts ++ [cart], nextCartID := s.nextCartID + 1 })

/-- Statement `Create(&cartBook)`. -/
def createCartBook (s : Store F) (cartID bookID : Nat) (quantity : Int) : Store F :=
  { s with
    cartBooks := s.cartBooks ++
      [{ ID := s.nextCartBookID, CartID := cartID, BookID := bookID, Quantity := quantity }],
    nextCartBookID := s.nextCartBookID + 1 }

/-- Statement `Create(&book)`. -/
def createBook (s : Store F) (b : Book F) : Store F :=
  { s with books := s.books ++ [{ b with ID := s.nextBookID }], nextBookID := s.nextBookID + 1 }

/-- The ids `Create(&order)` gives to the order's lines: consecutive values of
the `order_books` sequence, and the order's id as foreign key. -/
def assignLineIDs (orderID : Nat) : Nat → List (OrderBook F) → List (OrderBook F)
  | _, [] => []
  | next, ob :: rest => { ob with ID := next, OrderID := orderID } :: assignLineIDs orderID (next + 1) rest

/-- The values the column `order_books.quantity` holds.  The field is a Go
`uint` (`model/order.go`), for which gorm's postgres dialect (`database/db.go`)
makes a `bigint` column, a signed 64-bit integer: a quantity of `2^63` or more
is refused when the row is written. -/
def fitsBigint (n : Nat) : Bool := decide (n < 2 ^ 63)

/-- Every line fits the column of its quantity. -/
def storable (books : List (OrderBook F)) : Bool := books.all (fun ob => fitsBigint ob.Quantity)

/-- The rows an accepted `Create(&order)` writes: the order and, through the
`Books` association, its lines, with their ids filled in. -/
def insertOrder (s : Store F) (o : Order F) (books : List (OrderBook F)) :
    Order F × List (OrderBook F) × Store F :=
  let o1 : Order F := { o with ID := s.nextOrderID }
  let bs := assignLineIDs o1.ID s.nextOrderBookID books
  (o1, bs,
    { s with orders := s.orders ++ [o1], orderBooks := s.orderBooks ++ bs,
             nextOrderID := s.nextOrderID + 1,
             nextOrderBookID := s.nextOrderBookID + books.length })

/-- Statement `Create(&order)`: the structs with their ids filled in and the
store, or `none` when the statement returns an error because a line does not
fit its column.  gorm runs the statement in a transaction, so a refused
statement writes no row; the tables are then as before. -/
def createOrder (s : Store F) (o : Order F) (books : List (OrderBook F)) :
    Option (Order F × List (OrderBook F) × Store F) :=
  if storable books then some (insertOrder s o books) else none

/-! ## `service/cartService.go` -/

/-- Lines 50-75 of `AddToCart`, once the cart is resolved: the book lookup, then
the increment of the existing line or the creation of a new one.  Call sites:
2 book lookup, 3 line lookup, 4 `Save` of the line, 5 `Create` of the line. -/
def addLine (s1 : Store F) (flt : Faults) (cart : Cart) (bookID : Nat) (quantity : Int) :
    Option Error × Store F :=
  match flt 2 with
  | some e => (some (.store e), s1)
  | none =>
    match firstBook s1 bookID with
    | none => (some .ErrBookNotFound, s1)
    | some _ =>
      match flt 3 with
      | some e => (some (.store e), s1)
      | none =>
        match firstCartBook s1 cart.ID bookID with
        | some cartBook =>
          match flt 4 with
          | some e => (some (.store e), s1)
          | none =>
            (none, saveCartBook s1 { cartBook with Quantity := wrapInt (cartBook.Quantity + quantity) })
        | none =>
          match flt 5 with
          | some e => (some (.store e), s1)
          | none => (none, createCartBook s1 cart.ID bookID quantity)

/-- `cartService.AddToCart`.  Call sites: 0 cart lookup, 1 cart creation, then
those of `addLine`. -/
def AddToCart (s : Store F) (flt : Faults) (userID bookID : Nat) (quantity : Int) :
    Option Error × Store F :=
  match flt 0 with
  | some e => (some (.store e), s)
  | none =>
    match firstCartByUser s userID with
    | some cart => addLine s flt cart bookID quantity
    | none =>
      match flt 1 with
      | some e => (some (.store e), s)
      | none => addLine (createCart s userID).2 flt (createCart s userID).1 bookID quantity

/-- `cartService.ClearCart`.  Call sites: 0 cart lookup, 1 deletion of the lines. -/
def ClearCart (s : Store F) (flt : Faults) (userID : Nat) : Option Error × Store F :=
  match flt 0 with
  | some e => (some (.store e), s)
  | none =>
    match firstCartByUser s userID with
    | none => (some .ErrCartNotFound, s)
    | some cart =>
      match flt 1 with
      | some e => (some (.store e), s)
      | none => (none, deleteCartBooks s cart.ID)

/-- `cartService.RemoveFromCart`.  Call sites: 0 cart lookup, 1 deletion of the line. -/
def RemoveFromCart (s : Store F) (flt : Faults) (userID bookID : Nat) : Option Error × Store F :=
  match flt 0 with
  | some e => (some (.store e), s)
  | none =>
    match firstCartByUser s userID with
    | none => (some .ErrCartNotFound, s)
    | some cart =>
      match flt 1 with
      | some e => (some (.store e), s)
      | none =>
        let r := deleteCartBook s cart.ID bookID
        if r.2 = 0 then (some .ErrCartBookNotFound, r.1) else (none, r.1)

/-- `cartService.UpdateQuantity`.  Call sites: 0 cart lookup, 1 line lookup,
2 `Save` of the line. -/
def UpdateQuantity (s : Store F) (flt : Faults) (userID bookID : Nat) (quantity : Int) :
    Option Error × Store F :=
  match flt 0 with
  | some e => (some (.store e), s)
  | none =>
    match firstCartByUser s userID with
    | none => (some .ErrCartNotFound, s)
    | some cart =>
      match flt 1 with
      | some e => (some (.store e), s)
      | none =>
        match firstCartBook s cart.ID bookID with
        | none => (some .ErrCartBookNotFound, s)
        | some cartBook =>
          match flt 2 with
          | some e => (some (.store e), s)
          | none => (none, saveCartBook s { cartBook with Quantity := quantity })

/-! ## `service/bookService.go` -/

/-- `bookService.CreateBook`.  Call site: 0 `Create` of the book. -/
def CreateBook (s : Store F) (flt : Faults) (req : BookRequest F) : Option Error × Store F :=
  match req.Price with
  | none => (some .ErrEmptyFields, s)
  | some price =>
    -- with `Price != nil`, the remaining disjuncts of the guard
    if req.Title = "" ∨ req.Author = "" ∨ req.Description = "" then (some .ErrEmptyFields, s)
    else
      match flt 0 with
      | some e => (some (.store e), s)
      | none =>
        (none, createBook s { ID := 0, Title := req.Title, Author := req.Author,
                              Description := req.Description, Price := price, InStock := true })

/-- `bookService.UpdateStock`.  Call sites: 0 book lookup, 1 `Save` of the book. -/
def UpdateStock (s : Store F) (flt : Faults) (bookID : Nat) : Option Error × Store F :=
  match flt 0 with
  | some e => (some (.store e), s)
  | none =>
    match firstBook s bookID with
    | none => (some .ErrBookNotFound, s)
    | some book =>
      match flt 1 with
      | some e => (some (.store e), s)
      | none =>
        (none, saveBook s { book with InStock := match book.InStock with
                                                 | true => false
                                                 | false => true })

/-! ## `service/orderService.go` -/

/-- `orderService.toOrderResponse`, on an order and its loaded lines. -/
def toOrderResponse (order : Order F) (books : List (OrderBook F × Book F)) : OrderResponse F :=
  { ID := order.ID, Status := order.Status, Total := order.Total, Address := order.Address,
    Books := books.map (fun book =>
      { Title := book.2.Title, Author := book.2.Author,
        Quantity := wrapInt book.1.Quantity, Price := book.1.Price }) }

/-- The loop of `CreateOrder` over `cart.Books`, from the current values of
`total` and `orderBooks`. -/
def orderLoop [Float32 F] : List (CartBook × Book F) → F → List (OrderBook F) → F × List (OrderBook F)
  | [], total, orderBooks => (total, orderBooks)
  | book :: rest, total, orderBooks =>
    let linePrice := Float32.mul book.2.Price (Float32.ofInt book.1.Quantity)
    orderLoop rest (Float32.add total linePrice)
      (orderBooks ++ [{ ID := 0, OrderID := 0, BookID := book.1.BookID,
                        Quantity := toUint book.1.Quantity, Price := book.2.Price }])

/-- Line 98 of `CreateOrder`, `o.db.Create(&order)`, whose error is dropped: the
in-memory order with its lines afterwards, and the store. -/
def createOrderStep [Float32 F] (s : Store F) (flt : Faults) (order : Order F) (orderBooks : List (OrderBook F)) :
    Order F × List (OrderBook F × Book F) × Store F :=
  match flt 1 with
  | some _ => (order, orderBooks.map (fun ob => (ob, Book.zeroValue)), s)
  | none =>
    match createOrder s order orderBooks with
    | none => (order, orderBooks.map (fun ob => (ob, Book.zeroValue)), s)
    | some r => (r.1, r.2.1.map (fun ob => (ob, Book.zeroValue)), r.2.2)

/-- Line 99 of `CreateOrder`, the deletion of the cart's lines, whose error is
dropped. -/
def deleteLinesStep (s : Store F) (flt : Faults) (cartID : Nat) : Store F :=
  match flt 2 with
  | some _ => s
  | none => deleteCartBooks s cartID

/-- Line 100 of `CreateOrder`, `Preload("Books.Book").First(&order, order.ID)`,
whose error is dropped: the in-memory order is replaced when the row is found. -/
def reloadStep [Float32 F] (s : Store F) (flt : Faults) (order : Order F) (books : List (OrderBook F × Book F)) :
    Order F × List (OrderBook F × Book F) :=
  match flt 3 with
  | some _ => (order, books)
  | none =>
    match firstOrder s order.ID with
    | none => (order, books)
    | some o => (o, preloadOrderBooks s o.ID)

/-- `orderService.CreateOrder`.  Call sites: 0 cart lookup with its lines,
1 `Create` of the order, 2 deletion of the cart's lines, 3 reload of the order. -/
def CreateOrder [Float32 F] (s : Store F) (flt : Faults) (userID : Nat) (address : String) :
    (Option (OrderResponse F) × Option Error) × Store F :=
  match flt 0 with
  | some e => ((none, some (.store e)), s)
  | none =>
    match firstCartByUser s userID with
    | none => ((none, some .ErrEmptyCart), s)
    | some cart =>
      let cartBooks := preloadCartBooks s cart.ID
      if cartBooks.length = 0 then ((none, some .ErrEmptyCart), s)
      else
        let order : Order F :=
          { ID := 0, UserID := userID, Status := "pending", Address := address, Total := Float32.zero }
        let acc := orderLoop cartBooks Float32.zero []
        let created := createOrderStep s flt { order with Total := acc.1 } acc.2
        let s2 := deleteLinesStep created.2.2 flt cart.ID
        let loaded := reloadStep s2 flt created.1 created.2.1
        ((some (toOrderResponse loaded.1 loaded.2), none), s2)

/-- `orderService.CancelOrder`.  Call sites: 0 order lookup, 1 `Save`. -/
def CancelOrder (s : Store F) (flt : Faults) (orderID : Nat) : Option Error × Store F :=
  match flt 0 with
  | some e => (some (.store e), s)
  | none =>
    match firstOrder s orderID with
    | none => (some .ErrOrderNotFound, s)
    | some order =>
      if order.Status ≠ "pending" ∧ order.Status ≠ "approved" then (some .ErrOrderCancel, s)
      else
        match flt 1 with
        | some e => (some (.store e), s)
        | none => (none, saveOrder s { order with Status := "cancelled" })

/-- `orderService.GetOrder`.  Call site: 0 order lookup with its lines. -/
def GetOrder [Float32 F] (s : Store F) (flt : Faults) (orderID : Nat) :
    Option (OrderResponse F) × Option Error :=
  match flt 0 with
  | some e => (none, some (.store e))
  | none =>
    match firstOrder s orderID with
    | none => (none, some .ErrOrderNotFound)
    | some order => (some (toOrderResponse order (preloadOrderBooks s order.ID)), none)

/-- `orderService.GetUserOrders`.  Call site: 0 the query.  The result slice is
a list; a `nil` slice and an empty one are both `[]`. -/
def GetUserOrders [Float32 F] (s : Store F) (flt : Faults) (userID : Nat) :
    List (OrderResponse F) × Option Error :=
  match flt 0 with
  | some e => ([], some (.store e))
  | none =>
    ((s.orders.filter (fun o => o.UserID == userID)).map
      (fun order => toOrderResponse order (preloadOrderBooks s order.ID)), none)

/-- SQL `LOWER` on a status: letters `A`-`Z` to lower case. -/
def LOWER (status : String) : String := ⟨status.data.map Char.toLower⟩

/-- `orderService.GetOrdersByStatus`.  Call site: 0 the query. -/
def GetOrdersByStatus [Float32 F] (s : Store F) (flt : Faults) (status : String) :
    List (OrderResponse F) × Option Error :=
  match flt 0 with
  | some e => ([], some (.store e))
  | none =>
    ((s.orders.filter (fun o => LOWER o.Status == LOWER status)).map
      (fun order => toOrderResponse order (preloadOrderBooks s order.ID)), none)

/-- `orderService.UpdateStatus`.  Call sites: 0 order lookup, 1 `Save`. -/
def UpdateStatus (s : Store F) (flt : Faults) (orderID : Nat) (status : String) :
    Option Error × Store F :=
  match flt 0 with
  | some e => (some (.store e), s)
  | none =>
    match firstOrder s orderID with
    | none => (some .ErrOrderNotFound, s)
    | some order =>
      match flt 1 with
      | some e => (some (.store e), s)
      | none => (none, saveOrder s { order with Status := status })

/-! ## `jwt/jwt.go` and `service/userService.go` -/

/-- Signing methods of the jwt library. -/
inductive SigningMethod where
  | HS256
  | HS384
  | HS512
  | other
  deriving DecidableEq

/-- The claims `GenerateToken` builds: the `jwt.MapClaims` literal with the keys
`username`, `role` and `exp`. -/
structure TokenClaims where
  username : String
  role : String
  exp : Int
  deriving DecidableEq

/-- Constant `time.Hour`, in nanoseconds. -/
def Hour : Int := 3600000000000

/-- `jwt.GenerateToken`.  `now` is the reading `time.Now()` of the clock in
nanoseconds since the Unix epoch; `SignedString method claims` is
`jwt.NewWithClaims(method, claims).SignedString(getSecret())` of the jwt
library; `Unix()` is the number of whole seconds. -/
def GenerateToken (SignedString : SigningMethod → TokenClaims → Except String String)
    (now : Int) (username role : String) (duration : Int) : Except String String :=
  SignedString .HS256 { username := username, role := role, exp := (now + duration) / 1000000000 }

/-- `model.RegisterRequest`. -/
structure RegisterRequest where
  Username : String
  Password : String
  Email : String
  deriving DecidableEq

/-- `model.LoginRequest`. -/
structure LoginRequest where
  Username : String
  Password : String
  deriving DecidableEq

/-- Query `Where("username = ?", username).First(&user)`. -/
def firstUserByUsername (s : Store F) (username : String) : Option User :=
  s.users.find? (fun u => u.Username == username)

/-- Query `Where("email = ?", email).First(&user)`. -/
def firstUserByEmail (s : Store F) (email : String) : Option User :=
  s.users.find? (fun u => u.Email == email)

/-- `userService.UsersExist`.  Call site: 0 the `Count` query, whose error is
not read: when it fails `count` keeps its zero value. -/
def UsersExist (s : Store F) (flt : Faults) : Bool :=
  match flt 0 with
  | some _ => decide ((0 : Nat) > 0)
  | none => decide (s.users.length > 0)

/-- `userService.Register`.  `GenerateFromPassword` is
`bcrypt.GenerateFromPassword(password, bcrypt.DefaultCost)`, `none` when it
returns an error.  Call sites: 0 lookup by username, 1 lookup by email, 2 the
`Count` of `UsersExist`, 3 `Create` of the user. -/
def Register (s : Store F) (flt : Faults) (GenerateFromPassword : String → Option String)
    (registerRequest : RegisterRequest) : Option Error × Store F :=
  if registerRequest.Username = "" ∨ registerRequest.Password = "" ∨ registerRequest.Email = "" then
    (some .ErrEmptyFields, s)
  else
    match flt 0 with
    | some e => (some (.store e), s)
    | none =>
      match firstUserByUsername s registerRequest.Username with
      | some _ => (some .ErrUsernameExist, s)
      | none =>
        match flt 1 with
        | some e => (some (.store e), s)
        | none =>
          match firstUserByEmail s registerRequest.Email with
          | some _ => (some .ErrEmailExist, s)
          | none =>
            match GenerateFromPassword registerRequest.Password with
            | none => (some .ErrHashPassword, s)
            | some hashedPassword =>
              let role := if UsersExist s (fun i => flt (i + 2)) = false then "admin" else "user"
              match flt 3 with
              | some e => (some (.store e), s)
              | none =>
                (none, createUser s
                  { ID := 0, Username := registerRequest.Username, Password := hashedPassword,
                    Email := registerRequest.Email, Role := role })

/-- `userService.Login`.  `CompareHashAndPassword hash password` tells whether
`bcrypt.CompareHashAndPassword` returns `nil`; `SignedString` and `now` are
those of `GenerateToken`.  Call site: 0 lookup by username. -/
def Login (s : Store F) (flt : Faults) (CompareHashAndPassword : String → String → Bool)
    (SignedString : SigningMethod → TokenClaims → Except String String) (now : Int)
    (loginRequest : LoginRequest) : String × Option Error :=
  if loginRequest.Username = "" ∨ loginRequest.Password = "" then ("", some .ErrEmptyFields)
  else
    match flt 0 with
    | some e => ("", some (.store e))
    | none =>
      match firstUserByUsername s loginRequest.Username with
      | none => ("", some .ErrInvalidCredentials)
      | some user =>
        if CompareHashAndPassword user.Password loginRequest.Password = false then
          ("", some .ErrInvalidCredentials)
        else
          match GenerateToken SignedString now loginRequest.Username user.Role (24 * Hour) with
          | .error _ => ("", some .ErrCreatingToken)
          | .ok token => (token, none)


/-! ## `middleware/authMiddleware.go` -/

/-- A value in `jwt.MapClaims` (`interface{}`): a string, or a value of another
type. -/
inductive ClaimValue where
  | str (s : String)
  | other
  deriving DecidableEq

/-- Type `jwt.MapClaims`: the lookup `claims[key]`. -/
abbrev MapClaims := String → Option ClaimValue

/-- What the middleware does: `helper.WriteError(w, status, message)`, or the
call `next(w, r)` of the wrapped handler. -/
inductive Effect where
  | writeError (status : Nat) (message : String)
  | next
  deriving DecidableEq

/-- Splitting of a list of characters at every occurrence of `sep`. -/
def splitChars (sep : Char) : List Char → List (List Char)
  | [] => [[]]
  | c :: cs =>
    if c = sep then [] :: splitChars sep cs
    else
      match splitChars sep cs with
      | [] => [[c]]
      | p :: ps => (c :: p) :: ps

/-- Function `strings.Split(s, sep)` for a separator of one character. -/
def Split (s : String) (sep : Char) : List String := (splitChars sep s.data).map String.mk

/-- The loop of `AuthMiddleware` over `allowedRoles`: the final value of
`authorized`. -/
def authorizedLoop (role : String) : List String → Bool
  | [] => false
  | r :: rest => if role = r then true else authorizedLoop role rest

/-- The handler built by `AuthMiddleware(allowedRoles...)(next)`, run on a
request whose `Authorization` header is `authHeader` (empty when absent); the
result lists its effects in order.  `ParseToken` is `jwt.ParseToken`, whose
verification is the jwt library's; 401 is `http.StatusUnauthorized` and 403 is
`http.StatusForbidden`. -/
def AuthMiddleware (ParseToken : String → Except String MapClaims) (allowedRoles : List String)
    (authHeader : String) : List Effect :=
  if authHeader = "" then [.writeError 401 "missing authorization header"]
  else
    match Split authHeader ' ' with
    | [p0, tokenString] =>
      if p0 ≠ "Bearer" then [.writeError 401 "invalid authorization header format"]
      else
        match ParseToken tokenString with
        | .error _ => [.writeError 401 "invalid token"]
        | .ok claims =>
          if allowedRoles.length > 0 then
            match claims "role" with
            | some (.str role) =>
              if authorizedLoop role allowedRoles = false then
                [.writeError 403 "forbidden: insufficient permissions"]
              else [.next]
            | _ => [.writeError 401 "invalid token claims"]
          else [.next]
    | _ => [.writeError 401 "invalid authorization header format"]

/-! ## `helper/helper.go` -/

/-- The sentinel errors of package `helper`. -/
inductive PathError where
  | ErrInvalidPath
  | ErrInvalidId
  deriving DecidableEq

/-- How a call of `ParseIDsFromPath` ends: a run-time panic (an index out of
range, or `make` with a negative length), an error, or the slice of ids. -/
inductive ParseOutcome where
  | panic
  | failed (err : PathError)
  | ok (IDs : List Int)
  deriving DecidableEq

/-- Function `strings.Trim(s, cutset)` for a cutset of one character: `s`
without its leading and trailing occurrences of that character. -/
def Trim (s : String) (cutset : Char) : String :=
  ⟨((s.data.dropWhile (fun c => c == cutset)).reverse.dropWhile (fun c => c == cutset)).reverse⟩

/-- The loop of `ParseIDsFromPath`, `for i := idStartIndex; i < expectedParts; i++`,
from the current values of `i` and `IDs`, with `n` iterations to go
(`expectedParts - i`).  `Atoi` is `strconv.Atoi`, `none` when it returns an
error.  `parts[i]` and `IDs[i - idStartIndex]` panic out of range. -/
def idLoop (Atoi : String → Option Int) (parts : List String) (idStartIndex : Nat) :
    Nat → Nat → List Int → ParseOutcome
  | 0, _, IDs => .ok IDs
  | n + 1, i, IDs =>
    match parts[i]? with
    | none => .panic
    | some part =>
      match Atoi part with
      | none => .failed .ErrInvalidId
      | some id =>
        if i - idStartIndex < IDs.length then
          idLoop Atoi parts idStartIndex n (i + 1) (IDs.set (i - idStartIndex) id)
        else .panic

/-- `helper.ParseIDsFromPath`, on the path `r.URL.Path` of the request, for
non-negative `expectedParts` and `idStartIndex` (every call site passes
literals: 4 and 2, 3 and 2, or 2 and 1).  `make([]int, n)` gives `n` zeros and
panics when `n` is negative. -/
def ParseIDsFromPath (Atoi : String → Option Int) (path : String)
    (expectedParts idStartIndex : Nat) : ParseOutcome :=
  let parts := Split (Trim path '/') '/'
  if parts.length ≠ expectedParts then .failed .ErrInvalidPath
  else if expectedParts < idStartIndex then .panic
  else
    idLoop Atoi parts idStartIndex (expectedParts - idStartIndex) idStartIndex
      (List.replicate (expectedParts - idStartIndex) 0)


/-! ## Specification predicates -/

/-- The lines of a cart, in the order the store returns them. -/
def cartLines (s : Store F) (cartID : Nat) : List CartBook :=
  s.cartBooks.filter (fun cb => cb.CartID == cartID)

/-- The lines of an order, in the order the store returns them. -/
def orderLines (s : Store F) (orderID : Nat) : List (OrderBook F) :=
  s.orderBooks.filter (fun ob => ob.OrderID == orderID)

/-- The lines of cart `cartID` that are for book `bookID`. -/
def cartLinesFor (s : Store F) (cartID bookID : Nat) : List CartBook :=
  (cartLines s cartID).filter (fun cb => cb.BookID == bookID)

/-- Sum, from zero and in list order, of price times quantity over cart lines,
each price being the current price of the line's book. -/
def cartTotal [Float32 F] (s : Store F) (lines : List CartBook) : F :=
  (lines.map (fun cb => Float32.mul (preloadBook s cb.BookID).Price (Float32.ofInt cb.Quantity))).foldl
    Float32.add Float32.zero

/-- Sum, from zero and in list order, of price times quantity over order lines. -/
def lineTotal [Float32 F] (lines : List (OrderBook F)) : F :=
  (lines.map (fun ob => Float32.mul ob.Price (Float32.ofInt (ob.Quantity : Int)))).foldl
    Float32.add Float32.zero

/-- Sum, from zero and in list order, of price times quantity over order lines,
the `uint` quantity being read back as an `int`, as `toOrderResponse` does. -/
def lineTotalSigned [Float32 F] (lines : List (OrderBook F)) : F :=
  (lines.map (fun ob => Float32.mul ob.Price (Float32.ofInt (wrapInt ob.Quantity)))).foldl
    Float32.add Float32.zero

/-- The order `CreateOrder` builds in memory before persisting it. -/
def builtOrder [Float32 F] (s : Store F) (userID : Nat) (address : String) (cart : Cart) : Order F :=
  { ID := 0, UserID := userID, Status := "pending", Address := address,
    Total := cartTotal s (cartLines s cart.ID) }

/-- The order lines `CreateOrder` builds in memory before persisting them. -/
def builtLines [Float32 F] (s : Store F) (cart : Cart) : List (OrderBook F) :=
  (cartLines s cart.ID).map (fun cb =>
    { ID := 0, OrderID := 0, BookID := cb.BookID, Quantity := toUint cb.Quantity,
      Price := (preloadBook s cb.BookID).Price })

/-- Effect of a successful `CreateOrder` from store `s` to store `s2`, for the
user's cart `cart`: one order is appended, pending, with the address and the
total of the cart; one order line is appended per cart line, in cart order, with
the line's book, a quantity related to the cart line's by `quantityRel`, and the
current price of the book; the cart row is still there and has no line. -/
def CreateOrderPost [Float32 F] (quantityRel : Int → Nat → Prop) (s : Store F) (userID : Nat)
    (address : String) (cart : Cart) (s2 : Store F) : Prop :=
  ∃ (o : Order F) (newLines : List (OrderBook F)),
    s2.orders = s.orders ++ [o] ∧
    s2.orderBooks = s.orderBooks ++ newLines ∧
    o.UserID = userID ∧ o.Status = "pending" ∧ o.Address = address ∧
    o.Total = cartTotal s (cartLines s cart.ID) ∧
    List.Forall₂
      (fun cb ob => ob.OrderID = o.ID ∧ ob.BookID = cb.BookID ∧ quantityRel cb.Quantity ob.Quantity ∧
        ob.Price = (preloadBook s cb.BookID).Price)
      (cartLines s cart.ID) newLines ∧
    firstCartByUser s2 userID = some cart ∧
    cartLines s2 cart.ID = []

/-- The order line carries the cart line's quantity itself. -/
def sameQuantity (q : Int) (n : Nat) : Prop := (n : Int) = q

/-- The order line carries the cart line's quantity converted to `uint`: its
residue modulo `2^64`, which is the quantity itself when that is a non-negative
`int`. -/
def uintQuantity (q : Int) (n : Nat) : Prop :=
  (n : Int) = q % 2 ^ 64 ∧ (0 ≤ q → q < 2 ^ 63 → (n : Int) = q)

/-- All-or-nothing outcome of `CreateOrder` from `s` to `s2` for the cart
`cart`: either a new order is there and the cart is drained, or no order was
added and the cart holds its lines as before. -/
def AtomicOutcome [Float32 F] (s s2 : Store F) (cart : Cart) : Prop :=
  ((∃ o, s2.orders = s.orders ++ [o]) ∧ cartLines s2 cart.ID = []) ∨
  (s2.orders = s.orders ∧ cartLines s2 cart.ID = cartLines s cart.ID)

/-- Every table's sequence is ahead of the primary keys in use, and of the
foreign keys that refer to the table. -/
def Store.wf (s : Store F) : Prop :=
  (∀ cb ∈ s.cartBooks, cb.ID < s.nextCartBookID ∧ cb.CartID < s.nextCartID) ∧
  (∀ c ∈ s.carts, c.ID < s.nextCartID) ∧
  (∀ o ∈ s.orders, o.ID < s.nextOrderID) ∧
  (∀ ob ∈ s.orderBooks, ob.OrderID < s.nextOrderID)

/-- The stores reachable from the empty store through the insertion of users
and the operations of the cart, order and book services, under any pattern of
store failures; quantities are Go `int`s. -/
inductive Reachable [Float32 F] : Store F → Prop where
  | empty : Reachable Store.empty
  | createUser (s : Store F) (u : User) : Reachable s → Reachable (createUser s u)
  | addToCart (s : Store F) (flt : Faults) (userID bookID : Nat) (quantity : Int) :
      Reachable s → isInt quantity → Reachable (AddToCart s flt userID bookID quantity).2
  | updateQuantity (s : Store F) (flt : Faults) (userID bookID : Nat) (quantity : Int) :
      Reachable s → isInt quantity → Reachable (UpdateQuantity s flt userID bookID quantity).2
  | removeFromCart (s : Store F) (flt : Faults) (userID bookID : Nat) :
      Reachable s → Reachable (RemoveFromCart s flt userID bookID).2
  | clearCart (s : Store F) (flt : Faults) (userID : Nat) :
      Reachable s → Reachable (ClearCart s flt userID).2
  | createOrder (s : Store F) (flt : Faults) (userID : Nat) (address : String) :
      Reachable s → Reachable (CreateOrder s flt userID address).2
  | cancelOrder (s : Store F) (flt : Faults) (orderID : Nat) :
      Reachable s → Reachable (CancelOrder s flt orderID).2
  | updateStatus (s : Store F) (flt : Faults) (orderID : Nat) (status : String) :
      Reachable s → Reachable (UpdateStatus s flt orderID status).2
  | createBook (s : Store F) (flt : Faults) (req : BookRequest F) :
      Reachable s → Reachable (CreateBook s flt req).2
  | updateStock (s : Store F) (flt : Faults) (bookID : Nat) :
      Reachable s → Reachable (UpdateStock s flt bookID).2

/-- Invariant of the order tables: the sequence of `orders` is ahead of the ids
and foreign keys in use, every cart quantity is an `int`, and every order's
total is the signed line total of its lines. -/
def OrderInv [Float32 F] (s : Store F) : Prop :=
  (∀ o ∈ s.orders, o.ID < s.nextOrderID) ∧
  (∀ ob ∈ s.orderBooks, ob.OrderID < s.nextOrderID) ∧
  (∀ cb ∈ s.cartBooks, isInt cb.Quantity) ∧
  (∀ o ∈ s.orders, o.Total = lineTotalSigned (orderLines s o.ID))

/-- At most one cart line per (cart, book) pair. -/
def Store.oneLinePerBook (s : Store F) : Prop :=
  (s.cartBooks.map (fun cb => (cb.CartID, cb.BookID))).Nodup

/-- The primary key of `cart_books`: the ids of the rows are pairwise distinct
and below the next value of the sequence. -/
def Store.cartBookKey (s : Store F) : Prop :=
  (s.cartBooks.map (fun cb => cb.ID)).Nodup ∧ ∀ cb ∈ s.cartBooks, cb.ID < s.nextCartBookID


/-- The stores reachable from the empty store through the insertion of users,
`CreateBook`, and the cart operations and `CreateOrder` under any pattern of
store failures, where every quantity given to `AddToCart` or `UpdateQuantity`
is an `int` that is at least 1 and no `AddToCart` takes the quantity of a line
of its book to `2^63` or beyond. -/
inductive PositiveReachable [Float32 F] : Store F → Prop where
  | empty : PositiveReachable Store.empty
  | createUser (s : Store F) (u : User) : PositiveReachable s → PositiveReachable (createUser s u)
  | createBook (s : Store F) (flt : Faults) (req : BookRequest F) :
      PositiveReachable s → PositiveReachable (CreateBook s flt req).2
  | addToCart (s : Store F) (flt : Faults) (userID bookID : Nat) (quantity : Int) :
      PositiveReachable s → 1 ≤ quantity → isInt quantity →
      (∀ cb ∈ s.cartBooks, cb.BookID = bookID → cb.Quantity + quantity < 2 ^ 63) →
      PositiveReachable (AddToCart s flt userID bookID quantity).2
  | updateQuantity (s : Store F) (flt : Faults) (userID bookID : Nat) (quantity : Int) :
      PositiveReachable s → 1 ≤ quantity → isInt quantity →
      PositiveReachable (UpdateQuantity s flt userID bookID quantity).2
  | removeFromCart (s : Store F) (flt : Faults) (userID bookID : Nat) :
      PositiveReachable s → PositiveReachable (RemoveFromCart s flt userID bookID).2
  | clearCart (s : Store F) (flt : Faults) (userID : Nat) :
      PositiveReachable s → PositiveReachable (ClearCart s flt userID).2
  | createOrder (s : Store F) (flt : Faults) (userID : Nat) (address : String) :
      PositiveReachable s → PositiveReachable (CreateOrder s flt userID address).2


/-- Every order of `s` is an order of `s2`, at the same position and with the
same id: the ids of `s.orders` are an initial segment of those of `s2.orders`. -/
def ordersKept (s s2 : Store F) : Prop :=
  List.IsPrefix (s.orders.map (fun o => o.ID)) (s2.orders.map (fun o => o.ID))


/-- The row of a book after a toggle of the stock flag of book `bookID`: the
flag is negated on that book, and every other row is as it was. -/
def toggleStock (bookID : Nat) (b : Book F) : Book F :=
  if b.ID = bookID then { b with InStock := !b.InStock } else b


/-- The part of an order projection that is read from the order and its lines:
id, status, total, address, and the quantity and price of each line. -/
def OrderResponse.snapshot (r : OrderResponse F) : Nat × String × F × String × List (Int × F) :=
  (r.ID, r.Status, r.Total, r.Address, r.Books.map (fun b => (b.Quantity, b.Price)))

/-- The part of an order projection that is read from the books of its lines:
the title and the author of each line. -/
def OrderResponse.display (r : OrderResponse F) : List (String × String) :=
  r.Books.map (fun b => (b.Title, b.Author))

/-- The store state that differs from `s` only in the contents of the table of
books. -/
def withBooks (s : Store F) (books : List (Book F)) : Store F :=
  { s with books := books }


/-- The order line carries the signed cart quantity `q` as an unsigned value:
`q` itself when `q` is non-negative, and `q` modulo `2^64`, that is
`q + 2^64`, when `q` is negative. -/
def unsignedCopy (q : Int) (n : Nat) : Prop :=
  (0 ≤ q → (n : Int) = q) ∧ (q < 0 → (n : Int) = q % 2 ^ 64 ∧ (n : Int) = q + 2 ^ 64)


/-- No two cart rows belong to the same user. -/
def Store.oneCartPerUser (s : Store F) : Prop :=
  (s.carts.map (fun c => c.UserID)).Nodup


/-- No two users share a username, and no two share an email. -/
def Store.uniqueCredentials (s : Store F) : Prop :=
  (s.users.map (fun u => u.Username)).Nodup ∧ (s.users.map (fun u => u.Email)).Nodup


/-- The integer values of a list of segments, in order, or `none` when `Atoi`
rejects one of them. -/
def atoiAll (Atoi : String → Option Int) : List String → Option (List Int)
  | [] => some []
  | seg :: rest =>
    match Atoi seg with
    | none => none
    | some id => (atoiAll Atoi rest).map (fun ids => id :: ids)


/-! ## Concrete stores and requests -/

/-- Request for a book with an integer price. -/
def bookReq (title : String) (price : Int) : BookRequest IntF32 :=
  { Title := title, Author := "author", Description := "text", Price := some ⟨price⟩ }

/-- The store once alice, the first user, is registered (user 1). -/
def aliceStore : Store IntF32 :=
  createUser Store.empty
    { ID := 0, Username := "alice", Password := "hash of pw", Email := "a@x.com", Role := "admin" }

/-- Catalog of the scenario: alice is registered, book 1 costs 10, book 2 costs 20. -/
def catalogStore : Store IntF32 :=
  (CreateBook (CreateBook aliceStore noFaults (bookReq "B1" 10)).2 noFaults (bookReq "B2" 20)).2

/-- The scenario's cart: user 1 added two copies of book 1 and one of book 2. -/
def scenarioStore : Store IntF32 :=
  (AddToCart (AddToCart catalogStore noFaults 1 1 2).2 noFaults 1 2 1).2

/-- A cart reached with a negative quantity: user 1 added `-1` copy of book 1. -/
def negativeStore : Store IntF32 := (AddToCart catalogStore noFaults 1 1 (-1)).2

/-- The scenario after checkout: user 1 has ordered the cart of `scenarioStore`. -/
def orderedStore : Store IntF32 := (CreateOrder scenarioStore noFaults 1 "Main St").2

/-- The fault pattern in which exactly the call site `k` fails. -/
def failAt (k : Nat) : Faults := fun i => if i = k then some "store failure" else none

/-- The fault pattern in which every call site but the first fails. -/
def failAfterLookup : Faults := fun i => if i = 0 then none else some "connection lost"

/-- Claims of a token whose only claim is the role. -/
def roleClaims (role : String) : MapClaims :=
  fun key => if key = "role" then some (.str role) else none

/-- A verifier that accepts every token, with the claims `roleClaims role`. -/
def acceptAs (role : String) : String → Except String MapClaims := fun _ => .ok (roleClaims role)

/-- A verifier that rejects every token. -/
def rejectAll : String → Except String MapClaims := fun _ => .error "signature is invalid"

/-- A verifier that accepts every token, with an empty claim set. -/
def acceptNoRole : String → Except String MapClaims := fun _ => .ok (fun _ => none)


/-- A stand-in for bcrypt's hash, used to evaluate examples. -/
def hashOf : String → Option String := fun password => some ("hash of " ++ password)

/-- The comparison that goes with `hashOf`. -/
def compareHashOf : String → String → Bool := fun hash password => hash == "hash of " ++ password

/-- A stand-in for the signer, used to evaluate examples: the token spells out
its claims. -/
def spellOut : SigningMethod → TokenClaims → Except String String :=
  fun _ claims => .ok ("jwt." ++ claims.username ++ "." ++ claims.role)

/-- The roles of `n` users of whom the first has role `first` and the others
have role "user". -/
def rolesOf (first : String) : Nat → List String
  | 0 => []
  | n + 1 => first :: List.replicate n "user"

/-- Successive registrations, none of whose store calls fails: the final store,
or `none` as soon as one registration returns an error. -/
def registerAll (GenerateFromPassword : String → Option String) :
    Store F → List RegisterRequest → Option (Store F)
  | s, [] => some s
  | s, request :: rest =>
    match Register s noFaults GenerateFromPassword request with
    | (none, s1) => registerAll GenerateFromPassword s1 rest
    | (some _, _) => none

/-- The store once alice, then bob, are registered. -/
def aliceBobStore : Store IntF32 :=
  (Register aliceStore noFaults hashOf ⟨"bob", "pw2", "b@x.com"⟩).2


/-- A stand-in for the signer, used to evaluate examples: the token shows the
username, the role and the expiry, and only HS256 is accepted. -/
def showClaims : SigningMethod → TokenClaims → Except String String :=
  fun method claims =>
    match method with
    | .HS256 => .ok (claims.username ++ ":" ++ claims.role ++ ":" ++ toString claims.exp.toNat)
    | _ => .error "unexpected signing method"


/-- The store of `orderedStore` after a catalog edit: every book has a new
title, and nothing else differs. -/
def retitledStore : Store IntF32 :=
  withBooks orderedStore (orderedStore.books.map (fun b => { b with Title := "Second edition" }))


/-- The value of a decimal digit. -/
def digitValue (c : Char) : Option Nat :=
  if 48 ≤ c.toNat ∧ c.toNat ≤ 57 then some (c.toNat - 48) else none

/-- The value of a string of decimal digits, from the value `acc` of the
digits read so far. -/
def digitsValue : List Char → Nat → Option Nat
  | [], acc => some acc
  | c :: cs, acc =>
    match digitValue c with
    | none => none
    | some d => digitsValue cs (10 * acc + d)

/-- A stand-in for `strconv.Atoi`, used to evaluate examples: an optional sign,
then at least one decimal digit, and a value in the range of `int`. -/
def decimalAtoi (s : String) : Option Int :=
  match s.data with
  | [] => none
  | c :: cs =>
    let sign : Int := if c = '-' then -1 else 1
    let digits := if c = '-' ∨ c = '+' then cs else c :: cs
    match digits with
    | [] => none
    | d :: ds =>
      match digitsValue (d :: ds) 0 with
      | none => none
      | some n => if isInt (sign * n) then some (sign * n) else none


/-! # Theorems -/

/-! ## Lemmas on the store primitives -/

theorem orderLoop_eq [Float32 F] (xs : List (CartBook × Book F)) (total : F) (orderBooks : List (OrderBook F)) :
    orderLoop xs total orderBooks =
      ((xs.map (fun x => Float32.mul x.2.Price (Float32.ofInt x.1.Quantity))).foldl Float32.add total,
       orderBooks ++ xs.map (fun x =>
          ({ ID := 0, OrderID := 0, BookID := x.1.BookID, Quantity := toUint x.1.Quantity,
             Price := x.2.Price } : OrderBook F))) := by
  induction xs generalizing total orderBooks with
  | nil => simp [orderLoop]
  | cons x rest ih => simp [orderLoop, ih]

theorem assignLineIDs_forall₂ (orderID : Nat) (l : List (OrderBook F)) (next : Nat) :
    List.Forall₂ (fun a b => b.OrderID = orderID ∧ b.BookID = a.BookID ∧ b.Quantity = a.Quantity ∧
      b.Price = a.Price) l (assignLineIDs orderID next l) := by
  induction l generalizing next with
  | nil => simp [assignLineIDs]
  | cons x rest ih => simp [assignLineIDs, ih]

theorem toUint_uintQuantity (q : Int) : uintQuantity q (toUint q) := by
  have hpos : (0 : Int) < 2 ^ 64 := by norm_num
  have hnn : 0 ≤ q % 2 ^ 64 := Int.emod_nonneg q (ne_of_gt hpos)
  have h1 : ((toUint q : Nat) : Int) = q % 2 ^ 64 := by
    unfold toUint
    exact Int.toNat_of_nonneg hnn
  refine ⟨h1, fun h0 h63 => ?_⟩
  rw [h1]
  exact Int.emod_eq_of_lt h0 (by omega)

theorem preloadCartBooks_eq [Float32 F] (s : Store F) (cartID : Nat) :
    preloadCartBooks s cartID = (cartLines s cartID).map (fun cb => (cb, preloadBook s cb.BookID)) := rfl

/-- The result of `CreateOrder` once the cart is found with at least one line:
the error is `nil`, a response is returned, and the store is the outcome of the
two writes, whatever the failures of the calls after the lookup. -/
theorem CreateOrder_store [Float32 F] (s : Store F) (flt : Faults) (userID : Nat) (address : String) (cart : Cart)
    (h0 : flt 0 = none)
    (hcart : firstCartByUser s userID = some cart) (hlines : cartLines s cart.ID ≠ []) :
    (CreateOrder s flt userID address).1.2 = none ∧
    (CreateOrder s flt userID address).1.1.isSome = true ∧
    (CreateOrder s flt userID address).2 =
      deleteLinesStep
        (createOrderStep s flt (builtOrder s userID address cart) (builtLines s cart)).2.2 flt cart.ID := by
  have hlen : (preloadCartBooks s cart.ID).length ≠ 0 := by
    rw [preloadCartBooks_eq, List.length_map]
    exact fun h => hlines (List.length_eq_zero.mp h)
  unfold CreateOrder
  simp only [h0, hcart]
  rw [if_neg hlen]
  simp only [orderLoop_eq, preloadCartBooks_eq, builtOrder, builtLines,
    List.map_map, List.nil_append, cartTotal, Function.comp_def, Option.isSome_some, and_self]

/-- The outcome of line 98 when the statement is accepted: the rows of the
order are written. -/
theorem createOrderStep_accepted [Float32 F] (s : Store F) (flt : Faults) (order : Order F)
    (orderBooks : List (OrderBook F)) (h1 : flt 1 = none) (hfit : storable orderBooks = true) :
    createOrderStep s flt order orderBooks =
      ((insertOrder s order orderBooks).1,
        (insertOrder s order orderBooks).2.1.map (fun ob => (ob, Book.zeroValue)),
        (insertOrder s order orderBooks).2.2) := by
  simp only [createOrderStep, h1, createOrder, hfit, if_true]

/-- The outcome of line 98 when the statement fails, for a store failure or for
a line that does not fit its column: nothing is written and the structs are as
built. -/
theorem createOrderStep_refused [Float32 F] (s : Store F) (flt : Faults) (order : Order F)
    (orderBooks : List (OrderBook F)) (h : flt 1 ≠ none ∨ storable orderBooks = false) :
    createOrderStep s flt order orderBooks =
      (order, orderBooks.map (fun ob => (ob, Book.zeroValue)), s) := by
  unfold createOrderStep
  cases h1 : flt 1 with
  | some e => rfl
  | none =>
    rcases h with h | h
    · exact absurd h1 h
    · simp only [createOrder, h, Bool.false_eq_true, if_false]

/-- The store after line 98: as before, or with the rows of the order. -/
theorem createOrderStep_cases [Float32 F] (s : Store F) (flt : Faults) (order : Order F)
    (orderBooks : List (OrderBook F)) :
    (createOrderStep s flt order orderBooks).2.2 = s ∨
    (flt 1 = none ∧ storable orderBooks = true ∧
      (createOrderStep s flt order orderBooks).2.2 = (insertOrder s order orderBooks).2.2) := by
  cases h1 : flt 1 with
  | some e =>
    rw [createOrderStep_refused s flt order orderBooks (Or.inl (by rw [h1]; exact fun h => by cases h))]
    exact Or.inl rfl
  | none =>
    cases hfit : storable orderBooks with
    | false =>
      rw [createOrderStep_refused s flt order orderBooks (Or.inr hfit)]
      exact Or.inl rfl
    | true =>
      rw [createOrderStep_accepted s flt order orderBooks h1 hfit]
      exact Or.inr ⟨rfl, rfl, rfl⟩

/-- The lines built from a cart whose quantities are non-negative `int`s fit
their column. -/
theorem storable_builtLines [Float32 F] (s : Store F) (cart : Cart)
    (hq : ∀ cb ∈ cartLines s cart.ID, 0 ≤ cb.Quantity ∧ cb.Quantity < 2 ^ 63) :
    storable (builtLines s cart) = true := by
  unfold storable builtLines
  rw [List.all_eq_true]
  intro ob hob
  obtain ⟨cb, hcb, rfl⟩ := List.mem_map.mp hob
  have hu := (toUint_uintQuantity cb.Quantity).2 (hq cb hcb).1 (hq cb hcb).2
  have h63 := (hq cb hcb).2
  have e63 : (2 : Int) ^ 63 = 9223372036854775808 := by norm_num
  have n63 : (2 : Nat) ^ 63 = 9223372036854775808 := by norm_num
  simp only [fitsBigint, decide_eq_true_eq]
  rw [e63] at h63
  rw [n63]
  omega

/-- The lines built from a cart that holds a negative `int` quantity do not all
fit their column. -/
theorem not_storable_builtLines [Float32 F] (s : Store F) (cart : Cart)
    (hq : ∃ cb ∈ cartLines s cart.ID, cb.Quantity < 0 ∧ isInt cb.Quantity) :
    storable (builtLines s cart) = false := by
  obtain ⟨cb, hcb, hneg, hint⟩ := hq
  cases hfit : storable (builtLines s cart) with
  | false => rfl
  | true =>
    exfalso
    unfold storable builtLines at hfit
    rw [List.all_eq_true] at hfit
    have h := hfit _ (List.mem_map_of_mem _ hcb)
    have hu := (toUint_uintQuantity cb.Quantity).1
    have e63 : (2 : Int) ^ 63 = 9223372036854775808 := by norm_num
    have e64 : (2 : Int) ^ 64 = 18446744073709551616 := by norm_num
    have n63 : (2 : Nat) ^ 63 = 9223372036854775808 := by norm_num
    simp only [fitsBigint, decide_eq_true_eq] at h
    unfold isInt at hint
    rw [e63] at hint
    rw [e64] at hu
    rw [n63] at h
    omega

/-- The store and the error returned by `CreateOrder` when the cart is found
with at least one line and the two writes succeed. -/
theorem CreateOrder_run [Float32 F] (s : Store F) (flt : Faults) (userID : Nat) (address : String) (cart : Cart)
    (h0 : flt 0 = none) (h1 : flt 1 = none) (hfit : storable (builtLines s cart) = true)
    (h2 : flt 2 = none)
    (hcart : firstCartByUser s userID = some cart) (hlines : cartLines s cart.ID ≠ []) :
    (CreateOrder s flt userID address).1.2 = none ∧
    (CreateOrder s flt userID address).1.1.isSome = true ∧
    (CreateOrder s flt userID address).2 =
      deleteCartBooks
        (insertOrder s (builtOrder s userID address cart) (builtLines s cart)).2.2 cart.ID := by
  obtain ⟨e1, e2, e3⟩ := CreateOrder_store s flt userID address cart h0 hcart hlines
  refine ⟨e1, e2, ?_⟩
  rw [e3, createOrderStep_accepted s flt _ _ h1 hfit]
  simp only [deleteLinesStep, h2]

/-- The store `CreateOrder` leaves when the cart is found with at least one
line and the insertion of the order fails: no order and no order line is
written, and the cart is drained if the deletion goes through. -/
theorem CreateOrder_refused [Float32 F] (s : Store F) (flt : Faults) (userID : Nat) (address : String)
    (cart : Cart) (h0 : flt 0 = none)
    (hcart : firstCartByUser s userID = some cart) (hlines : cartLines s cart.ID ≠ [])
    (hfail : flt 1 ≠ none ∨ storable (builtLines s cart) = false) :
    (CreateOrder s flt userID address).1.2 = none ∧
    (CreateOrder s flt userID address).1.1.isSome = true ∧
    (CreateOrder s flt userID address).2 = deleteLinesStep s flt cart.ID := by
  obtain ⟨e1, e2, e3⟩ := CreateOrder_store s flt userID address cart h0 hcart hlines
  refine ⟨e1, e2, ?_⟩
  rw [e3, createOrderStep_refused s flt _ _ hfail]

theorem cartLines_deleteCartBooks (s : Store F) (cartID : Nat) :
    cartLines (deleteCartBooks s cartID) cartID = [] := by
  simp [cartLines, deleteCartBooks, List.filter_filter]

/-- What `CreateOrder` leaves in the store when the cart is found with at least
one line and the two writes succeed. -/
theorem CreateOrder_post [Float32 F] (s : Store F) (flt : Faults) (userID : Nat) (address : String) (cart : Cart)
    (h0 : flt 0 = none) (h1 : flt 1 = none) (hfit : storable (builtLines s cart) = true)
    (h2 : flt 2 = none)
    (hcart : firstCartByUser s userID = some cart) (hlines : cartLines s cart.ID ≠ []) :
    CreateOrderPost uintQuantity s userID address cart (CreateOrder s flt userID address).2 := by
  rw [(CreateOrder_run s flt userID address cart h0 h1 hfit h2 hcart hlines).2.2]
  refine ⟨{ ID := s.nextOrderID, UserID := userID, Status := "pending", Address := address,
            Total := cartTotal s (cartLines s cart.ID) }, _, rfl, rfl, rfl, rfl, rfl, rfl, ?_, ?_, ?_⟩
  · have key := assignLineIDs_forall₂ s.nextOrderID (builtLines s cart) s.nextOrderBookID
    unfold builtLines at key
    rw [List.forall₂_map_left_iff] at key
    refine List.Forall₂.imp ?_ key
    intro cb ob h
    refine ⟨h.1, h.2.1, ?_, h.2.2.2⟩
    rw [h.2.2.1]
    exact toUint_uintQuantity cb.Quantity
  · exact hcart
  · exact cartLines_deleteCartBooks _ _

/-- A relation between two lists, element by element, passes to a weaker
relation on the elements of the first list. -/
theorem forall₂_imp_mem {α β : Type} {R S : α → β → Prop} {l1 : List α} {l2 : List β}
    (h : List.Forall₂ R l1 l2) (himp : ∀ a ∈ l1, ∀ b, R a b → S a b) : List.Forall₂ S l1 l2 := by
  induction h with
  | nil => exact List.Forall₂.nil
  | cons hab _ ih =>
    exact List.Forall₂.cons (himp _ (List.mem_cons_self _ _) _ hab)
      (ih (fun a ha b hr => himp a (List.mem_cons_of_mem _ ha) b hr))

/-- The claim of C1 where the writes succeed: when the cart is found with at
least one line, its quantities are non-negative `int`s and the insertion of the
order and the deletion of the cart's lines succeed, `CreateOrder` persists one
new order, pending, with the given address and the total of the cart, and one
order line per cart line, in cart order, with the line's book, its quantity and
the book's current price; the cart is still there and has no line. -/
theorem CreateOrder_consolidates [Float32 F] (s : Store F) (flt : Faults) (userID : Nat)
    (address : String) (cart : Cart)
    (h0 : flt 0 = none) (h1 : flt 1 = none) (h2 : flt 2 = none)
    (hcart : firstCartByUser s userID = some cart) (hlines : cartLines s cart.ID ≠ [])
    (hq : ∀ cb ∈ cartLines s cart.ID, 0 ≤ cb.Quantity ∧ cb.Quantity < 2 ^ 63) :
    CreateOrderPost sameQuantity s userID address cart (CreateOrder s flt userID address).2 := by
  obtain ⟨o, newLines, ho, hob, hu, hst, ha, htot, hrel, hc, hl⟩ :=
    CreateOrder_post s flt userID address cart h0 h1 (storable_builtLines s cart hq) h2 hcart hlines
  refine ⟨o, newLines, ho, hob, hu, hst, ha, htot, ?_, hc, hl⟩
  exact forall₂_imp_mem hrel
    (fun cb hcb ob hr => ⟨hr.1, hr.2.1, hr.2.2.1.2 (hq cb hcb).1 (hq cb hcb).2, hr.2.2.2⟩)

theorem reachable_negativeStore : Reachable negativeStore :=
  Reachable.addToCart _ _ _ _ _
    (Reachable.createBook _ _ _
      (Reachable.createBook _ _ _ (Reachable.createUser _ _ Reachable.empty)))
    (by decide)

/-! ## C1: cart consolidation -/

/-- Claim C1 (failing input): user 1 holds a cart with one line, of quantity
`-1`, put there by `AddToCart`.  `CreateOrder` returns a response and a `nil`
error, so the call is successful for its caller, yet no order and no order line
is persisted, and the cart is drained: the built line, of quantity `2^64 - 1`,
does not fit its column, the insertion fails and its error is dropped. -/
theorem createOrder_success_without_order :
    Reachable negativeStore ∧
    firstCartByUser negativeStore 1 = some ⟨1, 1⟩ ∧
    cartLines negativeStore 1 = [⟨1, 1, 1, -1⟩] ∧
    (builtLines negativeStore ⟨1, 1⟩).map (fun ob => ob.Quantity) = [18446744073709551615] ∧
    storable (builtLines negativeStore ⟨1, 1⟩) = false ∧
    (CreateOrder negativeStore noFaults 1 "Main St").1.2 = none ∧
    (CreateOrder negativeStore noFaults 1 "Main St").1.1.isSome = true ∧
    (CreateOrder negativeStore noFaults 1 "Main St").2.orders = [] ∧
    (CreateOrder negativeStore noFaults 1 "Main St").2.orderBooks = [] ∧
    cartLines (CreateOrder negativeStore noFaults 1 "Main St").2 1 = [] ∧
    ¬ CreateOrderPost sameQuantity negativeStore 1 "Main St" ⟨1, 1⟩
        (CreateOrder negativeStore noFaults 1 "Main St").2 := by
  have horders : (CreateOrder negativeStore noFaults 1 "Main St").2.orders = [] := by decide
  refine ⟨reachable_negativeStore, by decide, by decide, by decide, by decide, by decide,
    by decide, horders, by decide, by decide, ?_⟩
  rintro ⟨o, newLines, ho, -⟩
  rw [horders] at ho
  exact absurd (congrArg List.length ho) (by simp)

/-! ## C2: the two writes of `CreateOrder` -/

/-- C2 (amended): `CreateOrder` issues the insertion of the order and the
deletion of the cart's lines as two separate store writes, without a
transaction around them and without rollback.  Once the cart is found with at
least one line: if both writes succeed the store holds the new order and the
cart is drained; if the insertion succeeds and the deletion fails the new order
stays and the cart keeps its lines; if both writes fail, or the lookup fails,
the store is unchanged.  The insertion succeeds when the call goes through and
every line fits its column. -/
theorem createOrder_two_writes [Float32 F] (s : Store F) (flt : Faults) (userID : Nat) (address : String)
    (cart : Cart)
    (hcart : firstCartByUser s userID = some cart) (hlines : cartLines s cart.ID ≠ []) :
    (flt 0 = none → flt 1 = none → storable (builtLines s cart) = true → flt 2 = none →
      (∃ o, (CreateOrder s flt userID address).2.orders = s.orders ++ [o]) ∧
      cartLines (CreateOrder s flt userID address).2 cart.ID = []) ∧
    (flt 0 = none → flt 1 = none → storable (builtLines s cart) = true → flt 2 ≠ none →
      (∃ o, (CreateOrder s flt userID address).2.orders = s.orders ++ [o]) ∧
      cartLines (CreateOrder s flt userID address).2 cart.ID = cartLines s cart.ID) ∧
    (flt 0 = none → (flt 1 ≠ none ∨ storable (builtLines s cart) = false) → flt 2 ≠ none →
      (CreateOrder s flt userID address).2 = s) ∧
    (flt 0 ≠ none → (CreateOrder s flt userID address).2 = s) := by
  refine ⟨fun h0 h1 hfit h2 => ?_, fun h0 h1 hfit h2 => ?_, fun h0 h1 h2 => ?_, fun h0 => ?_⟩
  · rw [(CreateOrder_run s flt userID address cart h0 h1 hfit h2 hcart hlines).2.2]
    exact ⟨⟨_, rfl⟩, cartLines_deleteCartBooks _ _⟩
  · rw [(CreateOrder_store s flt userID address cart h0 hcart hlines).2.2,
      createOrderStep_accepted s flt _ _ h1 hfit]
    obtain ⟨e, he⟩ := Option.ne_none_iff_exists'.mp h2
    simp only [deleteLinesStep, he]
    exact ⟨⟨_, rfl⟩, rfl⟩
  · rw [(CreateOrder_refused s flt userID address cart h0 hcart hlines h1).2.2]
    obtain ⟨e2, he2⟩ := Option.ne_none_iff_exists'.mp h2
    simp only [deleteLinesStep, he2]
  · obtain ⟨e, he⟩ := Option.ne_none_iff_exists'.mp h0
    simp only [CreateOrder, he]

/-- The deletion of the cart's lines fails after the order was inserted: the
order of the scenario is in the store and the cart still has its two lines. -/
theorem createOrder_two_writes_witness :
    (firstCartByUser scenarioStore 1 = some ⟨1, 1⟩ ∧ cartLines scenarioStore 1 ≠ []) ∧
    (∃ o, (CreateOrder scenarioStore (failAt 2) 1 "Main St").2.orders = scenarioStore.orders ++ [o]) ∧
    cartLines (CreateOrder scenarioStore (failAt 2) 1 "Main St").2 1 = cartLines scenarioStore 1 :=
  ⟨⟨by decide, by decide⟩,
   (createOrder_two_writes scenarioStore (failAt 2) 1 "Main St" ⟨1, 1⟩ (by decide) (by decide)).2.1
     (by decide) (by decide) (by decide) (by decide)⟩

/-- C2 as stated fails: in the scenario, when the deletion of the cart's lines
fails, `CreateOrder` returns a `nil` error, the order is in the store and the
cart still holds its two lines: the outcome is not all-or-nothing. -/
theorem createOrder_atomicity_counterexample :
    (CreateOrder scenarioStore (failAt 2) 1 "Main St").1.2 = none ∧
    (CreateOrder scenarioStore (failAt 2) 1 "Main St").2.orders =
      [⟨1, 1, "pending", "Main St", ⟨40⟩⟩] ∧
    cartLines (CreateOrder scenarioStore (failAt 2) 1 "Main St").2 1 =
      [⟨1, 1, 1, 2⟩, ⟨2, 1, 2, 1⟩] ∧
    ¬ AtomicOutcome scenarioStore (CreateOrder scenarioStore (failAt 2) 1 "Main St").2 ⟨1, 1⟩ := by
  refine ⟨by decide, by decide, by decide, ?_⟩
  rintro (⟨-, h⟩ | ⟨h, -⟩)
  · exact absurd h (by decide)
  · exact absurd h (by decide)

/-! ## C7: store failures in `CreateOrder` -/

/-- C7 (failing input): in the scenario, with the insertion of the order, the
deletion of the cart's lines and the reload of the order all failing,
`CreateOrder` still returns a response and a `nil` error (and the store is as
before): the three store errors are dropped. -/
theorem createOrder_drops_store_errors :
    (CreateOrder scenarioStore failAfterLookup 1 "Main St").1.2 = none ∧
    (CreateOrder scenarioStore failAfterLookup 1 "Main St").1.1.isSome = true ∧
    (CreateOrder scenarioStore failAfterLookup 1 "Main St").2 = scenarioStore := by
  refine ⟨by decide, by decide, by decide⟩

/-! ## Lookups after `Save` -/

theorem find?_map_replace {α : Type} (key : α → Nat) (id : Nat) (x : α) (hx : key x = id)
    (l : List α) (h : (l.find? (fun r => key r == id)).isSome = true) :
    (l.map (fun r => if key r == id then x else r)).find? (fun r => key r == id) = some x := by
  have ex : (key x == id) = true := by simp [hx]
  induction l with
  | nil => simp at h
  | cons a rest ih =>
    by_cases ha : key a = id
    · have ea : (key a == id) = true := by simp [ha]
      simp only [List.map_cons, List.find?_cons, ea, if_true, ex]
    · have ea : (key a == id) = false := by simp [ha]
      have hrest : (rest.find? (fun r => key r == id)).isSome = true := by
        simpa only [List.find?_cons, ea] using h
      simp only [List.map_cons, List.find?_cons, ea, Bool.false_eq_true, if_false]
      exact ih hrest

theorem find?_map_replace_other {α : Type} (key : α → Nat) (id id2 : Nat) (x : α) (hx : key x = id)
    (hne : id2 ≠ id) (l : List α) :
    (l.map (fun r => if key r == id then x else r)).find? (fun r => key r == id2) =
      l.find? (fun r => key r == id2) := by
  have ex : (key x == id2) = false := by
    simp only [beq_eq_false_iff_ne, ne_eq]
    exact fun h => hne (h ▸ hx)
  induction l with
  | nil => rfl
  | cons a rest ih =>
    by_cases ha : key a = id
    · have ea : (key a == id) = true := by simp [ha]
      have ea2 : (key a == id2) = false := by
        simp only [beq_eq_false_iff_ne, ne_eq]
        exact fun h => hne (h ▸ ha)
      simp only [List.map_cons, List.find?_cons, ea, if_true, ex, ea2]
      exact ih
    · have ea : (key a == id) = false := by simp [ha]
      simp only [List.map_cons, List.find?_cons, ea, Bool.false_eq_true, if_false]
      rw [ih]

theorem filter_map_replace_other {α : Type} (key : α → Nat) (id : Nat) (x : α) (hx : key x = id)
    (l : List α) :
    (l.map (fun r => if key r == id then x else r)).filter (fun r => !(key r == id)) =
      l.filter (fun r => !(key r == id)) := by
  have ex : (key x == id) = true := by simp [hx]
  induction l with
  | nil => rfl
  | cons a rest ih =>
    by_cases ha : key a = id
    · have ea : (key a == id) = true := by simp [ha]
      simp only [List.map_cons, List.filter_cons, ea, if_true, ex, Bool.not_true,
        Bool.false_eq_true, if_false]
      exact ih
    · have ea : (key a == id) = false := by simp [ha]
      simp only [List.map_cons, List.filter_cons, ea, Bool.false_eq_true, if_false, Bool.not_false,
        if_true]
      rw [ih]

theorem firstOrder_id {s : Store F} {orderID : Nat} {order : Order F}
    (h : firstOrder s orderID = some order) : order.ID = orderID := by
  have := List.find?_some h
  simpa using this

theorem firstOrder_saveOrder (s : Store F) (orderID : Nat) (order x : Order F)
    (h : firstOrder s orderID = some order) (hx : x.ID = orderID) :
    firstOrder (saveOrder s x) orderID = some x := by
  unfold firstOrder saveOrder
  simp only
  rw [hx]
  exact find?_map_replace (fun r : Order F => r.ID) orderID x hx s.orders
    (by unfold firstOrder at h; rw [h]; rfl)

theorem firstOrder_saveOrder_other (s : Store F) (id2 : Nat) (x : Order F) (hne : id2 ≠ x.ID) :
    firstOrder (saveOrder s x) id2 = firstOrder s id2 := by
  unfold firstOrder saveOrder
  exact find?_map_replace_other (fun r : Order F => r.ID) x.ID id2 x rfl hne s.orders

/-! ## C3: the cancel guard -/

/-- What `CancelOrder` does on an existing order when its two store calls go
through. -/
theorem CancelOrder_found (s : Store F) (flt : Faults) (orderID : Nat) (order : Order F)
    (h0 : flt 0 = none) (h1 : flt 1 = none) (hfound : firstOrder s orderID = some order) :
    CancelOrder s flt orderID =
      if order.Status ≠ "pending" ∧ order.Status ≠ "approved" then (some .ErrOrderCancel, s)
      else (none, saveOrder s { order with Status := "cancelled" }) := by
  unfold CancelOrder
  simp only [h0, hfound, h1]

/-- C3: for an existing order, `CancelOrder` (its store calls going through)
returns `nil` if and only if the order's status is "pending" or "approved"; in
that case the stored order has status "cancelled" afterwards (and is otherwise
the same); for every other status it returns `ErrOrderCancel` and leaves the
store, hence the order's status, unchanged. -/
theorem cancelOrder_guard (s : Store F) (flt : Faults) (orderID : Nat) (order : Order F)
    (h0 : flt 0 = none) (h1 : flt 1 = none) (hfound : firstOrder s orderID = some order) :
    ((CancelOrder s flt orderID).1 = none ↔ (order.Status = "pending" ∨ order.Status = "approved")) ∧
    ((order.Status = "pending" ∨ order.Status = "approved") →
      firstOrder (CancelOrder s flt orderID).2 orderID = some { order with Status := "cancelled" }) ∧
    (¬ (order.Status = "pending" ∨ order.Status = "approved") →
      (CancelOrder s flt orderID).1 = some .ErrOrderCancel ∧ (CancelOrder s flt orderID).2 = s) := by
  rw [CancelOrder_found s flt orderID order h0 h1 hfound]
  by_cases hst : order.Status = "pending" ∨ order.Status = "approved"
  · have hg : ¬ (order.Status ≠ "pending" ∧ order.Status ≠ "approved") := by
      rintro ⟨a, b⟩
      exact hst.elim a b
    rw [if_neg hg]
    refine ⟨⟨fun _ => hst, fun _ => rfl⟩, fun _ => ?_, fun h => absurd hst h⟩
    have hid : order.ID = orderID := firstOrder_id hfound
    exact firstOrder_saveOrder s orderID order _ hfound hid

  · have hg : order.Status ≠ "pending" ∧ order.Status ≠ "approved" :=
      ⟨fun a => hst (Or.inl a), fun b => hst (Or.inr b)⟩
    rw [if_pos hg]
    refine ⟨⟨fun h => ?_, fun h => absurd h hst⟩, fun h => absurd h hst, fun _ => ⟨rfl, rfl⟩⟩
    exact absurd h (by simp)

/-- The pending order of the scenario is cancelled. -/
theorem cancelOrder_guard_witness :
    firstOrder orderedStore 1 = some ⟨1, 1, "pending", "Main St", ⟨40⟩⟩ ∧
    (CancelOrder orderedStore noFaults 1).1 = none ∧
    firstOrder (CancelOrder orderedStore noFaults 1).2 1 =
      some ⟨1, 1, "cancelled", "Main St", ⟨40⟩⟩ :=
  ⟨by decide,
   (cancelOrder_guard orderedStore noFaults 1 ⟨1, 1, "pending", "Main St", ⟨40⟩⟩ rfl rfl
      (by decide)).1.mpr (Or.inl rfl),
   (cancelOrder_guard orderedStore noFaults 1 ⟨1, 1, "pending", "Main St", ⟨40⟩⟩ rfl rfl
      (by decide)).2.1 (Or.inl rfl)⟩

/-! ## C5: empty or missing cart -/

/-- `CreateOrder` on a missing cart or a cart without lines. -/
theorem createOrder_empty_cart_eq [Float32 F] (s : Store F) (flt : Faults) (userID : Nat)
    (address : String) (h0 : flt 0 = none)
    (hempty : firstCartByUser s userID = none ∨
      ∃ cart, firstCartByUser s userID = some cart ∧ cartLines s cart.ID = []) :
    CreateOrder s flt userID address = ((none, some .ErrEmptyCart), s) := by
  unfold CreateOrder
  rcases hempty with hnone | ⟨cart, hcart, hlines⟩
  · simp only [h0, hnone]
  · have hlen : (preloadCartBooks s cart.ID).length = 0 := by
      rw [preloadCartBooks_eq, hlines]
      rfl
    simp only [h0, hcart]
    rw [if_pos hlen]

/-- C5: when the user has no cart, or the user's cart has no line, `CreateOrder`
(its cart lookup going through) returns a `nil` response and `ErrEmptyCart`, and
the store is unchanged: no order, no order line is created and no cart line is
deleted. -/
theorem createOrder_empty_cart [Float32 F] (s : Store F) (flt : Faults) (userID : Nat) (address : String)
    (h0 : flt 0 = none)
    (hempty : firstCartByUser s userID = none ∨
      ∃ cart, firstCartByUser s userID = some cart ∧ cartLines s cart.ID = []) :
    CreateOrder s flt userID address = ((none, some .ErrEmptyCart), s) :=
  createOrder_empty_cart_eq s flt userID address h0 hempty

/-- User 9999 has no cart in the scenario, and user 1 has an empty cart after
checkout. -/
theorem createOrder_empty_cart_witness :
    (firstCartByUser scenarioStore 9999 = none ∧
      CreateOrder scenarioStore noFaults 9999 "Main St" = ((none, some .ErrEmptyCart), scenarioStore)) ∧
    ((firstCartByUser orderedStore 1 = some ⟨1, 1⟩ ∧ cartLines orderedStore 1 = []) ∧
      CreateOrder orderedStore noFaults 1 "Main St" = ((none, some .ErrEmptyCart), orderedStore)) :=
  ⟨⟨by decide, createOrder_empty_cart scenarioStore noFaults 9999 "Main St" rfl (Or.inl (by decide))⟩,
   ⟨⟨by decide, by decide⟩,
    createOrder_empty_cart orderedStore noFaults 1 "Main St" rfl
      (Or.inr ⟨⟨1, 1⟩, by decide, by decide⟩)⟩⟩

/-! ## C8: the status overwrite -/

/-- What `UpdateStatus` does on an existing order when its two store calls go
through. -/
theorem UpdateStatus_found (s : Store F) (flt : Faults) (orderID : Nat) (status : String)
    (order : Order F) (h0 : flt 0 = none) (h1 : flt 1 = none)
    (hfound : firstOrder s orderID = some order) :
    UpdateStatus s flt orderID status = (none, saveOrder s { order with Status := status }) := by
  unfold UpdateStatus
  simp only [h0, hfound, h1]

/-- The errors `UpdateStatus` can return. -/
theorem UpdateStatus_errors (s : Store F) (flt : Faults) (orderID : Nat) (status : String) :
    (UpdateStatus s flt orderID status).1 = none ∨
    (UpdateStatus s flt orderID status).1 = some .ErrOrderNotFound ∨
    ∃ e, (UpdateStatus s flt orderID status).1 = some (.store e) := by
  unfold UpdateStatus
  cases h0 : flt 0 with
  | some e => exact Or.inr (Or.inr ⟨e, rfl⟩)
  | none =>
    cases hf : firstOrder s orderID with
    | none => exact Or.inr (Or.inl rfl)
    | some order =>
      cases h1 : flt 1 with
      | some e => exact Or.inr (Or.inr ⟨e, rfl⟩)
      | none => exact Or.inl rfl

/-- C8: for an existing order and any string `status` (whatever it is and
whatever the order's current status), `UpdateStatus` (its store calls going
through) returns `nil` and the stored order becomes the same order with status
exactly `status`; every order with another id is unchanged, and so are the other
tables.  Whatever the store does, the error returned is `nil`,
`ErrOrderNotFound` or a store error. -/
theorem updateStatus_overwrites (s : Store F) (flt : Faults) (orderID : Nat) (status : String)
    (order : Order F) (h0 : flt 0 = none) (h1 : flt 1 = none)
    (hfound : firstOrder s orderID = some order) :
    (UpdateStatus s flt orderID status).1 = none ∧
    firstOrder (UpdateStatus s flt orderID status).2 orderID = some { order with Status := status } ∧
    (∀ id2, id2 ≠ orderID →
      firstOrder (UpdateStatus s flt orderID status).2 id2 = firstOrder s id2) ∧
    (UpdateStatus s flt orderID status).2.orders.filter (fun o => !(o.ID == orderID)) =
      s.orders.filter (fun o => !(o.ID == orderID)) ∧
    (UpdateStatus s flt orderID status).2.orderBooks = s.orderBooks ∧
    (UpdateStatus s flt orderID status).2.cartBooks = s.cartBooks ∧
    (UpdateStatus s flt orderID status).2.carts = s.carts ∧
    (UpdateStatus s flt orderID status).2.books = s.books ∧
    (∀ (s0 : Store F) (flt0 : Faults) (id0 : Nat) (status0 : String),
      (UpdateStatus s0 flt0 id0 status0).1 = none ∨
      (UpdateStatus s0 flt0 id0 status0).1 = some .ErrOrderNotFound ∨
      ∃ e, (UpdateStatus s0 flt0 id0 status0).1 = some (.store e)) := by
  have hid : order.ID = orderID := firstOrder_id hfound
  rw [UpdateStatus_found s flt orderID status order h0 h1 hfound]
  refine ⟨rfl, ?_, ?_, ?_, rfl, rfl, rfl, rfl, UpdateStatus_errors⟩
  · exact firstOrder_saveOrder s orderID order _ hfound hid
  · intro id2 hne
    exact firstOrder_saveOrder_other s id2 _ (by simpa [hid] using hne)
  · have := filter_map_replace_other (fun r : Order F => r.ID) orderID
      ({ order with Status := status } : Order F) hid s.orders
    simpa [saveOrder, hid] using this

/-- The pending order of the scenario is given the status "completed", then the
empty status. -/
theorem updateStatus_overwrites_witness :
    firstOrder orderedStore 1 = some ⟨1, 1, "pending", "Main St", ⟨40⟩⟩ ∧
    firstOrder (UpdateStatus orderedStore noFaults 1 "completed").2 1 =
      some ⟨1, 1, "completed", "Main St", ⟨40⟩⟩ ∧
    firstOrder (UpdateStatus orderedStore noFaults 1 "").2 1 = some ⟨1, 1, "", "Main St", ⟨40⟩⟩ :=
  ⟨by decide,
   (updateStatus_overwrites orderedStore noFaults 1 "completed" ⟨1, 1, "pending", "Main St", ⟨40⟩⟩
      rfl rfl (by decide)).2.1,
   (updateStatus_overwrites orderedStore noFaults 1 "" ⟨1, 1, "pending", "Main St", ⟨40⟩⟩
      rfl rfl (by decide)).2.1⟩

/-! ## C9: unknown order ids and empty listings -/

/-- C9: when the id resolves to no order, `CancelOrder`, `GetOrder` and
`UpdateStatus` (the lookup going through) return `ErrOrderNotFound`, `GetOrder`
with a `nil` response, and the store is unchanged; `GetUserOrders` and
`GetOrdersByStatus` with no matching row return an empty result and a `nil`
error. -/
theorem unknown_order_and_empty_listings [Float32 F] (s : Store F) (flt : Faults)
    (orderID userID : Nat) (status : String) (h0 : flt 0 = none) :
    (firstOrder s orderID = none →
      CancelOrder s flt orderID = (some .ErrOrderNotFound, s) ∧
      GetOrder s flt orderID = (none, some .ErrOrderNotFound) ∧
      UpdateStatus s flt orderID status = (some .ErrOrderNotFound, s)) ∧
    ((∀ o ∈ s.orders, o.UserID ≠ userID) → GetUserOrders s flt userID = ([], none)) ∧
    ((∀ o ∈ s.orders, LOWER o.Status ≠ LOWER status) →
      GetOrdersByStatus s flt status = ([], none)) := by
  refine ⟨fun hnone => ⟨?_, ?_, ?_⟩, fun hno => ?_, fun hno => ?_⟩
  · simp only [CancelOrder, h0, hnone]
  · simp only [GetOrder, h0, hnone]
  · simp only [UpdateStatus, h0, hnone]
  · have hf : s.orders.filter (fun o => o.UserID == userID) = [] := by
      rw [List.filter_eq_nil_iff]
      intro o ho
      simpa using hno o ho
    simp only [GetUserOrders, h0, hf, List.map_nil]
  · have hf : s.orders.filter (fun o => LOWER o.Status == LOWER status) = [] := by
      rw [List.filter_eq_nil_iff]
      intro o ho
      simpa using hno o ho
    simp only [GetOrdersByStatus, h0, hf, List.map_nil]

/-- In the scenario after checkout there is no order 9999, no order of user
9999 and no cancelled order. -/
theorem unknown_order_and_empty_listings_witness :
    (firstOrder orderedStore 9999 = none ∧
      (∀ o ∈ orderedStore.orders, o.UserID ≠ 9999) ∧
      (∀ o ∈ orderedStore.orders, LOWER o.Status ≠ LOWER "cancelled")) ∧
    (CancelOrder orderedStore noFaults 9999 = (some .ErrOrderNotFound, orderedStore) ∧
      GetOrder orderedStore noFaults 9999 = (none, some .ErrOrderNotFound) ∧
      UpdateStatus orderedStore noFaults 9999 "shipped" = (some .ErrOrderNotFound, orderedStore)) ∧
    GetUserOrders orderedStore noFaults 9999 = ([], none) ∧
    GetOrdersByStatus orderedStore noFaults "cancelled" = ([], none) :=
  ⟨⟨by decide, by decide, by decide⟩,
   (unknown_order_and_empty_listings orderedStore noFaults 9999 9999 "shipped" rfl).1 (by decide),
   (unknown_order_and_empty_listings orderedStore noFaults 9999 9999 "shipped" rfl).2.1 (by decide),
   (unknown_order_and_empty_listings orderedStore noFaults 9999 9999 "cancelled" rfl).2.2
     (by decide)⟩

/-! ## C4: adding the same book twice -/

theorem map_replace_fresh {α : Type} (key : α → Nat) (id : Nat) (x : α) (l : List α)
    (h : ∀ r ∈ l, key r ≠ id) : l.map (fun r => if key r == id then x else r) = l := by
  induction l with
  | nil => rfl
  | cons a rest ih =>
    have ea : (key a == id) = false := by
      simp only [beq_eq_false_iff_ne, ne_eq]
      exact h a (List.mem_cons_self a rest)
    simp only [List.map_cons, ea, Bool.false_eq_true, if_false]
    rw [ih (fun r hr => h r (List.mem_cons_of_mem a hr))]

theorem wrapInt_of_isInt (q : Int) (h : isInt q) : wrapInt q = q := by
  unfold isInt at h
  unfold wrapInt
  have h1 : (0 : Int) ≤ q + 2 ^ 63 := by omega
  have h2 : q + 2 ^ 63 < 2 ^ 64 := by omega
  rw [Int.emod_eq_of_lt h1 h2]
  omega

/-- First addition of a book to an existing cart: a line is created. -/
theorem AddToCart_new_line (s : Store F) (userID bookID : Nat) (q : Int) (cart : Cart) (b : Book F)
    (hc : firstCartByUser s userID = some cart) (hb : firstBook s bookID = some b)
    (hl : firstCartBook s cart.ID bookID = none) :
    AddToCart s noFaults userID bookID q = (none, createCartBook s cart.ID bookID q) := by
  unfold AddToCart addLine
  simp only [noFaults, hc, hb, hl]

/-- First addition by a user without a cart: the cart is created, then the line. -/
theorem AddToCart_no_cart (s : Store F) (userID bookID : Nat) (q : Int) (b : Book F)
    (hc : firstCartByUser s userID = none) (hb : firstBook s bookID = some b)
    (hl : firstCartBook (createCart s userID).2 s.nextCartID bookID = none) :
    AddToCart s noFaults userID bookID q =
      (none, createCartBook (createCart s userID).2 s.nextCartID bookID q) := by
  have hb2 : firstBook (createCart s userID).2 bookID = some b := hb
  have hid : (createCart s userID).1.ID = s.nextCartID := rfl
  unfold AddToCart addLine
  simp only [noFaults, hc, hb2, hid, hl]

/-- Addition of a book that has a line in the cart: the quantity is incremented. -/
theorem AddToCart_existing_line (s : Store F) (userID bookID : Nat) (q : Int) (cart : Cart)
    (b : Book F) (line : CartBook)
    (hc : firstCartByUser s userID = some cart) (hb : firstBook s bookID = some b)
    (hl : firstCartBook s cart.ID bookID = some line) :
    AddToCart s noFaults userID bookID q =
      (none, saveCartBook s { line with Quantity := wrapInt (line.Quantity + q) }) := by
  unfold AddToCart addLine
  simp only [noFaults, hc, hb, hl]

/-- The second addition, on the store left by the first one. -/
theorem AddToCart_after_create (s0 : Store F) (userID bookID : Nat) (q1 q2 : Int) (cart : Cart)
    (b : Book F)
    (hc : firstCartByUser s0 userID = some cart) (hb : firstBook s0 bookID = some b)
    (hl : firstCartBook s0 cart.ID bookID = none)
    (hfresh : ∀ cb ∈ s0.cartBooks, cb.ID < s0.nextCartBookID) :
    (AddToCart (createCartBook s0 cart.ID bookID q1) noFaults userID bookID q2).1 = none ∧
    firstCartByUser (AddToCart (createCartBook s0 cart.ID bookID q1) noFaults userID bookID q2).2
      userID = some cart ∧
    (AddToCart (createCartBook s0 cart.ID bookID q1) noFaults userID bookID q2).2.cartBooks =
      s0.cartBooks ++ [⟨s0.nextCartBookID, cart.ID, bookID, wrapInt (q1 + q2)⟩] ∧
    cartLinesFor (AddToCart (createCartBook s0 cart.ID bookID q1) noFaults userID bookID q2).2
      cart.ID bookID = [⟨s0.nextCartBookID, cart.ID, bookID, wrapInt (q1 + q2)⟩] := by
  have hc1 : firstCartByUser (createCartBook s0 cart.ID bookID q1) userID = some cart := hc
  have hb1 : firstBook (createCartBook s0 cart.ID bookID q1) bookID = some b := hb
  have hl1 : firstCartBook (createCartBook s0 cart.ID bookID q1) cart.ID bookID =
      some ⟨s0.nextCartBookID, cart.ID, bookID, q1⟩ := by
    unfold firstCartBook at hl ⊢
    simp only [createCartBook, List.find?_append, hl, Option.none_or, List.find?_cons, beq_self_eq_true,
      Bool.and_self]
  rw [AddToCart_existing_line _ userID bookID q2 cart b _ hc1 hb1 hl1]
  have hbooks : (saveCartBook (createCartBook s0 cart.ID bookID q1)
      { ID := s0.nextCartBookID, CartID := cart.ID, BookID := bookID,
        Quantity := wrapInt (q1 + q2) }).cartBooks =
      s0.cartBooks ++ [⟨s0.nextCartBookID, cart.ID, bookID, wrapInt (q1 + q2)⟩] := by
    simp only [saveCartBook, createCartBook, List.map_append, List.map_cons, List.map_nil,
      beq_self_eq_true, if_true]
    rw [map_replace_fresh (fun r : CartBook => r.ID) s0.nextCartBookID _ s0.cartBooks
      (fun r hr => Nat.ne_of_lt (hfresh r hr))]
  have hold : (s0.cartBooks.filter (fun cb => cb.CartID == cart.ID)).filter
      (fun cb => cb.BookID == bookID) = [] := by
    rw [List.filter_filter, List.filter_eq_nil_iff]
    intro cb hcb
    have := List.find?_eq_none.mp hl cb hcb
    simpa [Bool.and_comm] using this
  refine ⟨rfl, hc, hbooks, ?_⟩
  unfold cartLinesFor cartLines
  rw [hbooks, List.filter_append, List.filter_append, hold]
  simp only [List.filter_cons, beq_self_eq_true, if_true, List.filter_nil, List.nil_append]

/-- C4 (amended): for a user, an existing book and quantities `q1`, `q2`, from a
store where the user has no cart or a cart without a line for the book,
`AddToCart` with `q1` then `AddToCart` with `q2` both return `nil` and leave
exactly one line for the book in the user's cart; its quantity is the `int` sum
of `q1` and `q2`, that is `q1 + q2` wrapped to 64 bits, which is `q1 + q2`
whenever that sum is an `int`. -/
theorem addToCart_twice_merges (s : Store F) (userID bookID : Nat) (q1 q2 : Int) (b : Book F)
    (hwf : s.wf) (hbook : firstBook s bookID = some b)
    (hpre : ∀ cart, firstCartByUser s userID = some cart → firstCartBook s cart.ID bookID = none) :
    (AddToCart s noFaults userID bookID q1).1 = none ∧
    (AddToCart (AddToCart s noFaults userID bookID q1).2 noFaults userID bookID q2).1 = none ∧
    (∃ cart,
      firstCartByUser (AddToCart (AddToCart s noFaults userID bookID q1).2 noFaults userID bookID q2).2
        userID = some cart ∧
      cartLinesFor (AddToCart (AddToCart s noFaults userID bookID q1).2 noFaults userID bookID q2).2
        cart.ID bookID = [⟨s.nextCartBookID, cart.ID, bookID, wrapInt (q1 + q2)⟩]) ∧
    (isInt (q1 + q2) → wrapInt (q1 + q2) = q1 + q2) := by
  have hfresh : ∀ cb ∈ s.cartBooks, cb.ID < s.nextCartBookID := fun cb h => (hwf.1 cb h).1
  cases hc : firstCartByUser s userID with
  | some cart =>
    have hl := hpre cart hc
    rw [AddToCart_new_line s userID bookID q1 cart b hc hbook hl]
    obtain ⟨e1, e2, -, e4⟩ := AddToCart_after_create s userID bookID q1 q2 cart b hc hbook hl hfresh
    exact ⟨rfl, e1, ⟨cart, e2, e4⟩, wrapInt_of_isInt _⟩
  | none =>
    have hl : firstCartBook (createCart s userID).2 s.nextCartID bookID = none := by
      unfold firstCartBook
      rw [List.find?_eq_none]
      intro cb hcb
      have hlt : cb.CartID < s.nextCartID := (hwf.1 cb hcb).2
      have hne : ¬ cb.CartID = s.nextCartID := Nat.ne_of_lt hlt
      simp [hne]
    have hc0 : firstCartByUser (createCart s userID).2 userID = some ⟨s.nextCartID, userID⟩ := by
      unfold firstCartByUser at hc ⊢
      simp only [createCart, List.find?_append, hc, Option.none_or, List.find?_cons,
        beq_self_eq_true]
    rw [AddToCart_no_cart s userID bookID q1 b hc hbook hl]
    obtain ⟨e1, e2, -, e4⟩ := AddToCart_after_create (createCart s userID).2 userID bookID q1 q2
      ⟨s.nextCartID, userID⟩ b hc0 hbook hl hfresh
    exact ⟨rfl, e1, ⟨⟨s.nextCartID, userID⟩, e2, e4⟩, wrapInt_of_isInt _⟩

/-- User 1, without a cart, adds book 1 twice, 2 copies then 1: one line, of
quantity 3. -/
theorem addToCart_twice_merges_witness :
    (catalogStore.wf ∧ firstBook catalogStore 1 = some ⟨1, "B1", "author", "text", ⟨10⟩, true⟩ ∧
      ∀ cart, firstCartByUser catalogStore 1 = some cart → firstCartBook catalogStore cart.ID 1 = none) ∧
    (AddToCart catalogStore noFaults 1 1 2).1 = none ∧
    (AddToCart (AddToCart catalogStore noFaults 1 1 2).2 noFaults 1 1 1).1 = none ∧
    (∃ cart,
      firstCartByUser (AddToCart (AddToCart catalogStore noFaults 1 1 2).2 noFaults 1 1 1).2 1 =
        some cart ∧
      cartLinesFor (AddToCart (AddToCart catalogStore noFaults 1 1 2).2 noFaults 1 1 1).2 cart.ID 1 =
        [⟨1, cart.ID, 1, wrapInt (2 + 1)⟩]) ∧
    (isInt (2 + 1) → wrapInt (2 + 1) = 2 + 1) :=
  ⟨⟨by unfold Store.wf; decide, by decide, fun cart h => by
      have h0 : firstCartByUser catalogStore 1 = none := by decide
      rw [h0] at h
      cases h⟩,
   addToCart_twice_merges catalogStore 1 1 2 1 ⟨1, "B1", "author", "text", ⟨10⟩, true⟩
     (by unfold Store.wf; decide) (by decide) (fun cart h => by
      have h0 : firstCartByUser catalogStore 1 = none := by decide
      rw [h0] at h
      cases h)⟩

/-- C4 as stated fails: user 1 adds book 1 with quantity `2^63 - 1`, then with
quantity 1; both calls return `nil`, and the single line has quantity `-2^63`,
not `2^63`. -/
theorem addToCart_sum_counterexample :
    (AddToCart catalogStore noFaults 1 1 maxInt).1 = none ∧
    (AddToCart (AddToCart catalogStore noFaults 1 1 maxInt).2 noFaults 1 1 1).1 = none ∧
    cartLinesFor (AddToCart (AddToCart catalogStore noFaults 1 1 maxInt).2 noFaults 1 1 1).2 1 1 =
      [⟨1, 1, 1, -9223372036854775808⟩] ∧
    ¬ ∃ line, cartLinesFor
        (AddToCart (AddToCart catalogStore noFaults 1 1 maxInt).2 noFaults 1 1 1).2 1 1 = [line] ∧
      line.Quantity = maxInt + 1 := by
  have h : cartLinesFor
      (AddToCart (AddToCart catalogStore noFaults 1 1 maxInt).2 noFaults 1 1 1).2 1 1 =
      [⟨1, 1, 1, -9223372036854775808⟩] := by decide
  refine ⟨by decide, by decide, h, ?_⟩
  rintro ⟨line, hl, hq⟩
  rw [h] at hl
  have : line = ⟨1, 1, 1, -9223372036854775808⟩ := by
    simpa using hl.symm
  rw [this] at hq
  exact absurd hq (by decide)

/-! ## C6: totals of orders -/

theorem wrapInt_isInt (x : Int) : isInt (wrapInt x) := by
  unfold isInt wrapInt
  have h1 : (0 : Int) ≤ (x + 2 ^ 63) % 2 ^ 64 := Int.emod_nonneg _ (by norm_num)
  have h2 : (x + 2 ^ 63) % 2 ^ 64 < 2 ^ 64 := Int.emod_lt_of_pos _ (by norm_num)
  constructor <;> omega

theorem wrapInt_toUint (q : Int) (h : isInt q) : wrapInt (toUint q) = q := by
  have hu := (toUint_uintQuantity q).1
  rw [hu]
  unfold isInt at h
  unfold wrapInt
  have e : (q % 2 ^ 64 + 2 ^ 63) % 2 ^ 64 = (q + 2 ^ 63) % 2 ^ 64 := by
    rw [Int.add_emod, Int.emod_emod_of_dvd _ (dvd_refl _), ← Int.add_emod]
  rw [e]
  have h1 : (0 : Int) ≤ q + 2 ^ 63 := by omega
  have h2 : q + 2 ^ 63 < 2 ^ 64 := by omega
  rw [Int.emod_eq_of_lt h1 h2]
  omega

/-- The invariant only reads the order tables, their sequence and the cart
quantities. -/
theorem OrderInv_of_frame [Float32 F] {s s2 : Store F} (h : OrderInv s)
    (ho : s2.orders = s.orders) (hob : s2.orderBooks = s.orderBooks)
    (hn : s2.nextOrderID = s.nextOrderID) (hq : ∀ cb ∈ s2.cartBooks, isInt cb.Quantity) :
    OrderInv s2 := by
  obtain ⟨h1, h2, -, h4⟩ := h
  refine ⟨?_, ?_, hq, ?_⟩
  · rw [ho, hn]; exact h1
  · rw [hob, hn]; exact h2
  · rw [ho]
    intro o hmem
    have := h4 o hmem
    unfold orderLines at this ⊢
    rw [hob]
    exact this

theorem isInt_saveCartBook (s : Store F) (x : CartBook)
    (h : ∀ cb ∈ s.cartBooks, isInt cb.Quantity) (hx : isInt x.Quantity) :
    ∀ cb ∈ (saveCartBook s x).cartBooks, isInt cb.Quantity := by
  intro cb hcb
  simp only [saveCartBook, List.mem_map] at hcb
  obtain ⟨r, hr, rfl⟩ := hcb
  split
  · exact hx
  · exact h r hr

theorem isInt_createCartBook (s : Store F) (cartID bookID : Nat) (q : Int)
    (h : ∀ cb ∈ s.cartBooks, isInt cb.Quantity) (hq : isInt q) :
    ∀ cb ∈ (createCartBook s cartID bookID q).cartBooks, isInt cb.Quantity := by
  intro cb hcb
  simp only [createCartBook, List.mem_append, List.mem_singleton] at hcb
  rcases hcb with hcb | rfl
  · exact h cb hcb
  · exact hq

theorem isInt_filter (l : List CartBook) (p : CartBook → Bool)
    (h : ∀ cb ∈ l, isInt cb.Quantity) : ∀ cb ∈ l.filter p, isInt cb.Quantity :=
  fun cb hcb => h cb (List.mem_of_mem_filter hcb)

theorem addLine_frame (s : Store F) (flt : Faults) (cart : Cart) (bookID : Nat) (q : Int)
    (h : ∀ cb ∈ s.cartBooks, isInt cb.Quantity) (hq : isInt q) :
    (addLine s flt cart bookID q).2.orders = s.orders ∧
    (addLine s flt cart bookID q).2.orderBooks = s.orderBooks ∧
    (addLine s flt cart bookID q).2.nextOrderID = s.nextOrderID ∧
    ∀ cb ∈ (addLine s flt cart bookID q).2.cartBooks, isInt cb.Quantity := by
  unfold addLine
  repeat' split
  all_goals first
    | exact ⟨rfl, rfl, rfl, h⟩
    | exact ⟨rfl, rfl, rfl, isInt_saveCartBook s _ h (wrapInt_isInt _)⟩
    | exact ⟨rfl, rfl, rfl, isInt_createCartBook s _ _ _ h hq⟩

theorem AddToCart_frame (s : Store F) (flt : Faults) (userID bookID : Nat) (q : Int)
    (h : ∀ cb ∈ s.cartBooks, isInt cb.Quantity) (hq : isInt q) :
    (AddToCart s flt userID bookID q).2.orders = s.orders ∧
    (AddToCart s flt userID bookID q).2.orderBooks = s.orderBooks ∧
    (AddToCart s flt userID bookID q).2.nextOrderID = s.nextOrderID ∧
    ∀ cb ∈ (AddToCart s flt userID bookID q).2.cartBooks, isInt cb.Quantity := by
  unfold AddToCart
  repeat' split
  all_goals first
    | exact ⟨rfl, rfl, rfl, h⟩
    | exact addLine_frame s flt _ bookID q h hq
    | exact addLine_frame (createCart s userID).2 flt _ bookID q h hq

theorem UpdateQuantity_frame (s : Store F) (flt : Faults) (userID bookID : Nat) (q : Int)
    (h : ∀ cb ∈ s.cartBooks, isInt cb.Quantity) (hq : isInt q) :
    (UpdateQuantity s flt userID bookID q).2.orders = s.orders ∧
    (UpdateQuantity s flt userID bookID q).2.orderBooks = s.orderBooks ∧
    (UpdateQuantity s flt userID bookID q).2.nextOrderID = s.nextOrderID ∧
    ∀ cb ∈ (UpdateQuantity s flt userID bookID q).2.cartBooks, isInt cb.Quantity := by
  unfold UpdateQuantity
  repeat' split
  all_goals first
    | exact ⟨rfl, rfl, rfl, h⟩
    | exact ⟨rfl, rfl, rfl, isInt_saveCartBook s _ h hq⟩

theorem RemoveFromCart_frame (s : Store F) (flt : Faults) (userID bookID : Nat)
    (h : ∀ cb ∈ s.cartBooks, isInt cb.Quantity) :
    (RemoveFromCart s flt userID bookID).2.orders = s.orders ∧
    (RemoveFromCart s flt userID bookID).2.orderBooks = s.orderBooks ∧
    (RemoveFromCart s flt userID bookID).2.nextOrderID = s.nextOrderID ∧
    ∀ cb ∈ (RemoveFromCart s flt userID bookID).2.cartBooks, isInt cb.Quantity := by
  unfold RemoveFromCart
  simp only []
  repeat' split
  all_goals first
    | exact ⟨rfl, rfl, rfl, h⟩
    | exact ⟨rfl, rfl, rfl, isInt_filter _ _ h⟩

theorem ClearCart_frame (s : Store F) (flt : Faults) (userID : Nat)
    (h : ∀ cb ∈ s.cartBooks, isInt cb.Quantity) :
    (ClearCart s flt userID).2.orders = s.orders ∧
    (ClearCart s flt userID).2.orderBooks = s.orderBooks ∧
    (ClearCart s flt userID).2.nextOrderID = s.nextOrderID ∧
    ∀ cb ∈ (ClearCart s flt userID).2.cartBooks, isInt cb.Quantity := by
  unfold ClearCart
  repeat' split
  all_goals first
    | exact ⟨rfl, rfl, rfl, h⟩
    | exact ⟨rfl, rfl, rfl, isInt_filter _ _ h⟩

theorem CreateBook_frame (s : Store F) (flt : Faults) (req : BookRequest F) :
    (CreateBook s flt req).2.orders = s.orders ∧
    (CreateBook s flt req).2.orderBooks = s.orderBooks ∧
    (CreateBook s flt req).2.nextOrderID = s.nextOrderID ∧
    (CreateBook s flt req).2.cartBooks = s.cartBooks := by
  unfold CreateBook
  repeat' split
  all_goals exact ⟨rfl, rfl, rfl, rfl⟩

theorem UpdateStock_frame (s : Store F) (flt : Faults) (bookID : Nat) :
    (UpdateStock s flt bookID).2.orders = s.orders ∧
    (UpdateStock s flt bookID).2.orderBooks = s.orderBooks ∧
    (UpdateStock s flt bookID).2.nextOrderID = s.nextOrderID ∧
    (UpdateStock s flt bookID).2.cartBooks = s.cartBooks := by
  unfold UpdateStock
  repeat' split
  all_goals exact ⟨rfl, rfl, rfl, rfl⟩

theorem assignLineIDs_orderID (orderID : Nat) (l : List (OrderBook F)) (next : Nat) :
    ∀ ob ∈ assignLineIDs orderID next l, ob.OrderID = orderID := by
  induction l generalizing next with
  | nil => simp [assignLineIDs]
  | cons x rest ih =>
    intro ob hob
    simp only [assignLineIDs, List.mem_cons] at hob
    rcases hob with rfl | hob
    · rfl
    · exact ih _ ob hob

theorem assignLineIDs_map {β : Type} (g : F → Nat → β) (orderID : Nat) (l : List (OrderBook F))
    (next : Nat) :
    (assignLineIDs orderID next l).map (fun ob => g ob.Price ob.Quantity) =
      l.map (fun ob => g ob.Price ob.Quantity) := by
  induction l generalizing next with
  | nil => simp [assignLineIDs]
  | cons x rest ih => simp [assignLineIDs, ih]

/-- The total `CreateOrder` computes from the cart is the signed line total of
the lines it persists, the cart quantities being `int`s. -/
theorem lineTotalSigned_assigned [Float32 F] (s : Store F) (cart : Cart) (orderID next : Nat)
    (hq : ∀ cb ∈ s.cartBooks, isInt cb.Quantity) :
    lineTotalSigned (assignLineIDs orderID next (builtLines s cart)) =
      cartTotal s (cartLines s cart.ID) := by
  have e : (builtLines s cart).map
      (fun ob => Float32.mul ob.Price (Float32.ofInt (wrapInt ob.Quantity))) =
      (cartLines s cart.ID).map
        (fun cb => Float32.mul (preloadBook s cb.BookID).Price (Float32.ofInt cb.Quantity)) := by
    unfold builtLines
    rw [List.map_map]
    apply List.map_congr_left
    intro cb hcb
    have hcb2 : cb ∈ s.cartBooks := List.mem_of_mem_filter hcb
    simp only [Function.comp]
    rw [wrapInt_toUint cb.Quantity (hq cb hcb2)]
  unfold lineTotalSigned cartTotal
  rw [assignLineIDs_map (fun p n => Float32.mul p (Float32.ofInt (wrapInt n))), e]

/-- The insertion of the order built from the cart keeps the invariant. -/
theorem insertOrder_inv [Float32 F] (s : Store F) (userID : Nat) (address : String) (cart : Cart)
    (h : OrderInv s) :
    OrderInv (insertOrder s (builtOrder s userID address cart) (builtLines s cart)).2.2 := by
  obtain ⟨h1, h2, h3, h4⟩ := h
  have hnew := assignLineIDs_orderID s.nextOrderID (builtLines s cart) s.nextOrderBookID
  refine ⟨?_, ?_, h3, ?_⟩
  · intro o ho
    simp only [insertOrder, List.mem_append, List.mem_singleton] at ho ⊢
    rcases ho with ho | rfl
    · exact Nat.lt_succ_of_lt (h1 o ho)
    · exact Nat.lt_succ_self _
  · intro ob hob
    simp only [insertOrder, List.mem_append] at hob ⊢
    rcases hob with hob | hob
    · exact Nat.lt_succ_of_lt (h2 ob hob)
    · rw [hnew ob hob]
      exact Nat.lt_succ_self _
  · intro o ho
    simp only [insertOrder, List.mem_append, List.mem_singleton] at ho
    simp only [orderLines, insertOrder, List.filter_append]
    rcases ho with ho | rfl
    · have hne : (assignLineIDs s.nextOrderID s.nextOrderBookID (builtLines s cart)).filter
          (fun ob => ob.OrderID == o.ID) = [] := by
        rw [List.filter_eq_nil_iff]
        intro ob hob
        have := h1 o ho
        rw [hnew ob hob]
        simp only [beq_iff_eq]
        omega
      rw [hne, List.append_nil]
      exact h4 o ho
    · have hold : s.orderBooks.filter (fun ob => ob.OrderID == s.nextOrderID) = [] := by
        rw [List.filter_eq_nil_iff]
        intro ob hob
        have := h2 ob hob
        simp only [beq_iff_eq]
        omega
      have hall : (assignLineIDs s.nextOrderID s.nextOrderBookID (builtLines s cart)).filter
          (fun ob => ob.OrderID == s.nextOrderID) =
          assignLineIDs s.nextOrderID s.nextOrderBookID (builtLines s cart) := by
        rw [List.filter_eq_self]
        intro ob hob
        simp only [beq_iff_eq]
        exact hnew ob hob
      rw [hold, hall, List.nil_append, lineTotalSigned_assigned s cart _ _ h3]
      rfl

theorem CreateOrder_inv [Float32 F] (s : Store F) (flt : Faults) (userID : Nat) (address : String)
    (h : OrderInv s) : OrderInv (CreateOrder s flt userID address).2 := by
  cases h0 : flt 0 with
  | some e =>
    have : (CreateOrder s flt userID address).2 = s := by simp only [CreateOrder, h0]
    rw [this]; exact h
  | none =>
    cases hc : firstCartByUser s userID with
    | none =>
      rw [createOrder_empty_cart_eq s flt userID address h0 (Or.inl hc)]
      exact h
    | some cart =>
      by_cases hl : cartLines s cart.ID = []
      · rw [createOrder_empty_cart_eq s flt userID address h0 (Or.inr ⟨cart, hc, hl⟩)]
        exact h
      · rw [(CreateOrder_store s flt userID address cart h0 hc hl).2.2]
        have hstep : OrderInv
            (createOrderStep s flt (builtOrder s userID address cart) (builtLines s cart)).2.2 := by
          rcases createOrderStep_cases s flt (builtOrder s userID address cart)
            (builtLines s cart) with e | ⟨_, _, e⟩
          · rw [e]; exact h
          · rw [e]; exact insertOrder_inv s userID address cart h
        unfold deleteLinesStep
        split
        · exact hstep
        · exact OrderInv_of_frame hstep rfl rfl rfl (isInt_filter _ _ hstep.2.2.1)

theorem saveOrder_inv [Float32 F] (s : Store F) (orderID : Nat) (order : Order F) (status : String)
    (h : OrderInv s) (hfound : firstOrder s orderID = some order) :
    OrderInv (saveOrder s { order with Status := status }) ∧
    (saveOrder s { order with Status := status }).orders.map (fun o => (o.ID, o.Total)) =
      s.orders.map (fun o => (o.ID, o.Total)) := by
  obtain ⟨h1, h2, h3, h4⟩ := h
  have hmem : order ∈ s.orders := List.mem_of_find?_eq_some hfound
  refine ⟨⟨?_, h2, h3, ?_⟩, ?_⟩
  · intro o ho
    simp only [saveOrder, List.mem_map] at ho
    obtain ⟨r, hr, rfl⟩ := ho
    split
    · exact h1 order hmem
    · exact h1 r hr
  · intro o ho
    simp only [saveOrder, List.mem_map] at ho
    obtain ⟨r, hr, rfl⟩ := ho
    show _ = lineTotalSigned (orderLines s _)
    split
    · exact h4 order hmem
    · exact h4 r hr
  · simp only [saveOrder, List.map_map]
    apply List.map_congr_left
    intro r hr
    simp only [Function.comp]
    split
    · next heq =>
      have hid : r.ID = order.ID := by simpa using heq
      rw [Prod.mk.injEq]
      refine ⟨hid.symm, ?_⟩
      rw [h4 order hmem, h4 r hr, hid]
    · rfl

theorem CancelOrder_inv [Float32 F] (s : Store F) (flt : Faults) (orderID : Nat) (h : OrderInv s) :
    OrderInv (CancelOrder s flt orderID).2 ∧
    (CancelOrder s flt orderID).2.orderBooks = s.orderBooks ∧
    (CancelOrder s flt orderID).2.orders.map (fun o => (o.ID, o.Total)) =
      s.orders.map (fun o => (o.ID, o.Total)) := by
  unfold CancelOrder
  cases h0 : flt 0 with
  | some e => exact ⟨h, rfl, rfl⟩
  | none =>
    cases hf : firstOrder s orderID with
    | none => exact ⟨h, rfl, rfl⟩
    | some order =>
      simp only []
      split
      · exact ⟨h, rfl, rfl⟩
      · cases h1 : flt 1 with
        | some e => exact ⟨h, rfl, rfl⟩
        | none =>
          exact ⟨(saveOrder_inv s orderID order "cancelled" h hf).1, rfl,
            (saveOrder_inv s orderID order "cancelled" h hf).2⟩

theorem UpdateStatus_inv [Float32 F] (s : Store F) (flt : Faults) (orderID : Nat) (status : String)
    (h : OrderInv s) :
    OrderInv (UpdateStatus s flt orderID status).2 ∧
    (UpdateStatus s flt orderID status).2.orderBooks = s.orderBooks ∧
    (UpdateStatus s flt orderID status).2.orders.map (fun o => (o.ID, o.Total)) =
      s.orders.map (fun o => (o.ID, o.Total)) := by
  unfold UpdateStatus
  cases h0 : flt 0 with
  | some e => exact ⟨h, rfl, rfl⟩
  | none =>
    cases hf : firstOrder s orderID with
    | none => exact ⟨h, rfl, rfl⟩
    | some order =>
      cases h1 : flt 1 with
      | some e => exact ⟨h, rfl, rfl⟩
      | none =>
        exact ⟨(saveOrder_inv s orderID order status h hf).1, rfl,
          (saveOrder_inv s orderID order status h hf).2⟩

theorem OrderInv_empty [Float32 F] : OrderInv (Store.empty : Store F) := by
  refine ⟨?_, ?_, ?_, ?_⟩ <;> intro x hx <;> simp [Store.empty] at hx

/-- The invariant holds in every reachable store. -/
theorem OrderInv_reachable [Float32 F] (s : Store F) (h : Reachable s) : OrderInv s := by
  induction h with
  | empty => exact OrderInv_empty
  | createUser s u _ ih => exact OrderInv_of_frame ih rfl rfl rfl ih.2.2.1
  | addToCart s flt userID bookID q _ hq ih =>
    obtain ⟨a, b, c, d⟩ := AddToCart_frame s flt userID bookID q ih.2.2.1 hq
    exact OrderInv_of_frame ih a b c d
  | updateQuantity s flt userID bookID q _ hq ih =>
    obtain ⟨a, b, c, d⟩ := UpdateQuantity_frame s flt userID bookID q ih.2.2.1 hq
    exact OrderInv_of_frame ih a b c d
  | removeFromCart s flt userID bookID _ ih =>
    obtain ⟨a, b, c, d⟩ := RemoveFromCart_frame s flt userID bookID ih.2.2.1
    exact OrderInv_of_frame ih a b c d
  | clearCart s flt userID _ ih =>
    obtain ⟨a, b, c, d⟩ := ClearCart_frame s flt userID ih.2.2.1
    exact OrderInv_of_frame ih a b c d
  | createOrder s flt userID address _ ih => exact CreateOrder_inv s flt userID address ih
  | cancelOrder s flt orderID _ ih => exact (CancelOrder_inv s flt orderID ih).1
  | updateStatus s flt orderID status _ ih => exact (UpdateStatus_inv s flt orderID status ih).1
  | createBook s flt req _ ih =>
    obtain ⟨a, b, c, d⟩ := CreateBook_frame s flt req
    exact OrderInv_of_frame ih a b c (by rw [d]; exact ih.2.2.1)
  | updateStock s flt bookID _ ih =>
    obtain ⟨a, b, c, d⟩ := UpdateStock_frame s flt bookID
    exact OrderInv_of_frame ih a b c (by rw [d]; exact ih.2.2.1)

theorem lineTotalSigned_eq_lineTotal [Float32 F] (lines : List (OrderBook F))
    (h : ∀ ob ∈ lines, ob.Quantity < 2 ^ 63) : lineTotalSigned lines = lineTotal lines := by
  have e : lines.map (fun ob => Float32.mul ob.Price (Float32.ofInt (wrapInt ob.Quantity))) =
      lines.map (fun ob => Float32.mul ob.Price (Float32.ofInt (ob.Quantity : Int))) := by
    apply List.map_congr_left
    intro ob hob
    have hlt := h ob hob
    have hi : isInt (ob.Quantity : Int) := by
      unfold isInt
      constructor <;> omega
    rw [wrapInt_of_isInt _ hi]
  unfold lineTotalSigned lineTotal
  rw [e]

theorem reachable_scenario : Reachable orderedStore :=
  Reachable.createOrder _ _ _ _
    (Reachable.addToCart _ _ _ _ _
      (Reachable.addToCart _ _ _ _ _
        (Reachable.createBook _ _ _
          (Reachable.createBook _ _ _ (Reachable.createUser _ _ Reachable.empty)))
        (by decide))
      (by decide))

/-- The lines `Create(&order)` writes are the built lines with their ids: the
quantities are those of the built lines. -/
theorem assignLineIDs_fit (orderID next : Nat) (books : List (OrderBook F))
    (h : storable books = true) :
    ∀ ob ∈ assignLineIDs orderID next books, ob.Quantity < 2 ^ 63 := by
  induction books generalizing next with
  | nil => intro ob hob; cases hob
  | cons x rest ih =>
    unfold storable at h ih
    rw [List.all_cons, Bool.and_eq_true] at h
    intro ob hob
    simp only [assignLineIDs, List.mem_cons] at hob
    rcases hob with rfl | hob
    · simpa [fitsBigint] using h.1
    · exact ih (next + 1) h.2 ob hob

/-- Every order line of the store fits the column of its quantity. -/
theorem linesFit_reachable [Float32 F] (s : Store F) (h : Reachable s) :
    ∀ ob ∈ s.orderBooks, ob.Quantity < 2 ^ 63 := by
  induction h with
  | empty => intro ob hob; cases hob
  | createUser s u _ ih => exact ih
  | addToCart s flt userID bookID q hs hq ih =>
    rw [(AddToCart_frame s flt userID bookID q (OrderInv_reachable s hs).2.2.1 hq).2.1]
    exact ih
  | updateQuantity s flt userID bookID q hs hq ih =>
    rw [(UpdateQuantity_frame s flt userID bookID q (OrderInv_reachable s hs).2.2.1 hq).2.1]
    exact ih
  | removeFromCart s flt userID bookID hs ih =>
    rw [(RemoveFromCart_frame s flt userID bookID (OrderInv_reachable s hs).2.2.1).2.1]
    exact ih
  | clearCart s flt userID hs ih =>
    rw [(ClearCart_frame s flt userID (OrderInv_reachable s hs).2.2.1).2.1]
    exact ih
  | createOrder s flt userID address hs ih =>
    cases h0 : flt 0 with
    | some e =>
      have : (CreateOrder s flt userID address).2 = s := by simp only [CreateOrder, h0]
      rw [this]; exact ih
    | none =>
      cases hc : firstCartByUser s userID with
      | none =>
        rw [createOrder_empty_cart_eq s flt userID address h0 (Or.inl hc)]
        exact ih
      | some cart =>
        by_cases hl : cartLines s cart.ID = []
        · rw [createOrder_empty_cart_eq s flt userID address h0 (Or.inr ⟨cart, hc, hl⟩)]
          exact ih
        · rw [(CreateOrder_store s flt userID address cart h0 hc hl).2.2]
          have hstep : ∀ ob ∈ (createOrderStep s flt (builtOrder s userID address cart)
              (builtLines s cart)).2.2.orderBooks, ob.Quantity < 2 ^ 63 := by
            rcases createOrderStep_cases s flt (builtOrder s userID address cart)
              (builtLines s cart) with e | ⟨_, hfit, e⟩
            · rw [e]; exact ih
            · rw [e]
              intro ob hob
              simp only [insertOrder, List.mem_append] at hob
              rcases hob with hob | hob
              · exact ih ob hob
              · exact assignLineIDs_fit _ _ _ hfit ob hob
          unfold deleteLinesStep
          split
          · exact hstep
          · exact hstep
  | cancelOrder s flt orderID hs ih =>
    rw [(CancelOrder_inv s flt orderID (OrderInv_reachable s hs)).2.1]
    exact ih
  | updateStatus s flt orderID status hs ih =>
    rw [(UpdateStatus_inv s flt orderID status (OrderInv_reachable s hs)).2.1]
    exact ih
  | createBook s flt req _ ih =>
    rw [(CreateBook_frame s flt req).2.1]
    exact ih
  | updateStock s flt bookID _ ih =>
    rw [(UpdateStock_frame s flt bookID).2.1]
    exact ih

/-- Claim C6: in every store reachable from the empty store through the
insertion of users and the operations of the cart, order and book services
(under any store failures, quantities being `int`s), every order's total equals
the sum over its order lines of price times quantity.  `CancelOrder` and
`UpdateStatus` change no order line and no order's id or total. -/
theorem order_totals_invariant [Float32 F] (s : Store F) (h : Reachable s) :
    (∀ o ∈ s.orders, o.Total = lineTotal (orderLines s o.ID)) ∧
    (∀ (flt : Faults) (orderID : Nat),
      (CancelOrder s flt orderID).2.orderBooks = s.orderBooks ∧
      (CancelOrder s flt orderID).2.orders.map (fun o => (o.ID, o.Total)) =
        s.orders.map (fun o => (o.ID, o.Total))) ∧
    (∀ (flt : Faults) (orderID : Nat) (status : String),
      (UpdateStatus s flt orderID status).2.orderBooks = s.orderBooks ∧
      (UpdateStatus s flt orderID status).2.orders.map (fun o => (o.ID, o.Total)) =
        s.orders.map (fun o => (o.ID, o.Total))) := by
  have hinv := OrderInv_reachable s h
  have hfit := linesFit_reachable s h
  refine ⟨fun o ho => ?_, fun flt orderID => ?_, fun flt orderID status => ?_⟩
  · rw [hinv.2.2.2 o ho]
    exact lineTotalSigned_eq_lineTotal _ (fun ob hob => hfit ob (List.mem_of_mem_filter hob))
  · exact (CancelOrder_inv s flt orderID hinv).2
  · exact (UpdateStatus_inv s flt orderID status hinv).2

/-- The store of the scenario after checkout is reachable, and the total of its
order, 40, is the sum over its two lines, of price 10 and quantity 2 and of
price 20 and quantity 1. -/
theorem order_totals_invariant_witness :
    Reachable orderedStore ∧
    (∀ o ∈ orderedStore.orders, o.Total = lineTotal (orderLines orderedStore o.ID)) ∧
    orderedStore.orders.map (fun o => o.Total) = [⟨40⟩] ∧
    (orderLines orderedStore 1).map (fun ob => (ob.Price, ob.Quantity)) = [(⟨10⟩, 2), (⟨20⟩, 1)] :=
  ⟨reachable_scenario, (order_totals_invariant orderedStore reachable_scenario).1, by decide,
    by decide⟩

/-! ## C10: the role check of `AuthMiddleware` -/

theorem splitChars_no_sep (sep : Char) (l : List Char) (h : sep ∉ l) : splitChars sep l = [l] := by
  induction l with
  | nil => rfl
  | cons c cs ih =>
    have hc : ¬ c = sep := fun e => h (e ▸ List.mem_cons_self c cs)
    have hcs : sep ∉ cs := fun e => h (List.mem_cons_of_mem c e)
    simp only [splitChars, hc, if_false, ih hcs]

theorem Split_bearer (tok : String) (h : ' ' ∉ tok.data) :
    Split ("Bearer " ++ tok) ' ' = ["Bearer", tok] := by
  have hd : ("Bearer " ++ tok).data = 'B' :: 'e' :: 'a' :: 'r' :: 'e' :: 'r' :: ' ' :: tok.data := by
    rw [String.data_append]
    rfl
  unfold Split
  rw [hd]
  simp only [splitChars, splitChars_no_sep ' ' tok.data h]
  simp

theorem authorizedLoop_iff (role : String) (roles : List String) :
    authorizedLoop role roles = true ↔ role ∈ roles := by
  induction roles with
  | nil => simp [authorizedLoop]
  | cons r rest ih =>
    by_cases h : role = r
    · simp [authorizedLoop, h]
    · simp [authorizedLoop, h, ih]

/-- The handler on a well-formed bearer header whose token is accepted, the
middleware having been built with at least one role. -/
theorem AuthMiddleware_verified (ParseToken : String → Except String MapClaims)
    (allowedRoles : List String) (tok : String) (claims : MapClaims)
    (hroles : allowedRoles ≠ []) (hsp : ' ' ∉ tok.data) (hparse : ParseToken tok = .ok claims) :
    AuthMiddleware ParseToken allowedRoles ("Bearer " ++ tok) =
      match claims "role" with
      | some (.str role) =>
        if authorizedLoop role allowedRoles = false then
          [.writeError 403 "forbidden: insufficient permissions"]
        else [.next]
      | _ => [.writeError 401 "invalid token claims"] := by
  have hne : ¬ ("Bearer " ++ tok = "") := by
    intro e
    have h2 := congrArg String.length e
    rw [String.length_append] at h2
    have h7 : "Bearer ".length = 7 := rfl
    have h0 : "".length = 0 := rfl
    omega
  have hlen : allowedRoles.length > 0 := List.length_pos.mpr hroles
  unfold AuthMiddleware
  rw [if_neg hne, Split_bearer tok hsp]
  simp only [ne_eq, not_true_eq_false, if_false, hparse, hlen, if_true]

/-- C10: for the middleware built with a non-empty set of allowed roles and a
request `Authorization: Bearer tok` whose token is accepted by `ParseToken` with
claims `claims`: the wrapped handler is invoked, exactly once, if and only if
the `role` claim is a string that is one of the allowed roles (it is never
invoked more than once); if the role is a string outside the set, the only
effect is the 403 response and the handler is not invoked. -/
theorem authMiddleware_role_gate (ParseToken : String → Except String MapClaims)
    (allowedRoles : List String) (tok : String) (claims : MapClaims)
    (hroles : allowedRoles ≠ []) (hsp : ' ' ∉ tok.data) (hparse : ParseToken tok = .ok claims) :
    ((AuthMiddleware ParseToken allowedRoles ("Bearer " ++ tok)).count .next = 1 ↔
      ∃ role, claims "role" = some (.str role) ∧ role ∈ allowedRoles) ∧
    (AuthMiddleware ParseToken allowedRoles ("Bearer " ++ tok)).count .next ≤ 1 ∧
    (∀ role, claims "role" = some (.str role) → role ∉ allowedRoles →
      AuthMiddleware ParseToken allowedRoles ("Bearer " ++ tok) =
        [.writeError 403 "forbidden: insufficient permissions"]) := by
  rw [AuthMiddleware_verified ParseToken allowedRoles tok claims hroles hsp hparse]
  cases hc : claims "role" with
  | none =>
    simp only []
    refine ⟨⟨fun h => absurd h (by decide), fun ⟨role, h, _⟩ => by cases h⟩, by decide,
      fun role h _ => by cases h⟩
  | some v =>
    cases v with
    | other =>
      simp only []
      refine ⟨⟨fun h => absurd h (by decide), fun ⟨role, h, _⟩ => by cases h⟩, by decide,
        fun role h _ => by cases h⟩
    | str role =>
      have hrole : ∀ r, some (ClaimValue.str role) = some (ClaimValue.str r) → r = role := by
        intro r h
        injection h with h1
        injection h1 with h2
        exact h2.symm
      simp only []
      by_cases hin : role ∈ allowedRoles
      · have ha : ¬ (authorizedLoop role allowedRoles = false) := by
          rw [(authorizedLoop_iff role allowedRoles).mpr hin]
          decide
        rw [if_neg ha]
        refine ⟨⟨fun _ => ⟨role, rfl, hin⟩, fun _ => by decide⟩, by decide, fun r h hr => ?_⟩
        exact absurd (hrole r h ▸ hin) hr
      · have ha : authorizedLoop role allowedRoles = false := by
          cases hb : authorizedLoop role allowedRoles with
          | false => rfl
          | true => exact absurd ((authorizedLoop_iff role allowedRoles).mp hb) hin
        rw [if_pos ha]
        refine ⟨⟨fun h => absurd h (by decide), fun ⟨r, h, hr⟩ => ?_⟩, by decide, fun _ _ _ => rfl⟩
        exact absurd (hrole r h ▸ hr) hin

/-- An admin token on a route for admins and users invokes the handler once; a
user token on a route for admins gets the 403 response. -/
theorem authMiddleware_role_gate_witness :
    ((["admin", "user"] ≠ [] ∧ ' ' ∉ "t0".data ∧ acceptAs "admin" "t0" = .ok (roleClaims "admin")) ∧
      (AuthMiddleware (acceptAs "admin") ["admin", "user"] ("Bearer " ++ "t0")).count .next = 1) ∧
    ((["admin"] ≠ [] ∧ ' ' ∉ "t0".data ∧ acceptAs "user" "t0" = .ok (roleClaims "user")) ∧
      AuthMiddleware (acceptAs "user") ["admin"] ("Bearer " ++ "t0") =
        [.writeError 403 "forbidden: insufficient permissions"]) :=
  ⟨⟨⟨by decide, by decide, rfl⟩,
    (authMiddleware_role_gate (acceptAs "admin") ["admin", "user"] "t0" (roleClaims "admin")
      (by decide) (by decide) rfl).1.mpr ⟨"admin", rfl, by decide⟩⟩,
   ⟨⟨by decide, by decide, rfl⟩,
    (authMiddleware_role_gate (acceptAs "user") ["admin"] "t0" (roleClaims "user")
      (by decide) (by decide) rfl).2.2 "user" rfl (by decide)⟩⟩

/-! ## C11: the 401 responses of `AuthMiddleware` -/

/-- The handler on a header that splits into "Bearer" and a token. -/
theorem AuthMiddleware_bearer (ParseToken : String → Except String MapClaims)
    (allowedRoles : List String) (authHeader tok : String)
    (hsplit : Split authHeader ' ' = ["Bearer", tok]) :
    AuthMiddleware ParseToken allowedRoles authHeader =
      match ParseToken tok with
      | .error _ => [.writeError 401 "invalid token"]
      | .ok claims =>
        if allowedRoles.length > 0 then
          match claims "role" with
          | some (.str role) =>
            if authorizedLoop role allowedRoles = false then
              [.writeError 403 "forbidden: insufficient permissions"]
            else [.next]
          | _ => [.writeError 401 "invalid token claims"]
        else [.next] := by
  have hne : ¬ (authHeader = "") := by
    intro e
    rw [e] at hsplit
    have h0 : Split "" ' ' = [""] := by decide
    rw [h0] at hsplit
    exact absurd (congrArg List.length hsplit) (by simp)
  unfold AuthMiddleware
  rw [if_neg hne, hsplit]
  simp only [ne_eq, not_true_eq_false, if_false]

/-- The handler on a non-empty header that does not split into "Bearer" and a
token. -/
theorem AuthMiddleware_malformed (ParseToken : String → Except String MapClaims)
    (allowedRoles : List String) (authHeader : String) (hne : authHeader ≠ "")
    (hsplit : ¬ ∃ tok, Split authHeader ' ' = ["Bearer", tok]) :
    AuthMiddleware ParseToken allowedRoles authHeader =
      [.writeError 401 "invalid authorization header format"] := by
  unfold AuthMiddleware
  rw [if_neg hne]
  split
  · next p0 tokenString heq =>
    by_cases hp : p0 = "Bearer"
    · exact absurd ⟨tokenString, by rw [heq, hp]⟩ hsplit
    · simp only [ne_eq, hp, not_false_eq_true, if_true]
  · rfl

/-- C11: `AuthMiddleware` answers 401 and does nothing else (the wrapped
handler is not invoked) when the `Authorization` header is absent or empty;
when the header does not split at spaces into exactly two parts of which the
first is "Bearer"; when `ParseToken` returns an error for the token; and when
roles are required and the claims hold no string under `role`. -/
theorem authMiddleware_unauthorized (ParseToken : String → Except String MapClaims)
    (allowedRoles : List String) (authHeader : String) :
    (authHeader = "" →
      AuthMiddleware ParseToken allowedRoles authHeader =
        [.writeError 401 "missing authorization header"]) ∧
    (authHeader ≠ "" → (¬ ∃ tok, Split authHeader ' ' = ["Bearer", tok]) →
      AuthMiddleware ParseToken allowedRoles authHeader =
        [.writeError 401 "invalid authorization header format"]) ∧
    (∀ tok e, Split authHeader ' ' = ["Bearer", tok] → ParseToken tok = .error e →
      AuthMiddleware ParseToken allowedRoles authHeader = [.writeError 401 "invalid token"]) ∧
    (∀ tok claims, Split authHeader ' ' = ["Bearer", tok] → ParseToken tok = .ok claims →
      allowedRoles ≠ [] → (∀ role, claims "role" ≠ some (.str role)) →
      AuthMiddleware ParseToken allowedRoles authHeader =
        [.writeError 401 "invalid token claims"]) := by
  refine ⟨fun h => ?_, fun hne hsplit => ?_, fun tok e hsplit hparse => ?_,
    fun tok claims hsplit hparse hroles hrole => ?_⟩
  · unfold AuthMiddleware
    rw [if_pos h]
  · exact AuthMiddleware_malformed ParseToken allowedRoles authHeader hne hsplit
  · rw [AuthMiddleware_bearer ParseToken allowedRoles authHeader tok hsplit, hparse]
  · have hlen : allowedRoles.length > 0 := List.length_pos.mpr hroles
    rw [AuthMiddleware_bearer ParseToken allowedRoles authHeader tok hsplit, hparse]
    cases hc : claims "role" with
    | none => simp only [hlen, if_true, hc]
    | some v =>
      cases v with
      | other => simp only [hlen, if_true, hc]
      | str role => exact absurd hc (hrole role)

/-- Four rejected requests on a route for admins: no header, a header with the
wrong scheme, a token the verifier rejects, and a token without a role. -/
theorem authMiddleware_unauthorized_witness :
    AuthMiddleware (acceptAs "admin") ["admin"] "" =
      [.writeError 401 "missing authorization header"] ∧
    AuthMiddleware (acceptAs "admin") ["admin"] "Basic t0" =
      [.writeError 401 "invalid authorization header format"] ∧
    AuthMiddleware rejectAll ["admin"] "Bearer t0" = [.writeError 401 "invalid token"] ∧
    AuthMiddleware acceptNoRole ["admin"] "Bearer t0" = [.writeError 401 "invalid token claims"] :=
  ⟨(authMiddleware_unauthorized (acceptAs "admin") ["admin"] "").1 rfl,
   (authMiddleware_unauthorized (acceptAs "admin") ["admin"] "Basic t0").2.1 (by decide)
     (by
       rintro ⟨tok, h⟩
       have h2 : Split "Basic t0" ' ' = ["Basic", "t0"] := by decide
       rw [h2] at h
       exact absurd (List.head_eq_of_cons_eq h) (by decide)),
   (authMiddleware_unauthorized rejectAll ["admin"] "Bearer t0").2.2.1 "t0" "signature is invalid"
     (by decide) rfl,
   (authMiddleware_unauthorized acceptNoRole ["admin"] "Bearer t0").2.2.2 "t0" (fun _ => none)
     (by decide) rfl (by decide) (fun role h => by cases h)⟩

/-! ## C12: the role given at registration -/

/-- A registration that returns `nil` has found no user with the username or the
email, and has appended one user, with the hash as password and the role
`UsersExist` decides. -/
theorem Register_ok (s : Store F) (flt : Faults) (GenerateFromPassword : String → Option String)
    (req : RegisterRequest) (hok : (Register s flt GenerateFromPassword req).1 = none) :
    ∃ hashed, GenerateFromPassword req.Password = some hashed ∧
      firstUserByUsername s req.Username = none ∧ firstUserByEmail s req.Email = none ∧
      (Register s flt GenerateFromPassword req).2 =
        createUser s
          { ID := 0, Username := req.Username, Password := hashed, Email := req.Email,
            Role := if UsersExist s (fun i => flt (i + 2)) = false then "admin" else "user" } := by
  unfold Register at hok ⊢
  split at hok
  · simp at hok
  · rename_i hfields
    rw [if_neg hfields]
    cases h0 : flt 0 with
    | some e => simp [h0] at hok
    | none =>
      cases hu : firstUserByUsername s req.Username with
      | some u => simp [h0, hu] at hok
      | none =>
        cases h1 : flt 1 with
        | some e => simp [h0, hu, h1] at hok
        | none =>
          cases he : firstUserByEmail s req.Email with
          | some u => simp [h0, hu, h1, he] at hok
          | none =>
            cases hh : GenerateFromPassword req.Password with
            | none => simp [h0, hu, h1, he, hh] at hok
            | some hashed =>
              cases h3 : flt 3 with
              | some e => simp [h0, hu, h1, he, hh, h3] at hok
              | none => exact ⟨hashed, rfl, rfl, rfl, rfl⟩

theorem UsersExist_eq (s : Store F) (flt : Faults) (h : flt 0 = none) :
    (UsersExist s flt = false) ↔ s.users = [] := by
  unfold UsersExist
  rw [h]
  cases s.users <;> simp

/-- The role of the user a registration appends, the `Count` query going
through. -/
theorem Register_appends (s : Store F) (flt : Faults) (GenerateFromPassword : String → Option String)
    (req : RegisterRequest) (hok : (Register s flt GenerateFromPassword req).1 = none)
    (hcount : flt 2 = none) :
    ∃ hashed, GenerateFromPassword req.Password = some hashed ∧
      (Register s flt GenerateFromPassword req).2.users =
        s.users ++ [⟨s.nextUserID, req.Username, hashed, req.Email,
          if s.users = [] then "admin" else "user"⟩] := by
  obtain ⟨hashed, hh, -, -, hs⟩ := Register_ok s flt GenerateFromPassword req hok
  refine ⟨hashed, hh, ?_⟩
  rw [hs]
  have hc : (UsersExist s (fun i => flt (i + 2)) = false) ↔ s.users = [] :=
    UsersExist_eq s _ hcount
  by_cases hu : s.users = []
  · rw [if_pos (hc.mpr hu), if_pos hu]
    rfl
  · have hne : ¬ (UsersExist s (fun i => flt (i + 2)) = false) := fun h => hu (hc.mp h)
    rw [if_neg hne, if_neg hu]
    rfl

/-- The roles after a run of successful registrations, from any store. -/
theorem registerAll_roles (GenerateFromPassword : String → Option String)
    (reqs : List RegisterRequest) (s s2 : Store F)
    (h : registerAll GenerateFromPassword s reqs = some s2) :
    s2.users.map (fun u => u.Role) =
      s.users.map (fun u => u.Role) ++
        rolesOf (if s.users = [] then "admin" else "user") reqs.length := by
  induction reqs generalizing s with
  | nil =>
    simp only [registerAll, Option.some.injEq] at h
    rw [h]
    simp [rolesOf]
  | cons req rest ih =>
    unfold registerAll at h
    cases hr : Register s noFaults GenerateFromPassword req with
    | mk err s1 =>
      cases err with
      | some e => simp [hr] at h
      | none =>
        simp only [hr] at h
        have hok : (Register s noFaults GenerateFromPassword req).1 = none := by rw [hr]
        obtain ⟨hashed, -, hu⟩ := Register_appends s noFaults GenerateFromPassword req hok rfl
        rw [hr] at hu
        have hne : s1.users ≠ [] := by
          rw [hu]
          simp
        have key := ih s1 h
        rw [key, if_neg hne, hu]
        cases rest with
        | nil => simp [rolesOf]
        | cons r rs => simp [rolesOf, List.replicate_succ]

/-- The role given when the `Count` query of `UsersExist` goes through: a
registration that returns `nil` appends one user, whose role is "admin" if and
only if the store held no user before the call, and "user" whenever the store
held a user.  Hence after any run of registrations that return `nil`, none of
whose store calls fails, from the empty store, the first user is admin and every
later one is user. -/
theorem Register_role_counted (s : Store F) (flt : Faults) (GenerateFromPassword : String → Option String)
    (req : RegisterRequest) (hok : (Register s flt GenerateFromPassword req).1 = none)
    (hcount : flt 2 = none) :
    (∃ u, (Register s flt GenerateFromPassword req).2.users = s.users ++ [u] ∧
      (u.Role = "admin" ↔ s.users = []) ∧ (s.users ≠ [] → u.Role = "user")) ∧
    (∀ (reqs : List RegisterRequest) (s2 : Store F),
      registerAll GenerateFromPassword (Store.empty : Store F) reqs = some s2 →
      s2.users.map (fun u => u.Role) = rolesOf "admin" reqs.length) := by
  constructor
  · obtain ⟨hashed, -, hu⟩ := Register_appends s flt GenerateFromPassword req hok hcount
    refine ⟨_, hu, ?_, ?_⟩
    · by_cases h : s.users = []
      · simp only [h, if_true]
      · simp only [h, if_false, iff_false]
        decide
    · intro h
      simp only [h, if_false]
  · intro reqs s2 h
    have key := registerAll_roles GenerateFromPassword reqs Store.empty s2 h
    rw [key]
    simp [Store.empty]

/-- Alice registers on the empty store and becomes admin; bob registers next and
becomes user. -/
theorem Register_role_counted_witness :
    ((Register (Store.empty : Store IntF32) noFaults hashOf ⟨"alice", "pw", "a@x.com"⟩).1 = none ∧
      (Register aliceStore noFaults hashOf ⟨"bob", "pw2", "b@x.com"⟩).1 = none) ∧
    (∃ u, (Register (Store.empty : Store IntF32) noFaults hashOf ⟨"alice", "pw", "a@x.com"⟩).2.users =
        (Store.empty : Store IntF32).users ++ [u] ∧
      (u.Role = "admin" ↔ (Store.empty : Store IntF32).users = []) ∧
      ((Store.empty : Store IntF32).users ≠ [] → u.Role = "user")) ∧
    (∃ u, (Register aliceStore noFaults hashOf ⟨"bob", "pw2", "b@x.com"⟩).2.users =
        aliceStore.users ++ [u] ∧
      (u.Role = "admin" ↔ aliceStore.users = []) ∧ (aliceStore.users ≠ [] → u.Role = "user")) ∧
    aliceBobStore.users.map (fun u => u.Role) = ["admin", "user"] :=
  ⟨⟨by decide, by decide⟩,
   (Register_role_counted (Store.empty : Store IntF32) noFaults hashOf ⟨"alice", "pw", "a@x.com"⟩
      (by decide) rfl).1,
   (Register_role_counted aliceStore noFaults hashOf ⟨"bob", "pw2", "b@x.com"⟩ (by decide) rfl).1,
   by decide⟩

/-- Claim C12 (failing input): the store holds one user, alice, and bob
registers while the `Count` query of `UsersExist` fails.  The error of the query
is not read and the count keeps its zero value: `Register` returns `nil` and
bob is stored with role "admin", on a store that held a user. -/
theorem register_count_failure :
    aliceStore.users.map (fun u => (u.Username, u.Role)) = [("alice", "admin")] ∧
    (Register aliceStore (failAt 2) hashOf ⟨"bob", "pw2", "b@x.com"⟩).1 = none ∧
    (Register aliceStore (failAt 2) hashOf ⟨"bob", "pw2", "b@x.com"⟩).2.users.map
      (fun u => (u.Username, u.Role)) = [("alice", "admin"), ("bob", "admin")] ∧
    ¬ ∀ u ∈ (Register aliceStore (failAt 2) hashOf ⟨"bob", "pw2", "b@x.com"⟩).2.users,
        u.Username = "bob" → u.Role = "user" := by
  refine ⟨by decide, by decide, by decide, by decide⟩

/-! ## C13: the rejections of `Register` -/

theorem find?_isSome_of_mem {α : Type} (p : α → Bool) (l : List α) (x : α) (hx : x ∈ l)
    (hp : p x = true) : ∃ y, l.find? p = some y := by
  cases h : l.find? p with
  | some y => exact ⟨y, rfl⟩
  | none => exact absurd hp (by simpa using List.find?_eq_none.mp h x hx)

/-- C13: `Register` returns `ErrEmptyFields` when the username, the password or
the email is empty, whatever the store does (the check precedes every store
call); otherwise, the lookups going through, `ErrUsernameExist` when a user
with that username exists; otherwise `ErrEmailExist` when a user with that
email exists.  In the three cases the store is unchanged. -/
theorem register_rejections (s : Store F) (flt : Faults)
    (GenerateFromPassword : String → Option String) (req : RegisterRequest) :
    ((req.Username = "" ∨ req.Password = "" ∨ req.Email = "") →
      Register s flt GenerateFromPassword req = (some .ErrEmptyFields, s)) ∧
    (¬ (req.Username = "" ∨ req.Password = "" ∨ req.Email = "") → flt 0 = none →
      (∃ u ∈ s.users, u.Username = req.Username) →
      Register s flt GenerateFromPassword req = (some .ErrUsernameExist, s)) ∧
    (¬ (req.Username = "" ∨ req.Password = "" ∨ req.Email = "") → flt 0 = none → flt 1 = none →
      (∀ u ∈ s.users, u.Username ≠ req.Username) → (∃ u ∈ s.users, u.Email = req.Email) →
      Register s flt GenerateFromPassword req = (some .ErrEmailExist, s)) := by
  refine ⟨fun h => ?_, fun h h0 ⟨u, hu, hname⟩ => ?_, fun h h0 h1 hno ⟨u, hu, hmail⟩ => ?_⟩
  · unfold Register
    rw [if_pos h]
  · obtain ⟨y, hy⟩ := find?_isSome_of_mem (fun u : User => u.Username == req.Username) s.users u hu
      (by simp [hname])
    unfold Register
    rw [if_neg h]
    simp only [h0, firstUserByUsername, hy]
  · have hnone : firstUserByUsername s req.Username = none := by
      unfold firstUserByUsername
      rw [List.find?_eq_none]
      intro x hx
      simpa using hno x hx
    obtain ⟨y, hy⟩ := find?_isSome_of_mem (fun u : User => u.Email == req.Email) s.users u hu
      (by simp [hmail])
    unfold Register
    rw [if_neg h]
    simp only [h0, hnone, h1, firstUserByEmail, hy]

/-- On the store where alice is registered: an empty password, the username
alice again, and alice's email again. -/
theorem register_rejections_witness :
    Register aliceStore failAfterLookup hashOf ⟨"bob", "", "b@x.com"⟩ =
      (some .ErrEmptyFields, aliceStore) ∧
    Register aliceStore noFaults hashOf ⟨"alice", "pw2", "b@x.com"⟩ =
      (some .ErrUsernameExist, aliceStore) ∧
    Register aliceStore noFaults hashOf ⟨"bob", "pw2", "a@x.com"⟩ =
      (some .ErrEmailExist, aliceStore) :=
  ⟨(register_rejections aliceStore failAfterLookup hashOf ⟨"bob", "", "b@x.com"⟩).1
     (Or.inr (Or.inl rfl)),
   (register_rejections aliceStore noFaults hashOf ⟨"alice", "pw2", "b@x.com"⟩).2.1
     (by decide) rfl (by decide),
   (register_rejections aliceStore noFaults hashOf ⟨"bob", "pw2", "a@x.com"⟩).2.2
     (by decide) rfl rfl (by decide) (by decide)⟩

/-! ## C14 and C15: `Login` -/

/-- `Login` on a request with a username and a password, the lookup going
through. -/
theorem Login_run (s : Store F) (flt : Faults) (CompareHashAndPassword : String → String → Bool)
    (SignedString : SigningMethod → TokenClaims → Except String String) (now : Int)
    (req : LoginRequest) (hu : req.Username ≠ "") (hp : req.Password ≠ "") (h0 : flt 0 = none) :
    Login s flt CompareHashAndPassword SignedString now req =
      match firstUserByUsername s req.Username with
      | none => ("", some .ErrInvalidCredentials)
      | some user =>
        if CompareHashAndPassword user.Password req.Password = false then
          ("", some .ErrInvalidCredentials)
        else
          match SignedString .HS256
              { username := req.Username, role := user.Role,
                exp := (now + 24 * Hour) / 1000000000 } with
          | .error _ => ("", some .ErrCreatingToken)
          | .ok token => (token, none) := by
  have hf : ¬ (req.Username = "" ∨ req.Password = "") := fun h => h.elim hu hp
  unfold Login
  rw [if_neg hf]
  simp only [h0, GenerateToken]

/-- C14: for a request with a non-empty username and a non-empty password (the
lookup going through), `Login` returns the same pair, the empty token and
`ErrInvalidCredentials`, when no user has the username and when the user exists
and the password does not match the stored hash; when the password matches and
the signer issues a non-empty token, `Login` returns that token and a `nil`
error. -/
theorem login_credentials (s : Store F) (flt : Faults)
    (CompareHashAndPassword : String → String → Bool)
    (SignedString : SigningMethod → TokenClaims → Except String String) (now : Int)
    (req : LoginRequest) (hu : req.Username ≠ "") (hp : req.Password ≠ "") (h0 : flt 0 = none) :
    ((∀ u ∈ s.users, u.Username ≠ req.Username) →
      Login s flt CompareHashAndPassword SignedString now req =
        ("", some .ErrInvalidCredentials)) ∧
    (∀ user, firstUserByUsername s req.Username = some user →
      CompareHashAndPassword user.Password req.Password = false →
      Login s flt CompareHashAndPassword SignedString now req =
        ("", some .ErrInvalidCredentials)) ∧
    (∀ user token, firstUserByUsername s req.Username = some user →
      CompareHashAndPassword user.Password req.Password = true →
      SignedString .HS256
        { username := req.Username, role := user.Role,
          exp := (now + 24 * Hour) / 1000000000 } = .ok token →
      token ≠ "" →
      Login s flt CompareHashAndPassword SignedString now req = (token, none) ∧
      (Login s flt CompareHashAndPassword SignedString now req).1 ≠ "") := by
  rw [Login_run s flt CompareHashAndPassword SignedString now req hu hp h0]
  refine ⟨fun hno => ?_, fun user hfound hcmp => ?_, fun user token hfound hcmp hsign htok => ?_⟩
  · have hnone : firstUserByUsername s req.Username = none := by
      unfold firstUserByUsername
      rw [List.find?_eq_none]
      intro x hx
      simpa using hno x hx
    rw [hnone]
  · rw [hfound]
    simp only [hcmp, if_true]
  · have e : (match firstUserByUsername s req.Username with
        | none => ("", some Error.ErrInvalidCredentials)
        | some user =>
          if CompareHashAndPassword user.Password req.Password = false then
            ("", some Error.ErrInvalidCredentials)
          else
            match SignedString .HS256
                { username := req.Username, role := user.Role,
                  exp := (now + 24 * Hour) / 1000000000 } with
            | .error _ => ("", some Error.ErrCreatingToken)
            | .ok token => (token, none)) = (token, none) := by
      rw [hfound]
      simp only [hcmp, Bool.true_eq_false, if_false, hsign]
    rw [e]
    exact ⟨rfl, htok⟩

/-- On the store where alice is registered: an unknown username and a wrong
password get the same answer; the right password gets a token. -/
theorem login_credentials_witness :
    Login aliceStore noFaults compareHashOf spellOut 0 ⟨"mallory", "pw"⟩ =
      ("", some .ErrInvalidCredentials) ∧
    Login aliceStore noFaults compareHashOf spellOut 0 ⟨"alice", "wrong"⟩ =
      ("", some .ErrInvalidCredentials) ∧
    Login aliceStore noFaults compareHashOf spellOut 0 ⟨"alice", "pw"⟩ = ("jwt.alice.admin", none) :=
  ⟨(login_credentials aliceStore noFaults compareHashOf spellOut 0 ⟨"mallory", "pw"⟩
      (by decide) (by decide) rfl).1 (by decide),
   (login_credentials aliceStore noFaults compareHashOf spellOut 0 ⟨"alice", "wrong"⟩
      (by decide) (by decide) rfl).2.1 ⟨1, "alice", "hash of pw", "a@x.com", "admin"⟩
      (by decide) (by decide),
   ((login_credentials aliceStore noFaults compareHashOf spellOut 0 ⟨"alice", "pw"⟩
      (by decide) (by decide) rfl).2.2 ⟨1, "alice", "hash of pw", "a@x.com", "admin"⟩
      "jwt.alice.admin" (by decide) (by decide) rfl (by decide)).1⟩

/-- A login that returns `nil` has found the user, matched the password and got
its token from the signer. -/
theorem Login_ok (s : Store F) (flt : Faults) (CompareHashAndPassword : String → String → Bool)
    (SignedString : SigningMethod → TokenClaims → Except String String) (now : Int)
    (req : LoginRequest)
    (hok : (Login s flt CompareHashAndPassword SignedString now req).2 = none) :
    ∃ user, firstUserByUsername s req.Username = some user ∧
      CompareHashAndPassword user.Password req.Password = true ∧
      SignedString .HS256
        { username := req.Username, role := user.Role,
          exp := (now + 24 * Hour) / 1000000000 } =
        .ok (Login s flt CompareHashAndPassword SignedString now req).1 := by
  unfold Login at hok ⊢
  split at hok
  · simp at hok
  · rename_i hfields
    rw [if_neg hfields]
    cases h0 : flt 0 with
    | some e => simp [h0] at hok
    | none =>
      cases hu : firstUserByUsername s req.Username with
      | none => simp [h0, hu] at hok
      | some user =>
        cases hc : CompareHashAndPassword user.Password req.Password with
        | false => simp [h0, hu, hc] at hok
        | true =>
          cases hs : SignedString .HS256
              { username := req.Username, role := user.Role,
                exp := (now + 24 * Hour) / 1000000000 } with
          | error e => simp [h0, hu, hc, GenerateToken, hs] at hok
          | ok token =>
            refine ⟨user, rfl, hc, ?_⟩
            simp only [GenerateToken, hs, hc, Bool.true_eq_false, if_false]

theorem expiry_seconds (now : Int) : (now + 24 * Hour) / 1000000000 = now / 1000000000 + 86400 := by
  have h : 24 * Hour = 86400 * 1000000000 := by decide
  rw [h]
  exact Int.add_mul_ediv_right now 86400 (by decide)

/-- C15: when `Login` returns a `nil` error, its token is what the signer
returns for the method HS256 and the claims made of the username of the
request, the role stored in the user's row, and as `exp` the Unix seconds of
the clock reading plus 24 hours, which is the seconds of the reading plus
86400; the request carries no role. -/
theorem login_token_claims (s : Store F) (flt : Faults)
    (CompareHashAndPassword : String → String → Bool)
    (SignedString : SigningMethod → TokenClaims → Except String String) (now : Int)
    (req : LoginRequest)
    (hok : (Login s flt CompareHashAndPassword SignedString now req).2 = none) :
    ∃ user, firstUserByUsername s req.Username = some user ∧
      SignedString .HS256
        { username := req.Username, role := user.Role, exp := now / 1000000000 + 86400 } =
        .ok (Login s flt CompareHashAndPassword SignedString now req).1 := by
  obtain ⟨user, hfound, -, hsign⟩ := Login_ok s flt CompareHashAndPassword SignedString now req hok
  rw [expiry_seconds] at hsign
  exact ⟨user, hfound, hsign⟩

/-- Alice logs in 1.5 seconds after the epoch, the signer being `showClaims`:
the claims are her username, her stored role admin and the expiry 86401. -/
theorem login_token_claims_witness :
    (Login aliceStore noFaults compareHashOf showClaims 1500000000 ⟨"alice", "pw"⟩).2 = none ∧
    ∃ user, firstUserByUsername aliceStore "alice" = some user ∧
      showClaims .HS256 { username := "alice", role := user.Role, exp := 1500000000 / 1000000000 + 86400 } =
        .ok (Login aliceStore noFaults compareHashOf showClaims 1500000000 ⟨"alice", "pw"⟩).1 :=
  ⟨by decide,
   login_token_claims aliceStore noFaults compareHashOf showClaims 1500000000 ⟨"alice", "pw"⟩
     (by decide)⟩

/-! ## The outcomes of the cart operations -/

/-- The store `addLine` leaves: the same store, the store with the found line
incremented, or the store with a new line when none was found. -/
theorem addLine_cases (s : Store F) (flt : Faults) (cart : Cart) (bookID : Nat) (q : Int) :
    (addLine s flt cart bookID q).2 = s ∨
    (∃ line, firstCartBook s cart.ID bookID = some line ∧
      (addLine s flt cart bookID q).2 =
        saveCartBook s { line with Quantity := wrapInt (line.Quantity + q) }) ∨
    (firstCartBook s cart.ID bookID = none ∧
      (addLine s flt cart bookID q).2 = createCartBook s cart.ID bookID q) := by
  unfold addLine
  cases flt 2 with
  | some e => exact Or.inl rfl
  | none =>
    cases firstBook s bookID with
    | none => exact Or.inl rfl
    | some b =>
      cases flt 3 with
      | some e => exact Or.inl rfl
      | none =>
        cases hl : firstCartBook s cart.ID bookID with
        | some line =>
          cases flt 4 with
          | some e => exact Or.inl rfl
          | none => exact Or.inr (Or.inl ⟨line, rfl, rfl⟩)
        | none =>
          cases flt 5 with
          | some e => exact Or.inl rfl
          | none => exact Or.inr (Or.inr ⟨rfl, rfl⟩)

/-- The store `AddToCart` leaves: the same store, or what `addLine` leaves from
the store itself (the user's cart being found) or from the store with a new cart
for the user. -/
theorem AddToCart_cases (s : Store F) (flt : Faults) (userID bookID : Nat) (q : Int) :
    (AddToCart s flt userID bookID q).2 = s ∨
    (∃ cart, firstCartByUser s userID = some cart ∧
      AddToCart s flt userID bookID q = addLine s flt cart bookID q) ∨
    (firstCartByUser s userID = none ∧
      AddToCart s flt userID bookID q =
        addLine (createCart s userID).2 flt (createCart s userID).1 bookID q) := by
  unfold AddToCart
  cases flt 0 with
  | some e => exact Or.inl rfl
  | none =>
    cases hc : firstCartByUser s userID with
    | some cart => exact Or.inr (Or.inl ⟨cart, rfl, rfl⟩)
    | none =>
      cases flt 1 with
      | some e => exact Or.inl rfl
      | none => exact Or.inr (Or.inr ⟨rfl, rfl⟩)

/-- The store `UpdateQuantity` leaves: the same store, or the store with the
found line given the quantity. -/
theorem UpdateQuantity_cases (s : Store F) (flt : Faults) (userID bookID : Nat) (q : Int) :
    (UpdateQuantity s flt userID bookID q).2 = s ∨
    ∃ cart line, firstCartByUser s userID = some cart ∧
      firstCartBook s cart.ID bookID = some line ∧
      (UpdateQuantity s flt userID bookID q).2 = saveCartBook s { line with Quantity := q } := by
  unfold UpdateQuantity
  cases flt 0 with
  | some e => exact Or.inl rfl
  | none =>
    cases hc : firstCartByUser s userID with
    | none => exact Or.inl rfl
    | some cart =>
      cases flt 1 with
      | some e => exact Or.inl rfl
      | none =>
        simp only []
        cases hl : firstCartBook s cart.ID bookID with
        | none => exact Or.inl rfl
        | some line =>
          cases flt 2 with
          | some e => exact Or.inl rfl
          | none => exact Or.inr ⟨cart, line, rfl, hl, rfl⟩

/-- The cart lines an operation that only deletes lines leaves: a filtering of
the lines, the sequence being as before. -/
theorem RemoveFromCart_cases (s : Store F) (flt : Faults) (userID bookID : Nat) :
    (RemoveFromCart s flt userID bookID).2 = s ∨
    ∃ cart, firstCartByUser s userID = some cart ∧
      (RemoveFromCart s flt userID bookID).2 = (deleteCartBook s cart.ID bookID).1 := by
  unfold RemoveFromCart
  cases flt 0 with
  | some e => exact Or.inl rfl
  | none =>
    cases hc : firstCartByUser s userID with
    | none => exact Or.inl rfl
    | some cart =>
      cases flt 1 with
      | some e => exact Or.inl rfl
      | none =>
        refine Or.inr ⟨cart, rfl, ?_⟩
        simp only []
        split <;> rfl

theorem ClearCart_cases (s : Store F) (flt : Faults) (userID : Nat) :
    (ClearCart s flt userID).2 = s ∨
    ∃ cart, firstCartByUser s userID = some cart ∧
      (ClearCart s flt userID).2 = deleteCartBooks s cart.ID := by
  unfold ClearCart
  cases flt 0 with
  | some e => exact Or.inl rfl
  | none =>
    cases hc : firstCartByUser s userID with
    | none => exact Or.inl rfl
    | some cart =>
      cases flt 1 with
      | some e => exact Or.inl rfl
      | none => exact Or.inr ⟨cart, rfl, rfl⟩

/-- The cart lines `CreateOrder` leaves: those of the store, or those of the
other carts; the sequence of `cart_books` is as before. -/
theorem CreateOrder_cartBooks [Float32 F] (s : Store F) (flt : Faults) (userID : Nat)
    (address : String) :
    (CreateOrder s flt userID address).2.nextCartBookID = s.nextCartBookID ∧
    ((CreateOrder s flt userID address).2.cartBooks = s.cartBooks ∨
     ∃ cart, firstCartByUser s userID = some cart ∧
      (CreateOrder s flt userID address).2.cartBooks =
        s.cartBooks.filter (fun cb => !(cb.CartID == cart.ID))) := by
  cases h0 : flt 0 with
  | some e =>
    have : (CreateOrder s flt userID address).2 = s := by simp only [CreateOrder, h0]
    rw [this]
    exact ⟨rfl, Or.inl rfl⟩
  | none =>
    cases hc : firstCartByUser s userID with
    | none =>
      rw [createOrder_empty_cart_eq s flt userID address h0 (Or.inl hc)]
      exact ⟨rfl, Or.inl rfl⟩
    | some cart =>
      by_cases hl : cartLines s cart.ID = []
      · rw [createOrder_empty_cart_eq s flt userID address h0 (Or.inr ⟨cart, hc, hl⟩)]
        exact ⟨rfl, Or.inl rfl⟩
      · rw [(CreateOrder_store s flt userID address cart h0 hc hl).2.2]
        have h1 : (createOrderStep s flt (builtOrder s userID address cart)
            (builtLines s cart)).2.2.cartBooks = s.cartBooks ∧
            (createOrderStep s flt (builtOrder s userID address cart)
            (builtLines s cart)).2.2.nextCartBookID = s.nextCartBookID := by
          rcases createOrderStep_cases s flt (builtOrder s userID address cart)
            (builtLines s cart) with e | ⟨_, _, e⟩ <;> rw [e] <;> exact ⟨rfl, rfl⟩
        unfold deleteLinesStep
        split
        · exact ⟨h1.2, Or.inl h1.1⟩
        · refine ⟨h1.2, Or.inr ⟨cart, rfl, ?_⟩⟩
          simp only [deleteCartBooks, h1.1]

/-! ## C16: one line per (cart, book) -/

/-- With distinct ids, `Save` of a line of the table with a new quantity changes
that line only, and only its quantity. -/
theorem saveCartBook_eq (s : Store F) (line : CartBook) (q : Int)
    (hnd : (s.cartBooks.map (fun cb => cb.ID)).Nodup) (hmem : line ∈ s.cartBooks) :
    (saveCartBook s { line with Quantity := q }).cartBooks =
      s.cartBooks.map (fun cb => if cb = line then { cb with Quantity := q } else cb) := by
  unfold saveCartBook
  simp only []
  apply List.map_congr_left
  intro r hr
  by_cases h : r.ID = line.ID
  · have hrl : r = line := List.inj_on_of_nodup_map hnd hr hmem h
    simp [hrl]
  · have hrl : ¬ r = line := fun e => h (e ▸ rfl)
    simp [h, hrl]

theorem map_setQuantity_proj {β : Type} (key : CartBook → β)
    (hkey : ∀ (cb : CartBook) (q : Int), key { cb with Quantity := q } = key cb)
    (l : List CartBook) (line : CartBook) (q : Int) :
    (l.map (fun cb => if cb = line then { cb with Quantity := q } else cb)).map key = l.map key := by
  rw [List.map_map]
  apply List.map_congr_left
  intro r _
  simp only [Function.comp]
  split
  · exact hkey r q
  · rfl

/-- `Save` of a line of the table with a new quantity keeps the primary key and
the uniqueness of lines. -/
theorem cartInv_save (s : Store F) (line : CartBook) (q : Int) (hk : s.cartBookKey)
    (hu : s.oneLinePerBook) (hmem : line ∈ s.cartBooks) :
    (saveCartBook s { line with Quantity := q }).cartBookKey ∧
    (saveCartBook s { line with Quantity := q }).oneLinePerBook := by
  have e := saveCartBook_eq s line q hk.1 hmem
  refine ⟨⟨?_, ?_⟩, ?_⟩
  · rw [e, map_setQuantity_proj (fun cb => cb.ID) (fun _ _ => rfl)]
    exact hk.1
  · intro cb hcb
    rw [e, List.mem_map] at hcb
    obtain ⟨r, hr, rfl⟩ := hcb
    have := hk.2 r hr
    split
    · exact this
    · exact this
  · unfold Store.oneLinePerBook
    rw [e, map_setQuantity_proj (fun cb => (cb.CartID, cb.BookID)) (fun _ _ => rfl)]
    exact hu

/-- `Create` of a line for a pair that has none keeps the primary key and the
uniqueness of lines. -/
theorem cartInv_create (s : Store F) (cartID bookID : Nat) (q : Int) (hk : s.cartBookKey)
    (hu : s.oneLinePerBook) (hnone : firstCartBook s cartID bookID = none) :
    (createCartBook s cartID bookID q).cartBookKey ∧
    (createCartBook s cartID bookID q).oneLinePerBook := by
  refine ⟨⟨?_, ?_⟩, ?_⟩
  · simp only [createCartBook, List.map_append, List.map_cons, List.map_nil]
    rw [List.nodup_append]
    refine ⟨hk.1, List.nodup_singleton _, ?_⟩
    intro a ha hb
    rw [List.mem_singleton] at hb
    rw [List.mem_map] at ha
    obtain ⟨r, hr, rfl⟩ := ha
    have := hk.2 r hr
    omega
  · intro cb hcb
    simp only [createCartBook, List.mem_append, List.mem_singleton] at hcb ⊢
    rcases hcb with hcb | rfl
    · exact Nat.lt_succ_of_lt (hk.2 cb hcb)
    · exact Nat.lt_succ_self _
  · unfold Store.oneLinePerBook
    simp only [createCartBook, List.map_append, List.map_cons, List.map_nil]
    rw [List.nodup_append]
    refine ⟨hu, List.nodup_singleton _, ?_⟩
    intro a ha hb
    rw [List.mem_singleton] at hb
    rw [List.mem_map] at ha
    obtain ⟨r, hr, rfl⟩ := ha
    have hno := List.find?_eq_none.mp hnone r hr
    rw [Prod.mk.injEq] at hb
    simp [hb.1, hb.2] at hno

/-- A deletion of lines keeps the primary key and the uniqueness of lines. -/
theorem cartInv_filter (s s2 : Store F) (p : CartBook → Bool) (hk : s.cartBookKey)
    (hu : s.oneLinePerBook) (hb : s2.cartBooks = s.cartBooks.filter p)
    (hn : s2.nextCartBookID = s.nextCartBookID) :
    s2.cartBookKey ∧ s2.oneLinePerBook := by
  refine ⟨⟨?_, ?_⟩, ?_⟩
  · rw [hb]
    exact List.Nodup.sublist (List.Sublist.map _ (List.filter_sublist _)) hk.1
  · intro cb hcb
    rw [hb] at hcb
    rw [hn]
    exact hk.2 cb (List.mem_of_mem_filter hcb)
  · unfold Store.oneLinePerBook
    rw [hb]
    exact List.Nodup.sublist (List.Sublist.map _ (List.filter_sublist _)) hu

theorem cartInv_frame (s s2 : Store F) (hk : s.cartBookKey) (hu : s.oneLinePerBook)
    (hb : s2.cartBooks = s.cartBooks) (hn : s2.nextCartBookID = s.nextCartBookID) :
    s2.cartBookKey ∧ s2.oneLinePerBook := by
  unfold Store.cartBookKey Store.oneLinePerBook
  rw [hb, hn]
  exact ⟨hk, hu⟩

theorem firstCartBook_mem {s : Store F} {cartID bookID : Nat} {line : CartBook}
    (h : firstCartBook s cartID bookID = some line) :
    line ∈ s.cartBooks ∧ line.CartID = cartID ∧ line.BookID = bookID := by
  refine ⟨List.mem_of_find?_eq_some h, ?_⟩
  have := List.find?_some h
  simpa using this

theorem addLine_cartInv (s : Store F) (flt : Faults) (cart : Cart) (bookID : Nat) (q : Int)
    (hk : s.cartBookKey) (hu : s.oneLinePerBook) :
    (addLine s flt cart bookID q).2.cartBookKey ∧ (addLine s flt cart bookID q).2.oneLinePerBook := by
  rcases addLine_cases s flt cart bookID q with h | ⟨line, hl, h⟩ | ⟨hl, h⟩
  · rw [h]; exact ⟨hk, hu⟩
  · rw [h]; exact cartInv_save s line _ hk hu (firstCartBook_mem hl).1
  · rw [h]; exact cartInv_create s cart.ID bookID q hk hu hl

theorem AddToCart_cartInv (s : Store F) (flt : Faults) (userID bookID : Nat) (q : Int)
    (hk : s.cartBookKey) (hu : s.oneLinePerBook) :
    (AddToCart s flt userID bookID q).2.cartBookKey ∧
    (AddToCart s flt userID bookID q).2.oneLinePerBook := by
  rcases AddToCart_cases s flt userID bookID q with h | ⟨cart, _, h⟩ | ⟨_, h⟩
  · rw [h]; exact ⟨hk, hu⟩
  · rw [h]; exact addLine_cartInv s flt cart bookID q hk hu
  · rw [h]
    have h2 := cartInv_frame s (createCart s userID).2 hk hu rfl rfl
    exact addLine_cartInv _ flt _ bookID q h2.1 h2.2

theorem UpdateQuantity_cartInv (s : Store F) (flt : Faults) (userID bookID : Nat) (q : Int)
    (hk : s.cartBookKey) (hu : s.oneLinePerBook) :
    (UpdateQuantity s flt userID bookID q).2.cartBookKey ∧
    (UpdateQuantity s flt userID bookID q).2.oneLinePerBook := by
  rcases UpdateQuantity_cases s flt userID bookID q with h | ⟨cart, line, _, hl, h⟩
  · rw [h]; exact ⟨hk, hu⟩
  · rw [h]; exact cartInv_save s line q hk hu (firstCartBook_mem hl).1

theorem RemoveFromCart_cartInv (s : Store F) (flt : Faults) (userID bookID : Nat)
    (hk : s.cartBookKey) (hu : s.oneLinePerBook) :
    (RemoveFromCart s flt userID bookID).2.cartBookKey ∧
    (RemoveFromCart s flt userID bookID).2.oneLinePerBook := by
  rcases RemoveFromCart_cases s flt userID bookID with h | ⟨cart, _, h⟩
  · rw [h]; exact ⟨hk, hu⟩
  · rw [h]; exact cartInv_filter s _ _ hk hu rfl rfl

theorem ClearCart_cartInv (s : Store F) (flt : Faults) (userID : Nat)
    (hk : s.cartBookKey) (hu : s.oneLinePerBook) :
    (ClearCart s flt userID).2.cartBookKey ∧ (ClearCart s flt userID).2.oneLinePerBook := by
  rcases ClearCart_cases s flt userID with h | ⟨cart, _, h⟩
  · rw [h]; exact ⟨hk, hu⟩
  · rw [h]; exact cartInv_filter s _ _ hk hu rfl rfl

theorem CreateOrder_cartInv [Float32 F] (s : Store F) (flt : Faults) (userID : Nat)
    (address : String) (hk : s.cartBookKey) (hu : s.oneLinePerBook) :
    (CreateOrder s flt userID address).2.cartBookKey ∧
    (CreateOrder s flt userID address).2.oneLinePerBook := by
  obtain ⟨hn, h | ⟨cart, _, h⟩⟩ := CreateOrder_cartBooks s flt userID address
  · exact cartInv_frame s _ hk hu h hn
  · exact cartInv_filter s _ _ hk hu h hn

/-- Adding a book that has a line in the user's cart leaves the number of lines
as it was. -/
theorem AddToCart_existing_length (s : Store F) (flt : Faults) (userID bookID : Nat) (q : Int)
    (cart : Cart) (line : CartBook) (hc : firstCartByUser s userID = some cart)
    (hl : firstCartBook s cart.ID bookID = some line) :
    (AddToCart s flt userID bookID q).2.cartBooks.length = s.cartBooks.length := by
  rcases AddToCart_cases s flt userID bookID q with h | ⟨cart2, hc2, h⟩ | ⟨hc2, _⟩
  · rw [h]
  · rw [hc] at hc2
    have hcart : cart = cart2 := Option.some.inj hc2
    subst hcart
    rw [h]
    rcases addLine_cases s flt cart bookID q with h2 | ⟨line2, _, h2⟩ | ⟨hl2, _⟩
    · rw [h2]
    · rw [h2]
      simp [saveCartBook]
    · rw [hl] at hl2
      cases hl2
  · rw [hc] at hc2
    cases hc2

/-- C16: on a store where the primary key of `cart_books` is in force, if there
is at most one cart line per (cart, book) pair, then there still is after
`AddToCart`, `UpdateQuantity`, `RemoveFromCart`, `ClearCart` and `CreateOrder`,
whatever the store failures (and the primary key is still in force); and
`AddToCart` of a book that has a line in the user's cart leaves the number of
lines as it was. -/
theorem cart_line_uniqueness [Float32 F] (s : Store F) (flt : Faults) (userID bookID : Nat)
    (q : Int) (address : String) (hk : s.cartBookKey) (hu : s.oneLinePerBook) :
    ((AddToCart s flt userID bookID q).2.oneLinePerBook ∧
      (UpdateQuantity s flt userID bookID q).2.oneLinePerBook ∧
      (RemoveFromCart s flt userID bookID).2.oneLinePerBook ∧
      (ClearCart s flt userID).2.oneLinePerBook ∧
      (CreateOrder s flt userID address).2.oneLinePerBook) ∧
    ((AddToCart s flt userID bookID q).2.cartBookKey ∧
      (UpdateQuantity s flt userID bookID q).2.cartBookKey ∧
      (RemoveFromCart s flt userID bookID).2.cartBookKey ∧
      (ClearCart s flt userID).2.cartBookKey ∧
      (CreateOrder s flt userID address).2.cartBookKey) ∧
    (∀ cart line, firstCartByUser s userID = some cart →
      firstCartBook s cart.ID bookID = some line →
      (AddToCart s flt userID bookID q).2.cartBooks.length = s.cartBooks.length) :=
  ⟨⟨(AddToCart_cartInv s flt userID bookID q hk hu).2,
    (UpdateQuantity_cartInv s flt userID bookID q hk hu).2,
    (RemoveFromCart_cartInv s flt userID bookID hk hu).2,
    (ClearCart_cartInv s flt userID hk hu).2,
    (CreateOrder_cartInv s flt userID address hk hu).2⟩,
   ⟨(AddToCart_cartInv s flt userID bookID q hk hu).1,
    (UpdateQuantity_cartInv s flt userID bookID q hk hu).1,
    (RemoveFromCart_cartInv s flt userID bookID hk hu).1,
    (ClearCart_cartInv s flt userID hk hu).1,
    (CreateOrder_cartInv s flt userID address hk hu).1⟩,
   fun cart line hc hl => AddToCart_existing_length s flt userID bookID q cart line hc hl⟩

/-- In the scenario, user 1 adds book 1 again: still one line per pair, and
still two lines. -/
theorem cart_line_uniqueness_witness :
    (scenarioStore.cartBookKey ∧ scenarioStore.oneLinePerBook) ∧
    (AddToCart scenarioStore noFaults 1 1 5).2.oneLinePerBook ∧
    (AddToCart scenarioStore noFaults 1 1 5).2.cartBooks.length = scenarioStore.cartBooks.length :=
  ⟨⟨by unfold Store.cartBookKey; decide, by unfold Store.oneLinePerBook; decide⟩,
   (cart_line_uniqueness scenarioStore noFaults 1 1 5 "Main St"
      (by unfold Store.cartBookKey; decide) (by unfold Store.oneLinePerBook; decide)).1.1,
   (cart_line_uniqueness scenarioStore noFaults 1 1 5 "Main St"
      (by unfold Store.cartBookKey; decide) (by unfold Store.oneLinePerBook; decide)).2.2
      ⟨1, 1⟩ ⟨1, 1, 1, 2⟩ (by decide) (by decide)⟩

/-! ## C17: the quantities of cart lines -/

/-- A property of quantities that holds of the lines of the store, of the
quantity given, and of the incremented quantity of the lines of the book, holds
of the lines `addLine` leaves. -/
theorem addLine_quantities (P : Int → Prop) (s : Store F) (flt : Faults) (cart : Cart)
    (bookID : Nat) (q : Int) (h : ∀ cb ∈ s.cartBooks, P cb.Quantity) (hq : P q)
    (hadd : ∀ cb ∈ s.cartBooks, cb.BookID = bookID → P (wrapInt (cb.Quantity + q))) :
    ∀ cb ∈ (addLine s flt cart bookID q).2.cartBooks, P cb.Quantity := by
  rcases addLine_cases s flt cart bookID q with e | ⟨line, hl, e⟩ | ⟨_, e⟩
  · rw [e]; exact h
  · rw [e]
    intro cb hcb
    simp only [saveCartBook, List.mem_map] at hcb
    obtain ⟨r, hr, rfl⟩ := hcb
    split
    · exact hadd line (firstCartBook_mem hl).1 (firstCartBook_mem hl).2.2
    · exact h r hr
  · rw [e]
    intro cb hcb
    simp only [createCartBook, List.mem_append, List.mem_singleton] at hcb
    rcases hcb with hcb | rfl
    · exact h cb hcb
    · exact hq

theorem AddToCart_quantities (P : Int → Prop) (s : Store F) (flt : Faults) (userID bookID : Nat)
    (q : Int) (h : ∀ cb ∈ s.cartBooks, P cb.Quantity) (hq : P q)
    (hadd : ∀ cb ∈ s.cartBooks, cb.BookID = bookID → P (wrapInt (cb.Quantity + q))) :
    ∀ cb ∈ (AddToCart s flt userID bookID q).2.cartBooks, P cb.Quantity := by
  rcases AddToCart_cases s flt userID bookID q with e | ⟨cart, _, e⟩ | ⟨_, e⟩
  · rw [e]; exact h
  · rw [e]; exact addLine_quantities P s flt cart bookID q h hq hadd
  · rw [e]; exact addLine_quantities P (createCart s userID).2 flt _ bookID q h hq hadd

theorem UpdateQuantity_quantities (P : Int → Prop) (s : Store F) (flt : Faults)
    (userID bookID : Nat) (q : Int) (h : ∀ cb ∈ s.cartBooks, P cb.Quantity) (hq : P q) :
    ∀ cb ∈ (UpdateQuantity s flt userID bookID q).2.cartBooks, P cb.Quantity := by
  rcases UpdateQuantity_cases s flt userID bookID q with e | ⟨cart, line, _, _, e⟩
  · rw [e]; exact h
  · rw [e]
    intro cb hcb
    simp only [saveCartBook, List.mem_map] at hcb
    obtain ⟨r, hr, rfl⟩ := hcb
    split
    · exact hq
    · exact h r hr

theorem deletions_quantities [Float32 F] (P : Int → Prop) (s : Store F) (flt : Faults)
    (userID bookID : Nat) (address : String) (h : ∀ cb ∈ s.cartBooks, P cb.Quantity) :
    (∀ cb ∈ (RemoveFromCart s flt userID bookID).2.cartBooks, P cb.Quantity) ∧
    (∀ cb ∈ (ClearCart s flt userID).2.cartBooks, P cb.Quantity) ∧
    (∀ cb ∈ (CreateOrder s flt userID address).2.cartBooks, P cb.Quantity) := by
  refine ⟨?_, ?_, ?_⟩
  · rcases RemoveFromCart_cases s flt userID bookID with e | ⟨cart, _, e⟩
    · rw [e]; exact h
    · rw [e]; exact fun cb hcb => h cb (List.mem_of_mem_filter hcb)
  · rcases ClearCart_cases s flt userID with e | ⟨cart, _, e⟩
    · rw [e]; exact h
    · rw [e]; exact fun cb hcb => h cb (List.mem_of_mem_filter hcb)
  · rcases (CreateOrder_cartBooks s flt userID address).2 with e | ⟨cart, _, e⟩
    · rw [e]; exact h
    · rw [e]; exact fun cb hcb => h cb (List.mem_of_mem_filter hcb)

/-- The quantities of the lines of a store reachable with quantities that are at
least 1 and without overflow are at least 1. -/
theorem positive_quantities [Float32 F] (s : Store F) (h : PositiveReachable s) :
    ∀ cb ∈ s.cartBooks, 1 ≤ cb.Quantity := by
  induction h with
  | empty => intro cb hcb; simp [Store.empty] at hcb
  | createUser s u _ ih => exact ih
  | createBook s flt req _ ih =>
    rw [(CreateBook_frame s flt req).2.2.2]
    exact ih
  | addToCart s flt userID bookID q _ hq hint hsum ih =>
    refine AddToCart_quantities (fun x => 1 ≤ x) s flt userID bookID q ih hq ?_
    intro cb hcb hb
    have h1 := ih cb hcb
    have h2 := hsum cb hcb hb
    have hi : isInt (cb.Quantity + q) := by
      unfold isInt
      constructor <;> omega
    rw [wrapInt_of_isInt _ hi]
    omega
  | updateQuantity s flt userID bookID q _ hq _ ih =>
    exact UpdateQuantity_quantities (fun x => 1 ≤ x) s flt userID bookID q ih hq
  | removeFromCart s flt userID bookID _ ih =>
    exact (deletions_quantities (fun x => 1 ≤ x) s flt userID bookID "" ih).1
  | clearCart s flt userID _ ih =>
    exact (deletions_quantities (fun x => 1 ≤ x) s flt userID 0 "" ih).2.1
  | createOrder s flt userID address _ ih =>
    exact (deletions_quantities (fun x => 1 ≤ x) s flt userID 0 address ih).2.2

theorem positiveReachable_scenario : PositiveReachable scenarioStore :=
  PositiveReachable.addToCart _ _ _ _ _
    (PositiveReachable.addToCart _ _ _ _ _
      (PositiveReachable.createBook _ _ _
        (PositiveReachable.createBook _ _ _
          (PositiveReachable.createUser _ _ PositiveReachable.empty)))
      (by decide) (by decide) (by decide))
    (by decide) (by decide) (by decide)

/-- C17 (amended): every cart line of every store reachable from the empty
store through the insertion of users, `CreateBook`, `AddToCart`,
`UpdateQuantity`, `RemoveFromCart`, `ClearCart` and `CreateOrder`, where the
quantity arguments are `int`s that are at least 1 and no `AddToCart` takes a
line's quantity to `2^63` or beyond, has a quantity of at least 1. -/
theorem cart_quantities_positive [Float32 F] (s : Store F) (h : PositiveReachable s) :
    ∀ cb ∈ s.cartBooks, 1 ≤ cb.Quantity :=
  positive_quantities s h

/-- The scenario's cart is reached with the quantities 2 and 1; its lines have
the quantities 2 and 1. -/
theorem cart_quantities_positive_witness :
    PositiveReachable scenarioStore ∧ (∀ cb ∈ scenarioStore.cartBooks, 1 ≤ cb.Quantity) ∧
    scenarioStore.cartBooks.map (fun cb => cb.Quantity) = [2, 1] :=
  ⟨positiveReachable_scenario, cart_quantities_positive scenarioStore positiveReachable_scenario,
   by decide⟩

/-- C17 as stated fails: after alice is registered and the two books exist,
`AddToCart(1, 1, -1)` leaves a cart line of quantity `-1`. -/
theorem cart_quantity_counterexample :
    Reachable negativeStore ∧ negativeStore.cartBooks = [⟨1, 1, 1, -1⟩] ∧
    ¬ ∀ cb ∈ negativeStore.cartBooks, 1 ≤ cb.Quantity :=
  ⟨reachable_negativeStore, by decide, by decide⟩

/-! ## C18: `AddToCart` of an unknown book -/

/-- C18: when the book id resolves to no book, `AddToCart` (the cart lookup,
the creation of the cart when the user has none, and the book lookup going
through) returns `ErrBookNotFound`, and the cart lines are exactly those of
before: no line is created and no line is modified. -/
theorem addToCart_unknown_book (s : Store F) (flt : Faults) (userID bookID : Nat) (q : Int)
    (h0 : flt 0 = none) (h1 : firstCartByUser s userID = none → flt 1 = none)
    (h2 : flt 2 = none) (hbook : firstBook s bookID = none) :
    (AddToCart s flt userID bookID q).1 = some .ErrBookNotFound ∧
    (AddToCart s flt userID bookID q).2.cartBooks = s.cartBooks ∧
    (AddToCart s flt userID bookID q).2.nextCartBookID = s.nextCartBookID := by
  cases hc : firstCartByUser s userID with
  | some cart =>
    have e : AddToCart s flt userID bookID q = (some .ErrBookNotFound, s) := by
      unfold AddToCart addLine
      simp only [h0, hc, h2, hbook]
    rw [e]
    exact ⟨rfl, rfl, rfl⟩
  | none =>
    have hb2 : firstBook (createCart s userID).2 bookID = none := hbook
    have e : AddToCart s flt userID bookID q =
        (some .ErrBookNotFound, (createCart s userID).2) := by
      unfold AddToCart addLine
      simp only [h0, hc, h1 hc, h2, hb2]
    rw [e]
    exact ⟨rfl, rfl, rfl⟩

/-- In the scenario there is no book 9999: user 1, who has a cart, and user 7,
who has none, get `ErrBookNotFound` and the lines are as before. -/
theorem addToCart_unknown_book_witness :
    firstBook scenarioStore 9999 = none ∧
    ((AddToCart scenarioStore noFaults 1 9999 1).1 = some .ErrBookNotFound ∧
      (AddToCart scenarioStore noFaults 1 9999 1).2.cartBooks = scenarioStore.cartBooks ∧
      (AddToCart scenarioStore noFaults 1 9999 1).2.nextCartBookID =
        scenarioStore.nextCartBookID) ∧
    ((AddToCart scenarioStore noFaults 7 9999 1).1 = some .ErrBookNotFound ∧
      (AddToCart scenarioStore noFaults 7 9999 1).2.cartBooks = scenarioStore.cartBooks ∧
      (AddToCart scenarioStore noFaults 7 9999 1).2.nextCartBookID =
        scenarioStore.nextCartBookID) :=
  ⟨by decide,
   addToCart_unknown_book scenarioStore noFaults 1 9999 1 rfl (fun _ => rfl) rfl (by decide),
   addToCart_unknown_book scenarioStore noFaults 7 9999 1 rfl (fun _ => rfl) rfl (by decide)⟩

/-! ## C19: `RemoveFromCart` -/

theorem pair_beq_false {a b c d : Nat} (h : ¬ (a = c ∧ b = d)) : (a == c && b == d) = false := by
  by_cases h1 : a = c
  · by_cases h2 : b = d
    · exact absurd ⟨h1, h2⟩ h
    · simp [h2]
  · simp [h1]

/-- With at most one line per (cart, book), the deletion of the lines of a pair
removes exactly the line of that pair. -/
theorem filter_pair_eq_erase (l : List CartBook)
    (hu : (l.map (fun cb => (cb.CartID, cb.BookID))).Nodup) (line : CartBook) (hmem : line ∈ l) :
    l.filter (fun cb => !(cb.CartID == line.CartID && cb.BookID == line.BookID)) = l.erase line := by
  induction l with
  | nil => simp at hmem
  | cons a rest ih =>
    rw [List.map_cons, List.nodup_cons] at hu
    by_cases ha : a = line
    · subst ha
      have hrest : rest.filter (fun cb => !(cb.CartID == a.CartID && cb.BookID == a.BookID)) =
          rest := by
        rw [List.filter_eq_self]
        intro r hr
        have hne : ¬ (r.CartID = a.CartID ∧ r.BookID = a.BookID) := by
          rintro ⟨e1, e2⟩
          exact hu.1 (List.mem_map.mpr ⟨r, hr, by rw [e1, e2]⟩)
        rw [pair_beq_false hne]
        rfl
      simp only [List.filter_cons, beq_self_eq_true, Bool.and_self, Bool.not_true,
        Bool.false_eq_true, if_false, hrest, List.erase_cons_head]
    · have hin : line ∈ rest := by
        rcases List.mem_cons.mp hmem with e | e
        · exact absurd e.symm ha
        · exact e
      have hne : ¬ (a.CartID = line.CartID ∧ a.BookID = line.BookID) := by
        rintro ⟨e1, e2⟩
        exact hu.1 (List.mem_map.mpr ⟨line, hin, by rw [e1, e2]⟩)
      have hp : (!(a.CartID == line.CartID && a.BookID == line.BookID)) = true := by
        rw [pair_beq_false hne]
        rfl
      have hbeq : ¬ (a == line) = true := by simpa using ha
      rw [List.filter_cons, if_pos hp, List.erase_cons_tail hbeq, ih hu.2 hin]

/-- `RemoveFromCart` once the cart is found, the two store calls going through. -/
theorem RemoveFromCart_found (s : Store F) (flt : Faults) (userID bookID : Nat) (cart : Cart)
    (h0 : flt 0 = none) (h1 : flt 1 = none) (hc : firstCartByUser s userID = some cart) :
    RemoveFromCart s flt userID bookID =
      if (deleteCartBook s cart.ID bookID).2 = 0 then
        (some .ErrCartBookNotFound, (deleteCartBook s cart.ID bookID).1)
      else (none, (deleteCartBook s cart.ID bookID).1) := by
  unfold RemoveFromCart
  simp only [h0, hc, h1]

/-- C19: `RemoveFromCart` (its store calls going through) returns
`ErrCartNotFound` when the user has no cart and `ErrCartBookNotFound` when the
cart has no line for the book, the store being unchanged in both cases;
otherwise, on a store with at most one line per (cart, book), it returns `nil`
and the cart lines are those of before with exactly that one line removed (all
other lines, of every cart, are as they were), and the cart row is still
there. -/
theorem removeFromCart_outcomes (s : Store F) (flt : Faults) (userID bookID : Nat)
    (h0 : flt 0 = none) :
    (firstCartByUser s userID = none →
      RemoveFromCart s flt userID bookID = (some .ErrCartNotFound, s)) ∧
    (∀ cart, firstCartByUser s userID = some cart → flt 1 = none →
      (∀ cb ∈ s.cartBooks, ¬ (cb.CartID = cart.ID ∧ cb.BookID = bookID)) →
      RemoveFromCart s flt userID bookID = (some .ErrCartBookNotFound, s)) ∧
    (∀ cart line, firstCartByUser s userID = some cart → flt 1 = none →
      line ∈ s.cartBooks → line.CartID = cart.ID → line.BookID = bookID → s.oneLinePerBook →
      (RemoveFromCart s flt userID bookID).1 = none ∧
      (RemoveFromCart s flt userID bookID).2.cartBooks = s.cartBooks.erase line ∧
      (RemoveFromCart s flt userID bookID).2.cartBooks.length + 1 = s.cartBooks.length ∧
      (RemoveFromCart s flt userID bookID).2.carts = s.carts ∧
      firstCartByUser (RemoveFromCart s flt userID bookID).2 userID = some cart) := by
  refine ⟨fun hc => ?_, fun cart hc h1 hno => ?_, fun cart line hc h1 hmem hcid hbid hu => ?_⟩
  · unfold RemoveFromCart
    simp only [h0, hc]
  · rw [RemoveFromCart_found s flt userID bookID cart h0 h1 hc]
    have hnone : s.cartBooks.filter (fun cb => cb.CartID == cart.ID && cb.BookID == bookID) = [] := by
      rw [List.filter_eq_nil_iff]
      intro cb hcb
      rw [pair_beq_false (hno cb hcb)]
      exact Bool.false_ne_true
    have hall : s.cartBooks.filter (fun cb => !(cb.CartID == cart.ID && cb.BookID == bookID)) =
        s.cartBooks := by
      rw [List.filter_eq_self]
      intro cb hcb
      rw [pair_beq_false (hno cb hcb)]
      rfl
    have hs : (deleteCartBook s cart.ID bookID).1 = s := by
      simp only [deleteCartBook, hall]
    have hn : (deleteCartBook s cart.ID bookID).2 = 0 := by
      simp only [deleteCartBook, hnone, List.length_nil]
    rw [if_pos hn, hs]
  · rw [RemoveFromCart_found s flt userID bookID cart h0 h1 hc]
    have hn : ¬ (deleteCartBook s cart.ID bookID).2 = 0 := by
      simp only [deleteCartBook]
      intro hz
      have hin : line ∈ s.cartBooks.filter (fun cb => cb.CartID == cart.ID && cb.BookID == bookID) := by
        rw [List.mem_filter]
        exact ⟨hmem, by simp [hcid, hbid]⟩
      rw [List.length_eq_zero.mp hz] at hin
      simp at hin
    have he : (deleteCartBook s cart.ID bookID).1.cartBooks = s.cartBooks.erase line := by
      have := filter_pair_eq_erase s.cartBooks hu line hmem
      rw [hcid, hbid] at this
      exact this
    rw [if_neg hn]
    refine ⟨rfl, he, ?_, rfl, hc⟩
    show (deleteCartBook s cart.ID bookID).1.cartBooks.length + 1 = s.cartBooks.length
    rw [he, List.length_erase_of_mem hmem]
    have : 0 < s.cartBooks.length := List.length_pos_of_mem hmem
    omega

/-- In the scenario: user 1 removes book 1 (the line of book 2 stays, the cart
stays); user 999 has no cart; user 1 has no line for book 999. -/
theorem removeFromCart_outcomes_witness :
    ((RemoveFromCart scenarioStore noFaults 1 1).1 = none ∧
      (RemoveFromCart scenarioStore noFaults 1 1).2.cartBooks =
        scenarioStore.cartBooks.erase ⟨1, 1, 1, 2⟩ ∧
      (RemoveFromCart scenarioStore noFaults 1 1).2.cartBooks.length + 1 =
        scenarioStore.cartBooks.length ∧
      (RemoveFromCart scenarioStore noFaults 1 1).2.carts = scenarioStore.carts ∧
      firstCartByUser (RemoveFromCart scenarioStore noFaults 1 1).2 1 = some ⟨1, 1⟩) ∧
    RemoveFromCart scenarioStore noFaults 999 1 = (some .ErrCartNotFound, scenarioStore) ∧
    RemoveFromCart scenarioStore noFaults 1 999 = (some .ErrCartBookNotFound, scenarioStore) ∧
    (RemoveFromCart scenarioStore noFaults 1 1).2.cartBooks = [⟨2, 1, 2, 1⟩] :=
  ⟨(removeFromCart_outcomes scenarioStore noFaults 1 1 rfl).2.2 ⟨1, 1⟩ ⟨1, 1, 1, 2⟩
      (by decide) rfl (by decide) rfl rfl (by unfold Store.oneLinePerBook; decide),
   (removeFromCart_outcomes scenarioStore noFaults 999 1 rfl).1 (by decide),
   (removeFromCart_outcomes scenarioStore noFaults 1 999 rfl).2.1 ⟨1, 1⟩ (by decide) rfl
      (by decide),
   by decide⟩

/-! ## C20: `UpdateQuantity` -/

/-- The lookup of the line of a pair, after one line was given a new quantity:
the line found before, with the change applied. -/
theorem find?_setQuantity (l : List CartBook) (line : CartBook) (q : Int) (cartID bookID : Nat) :
    (l.map (fun cb => if cb = line then { cb with Quantity := q } else cb)).find?
        (fun cb => cb.CartID == cartID && cb.BookID == bookID) =
      (l.find? (fun cb => cb.CartID == cartID && cb.BookID == bookID)).map
        (fun cb => if cb = line then { cb with Quantity := q } else cb) := by
  induction l with
  | nil => rfl
  | cons a rest ih =>
    have hp : ((if a = line then { a with Quantity := q } else a).CartID == cartID &&
        (if a = line then { a with Quantity := q } else a).BookID == bookID) =
        (a.CartID == cartID && a.BookID == bookID) := by
      split <;> rfl
    rw [List.map_cons, List.find?_cons, List.find?_cons, hp]
    cases a.CartID == cartID && a.BookID == bookID with
    | true => rfl
    | false => exact ih

/-- `UpdateQuantity` once the cart is found, the lookups going through. -/
theorem UpdateQuantity_found (s : Store F) (flt : Faults) (userID bookID : Nat) (q : Int)
    (cart : Cart) (h0 : flt 0 = none) (h1 : flt 1 = none)
    (hc : firstCartByUser s userID = some cart) :
    UpdateQuantity s flt userID bookID q =
      match firstCartBook s cart.ID bookID with
      | none => (some .ErrCartBookNotFound, s)
      | some cartBook =>
        match flt 2 with
        | some e => (some (.store e), s)
        | none => (none, saveCartBook s { cartBook with Quantity := q }) := by
  unfold UpdateQuantity
  simp only [h0, hc, h1]

/-- C20: `UpdateQuantity` (its store calls going through) returns
`ErrCartNotFound` when the user has no cart and `ErrCartBookNotFound` when the
cart has no line for the book, the store being unchanged in both cases.  When
the cart has a line for the book, on a store where the primary key of
`cart_books` is in force, it returns `nil` and the cart lines are those of
before with that line's quantity replaced by exactly the quantity given
(whatever the line held), every other line and the number of lines being as
they were. -/
theorem updateQuantity_outcomes (s : Store F) (flt : Faults) (userID bookID : Nat) (q : Int)
    (h0 : flt 0 = none) :
    (firstCartByUser s userID = none →
      UpdateQuantity s flt userID bookID q = (some .ErrCartNotFound, s)) ∧
    (∀ cart, firstCartByUser s userID = some cart → flt 1 = none →
      (∀ cb ∈ s.cartBooks, ¬ (cb.CartID = cart.ID ∧ cb.BookID = bookID)) →
      UpdateQuantity s flt userID bookID q = (some .ErrCartBookNotFound, s)) ∧
    (∀ cart line, firstCartByUser s userID = some cart → flt 1 = none → flt 2 = none →
      firstCartBook s cart.ID bookID = some line → s.cartBookKey →
      (UpdateQuantity s flt userID bookID q).1 = none ∧
      (UpdateQuantity s flt userID bookID q).2.cartBooks =
        s.cartBooks.map (fun cb => if cb = line then { cb with Quantity := q } else cb) ∧
      firstCartBook (UpdateQuantity s flt userID bookID q).2 cart.ID bookID =
        some { line with Quantity := q } ∧
      (UpdateQuantity s flt userID bookID q).2.cartBooks.length = s.cartBooks.length) := by
  refine ⟨fun hc => ?_, fun cart hc h1 hno => ?_, fun cart line hc h1 h2 hl hk => ?_⟩
  · unfold UpdateQuantity
    simp only [h0, hc]
  · have hnone : firstCartBook s cart.ID bookID = none := by
      unfold firstCartBook
      rw [List.find?_eq_none]
      intro cb hcb
      rw [pair_beq_false (hno cb hcb)]
      exact Bool.false_ne_true
    rw [UpdateQuantity_found s flt userID bookID q cart h0 h1 hc, hnone]
  · have hmem := (firstCartBook_mem hl).1
    have e := saveCartBook_eq s line q hk.1 hmem
    have hrun : UpdateQuantity s flt userID bookID q =
        (none, saveCartBook s { line with Quantity := q }) := by
      rw [UpdateQuantity_found s flt userID bookID q cart h0 h1 hc, hl]
      simp only [h2]
    rw [hrun]
    refine ⟨rfl, e, ?_, ?_⟩
    · unfold firstCartBook at hl ⊢
      rw [e, find?_setQuantity, hl]
      simp
    · rw [e, List.length_map]

/-- In the scenario user 1 sets the quantity of book 1, which was 2, to 7: the
line holds 7 (not 9) and the line of book 2 is as before; user 9999 has no
cart; user 1 has no line for book 9999. -/
theorem updateQuantity_outcomes_witness :
    ((UpdateQuantity scenarioStore noFaults 1 1 7).1 = none ∧
      (UpdateQuantity scenarioStore noFaults 1 1 7).2.cartBooks =
        scenarioStore.cartBooks.map
          (fun cb => if cb = ⟨1, 1, 1, 2⟩ then { cb with Quantity := 7 } else cb) ∧
      firstCartBook (UpdateQuantity scenarioStore noFaults 1 1 7).2 1 1 = some ⟨1, 1, 1, 7⟩ ∧
      (UpdateQuantity scenarioStore noFaults 1 1 7).2.cartBooks.length =
        scenarioStore.cartBooks.length) ∧
    UpdateQuantity scenarioStore noFaults 9999 1 3 = (some .ErrCartNotFound, scenarioStore) ∧
    UpdateQuantity scenarioStore noFaults 1 9999 3 = (some .ErrCartBookNotFound, scenarioStore) ∧
    (UpdateQuantity scenarioStore noFaults 1 1 7).2.cartBooks = [⟨1, 1, 1, 7⟩, ⟨2, 1, 2, 1⟩] :=
  ⟨(updateQuantity_outcomes scenarioStore noFaults 1 1 7 rfl).2.2 ⟨1, 1⟩ ⟨1, 1, 1, 2⟩
      (by decide) rfl rfl (by decide) (by unfold Store.cartBookKey; decide),
   (updateQuantity_outcomes scenarioStore noFaults 9999 1 3 rfl).1 (by decide),
   (updateQuantity_outcomes scenarioStore noFaults 1 9999 3 rfl).2.1 ⟨1, 1⟩ (by decide) rfl
      (by decide),
   by decide⟩


/-! ## C21: `ClearCart` -/

/-- Deleting the lines of one cart leaves the lines of every other cart. -/
theorem cartLines_deleteCartBooks_other (s : Store F) (cartID other : Nat) (h : other ≠ cartID) :
    cartLines (deleteCartBooks s cartID) other = cartLines s other := by
  simp only [cartLines, deleteCartBooks, List.filter_filter]
  apply List.filter_congr
  intro cb _
  by_cases hc : cb.CartID = other
  · have hne : ¬ cb.CartID = cartID := fun e => h (hc.symm.trans e)
    simp [hc, hne, h]
  · simp [hc]

/-- The run of `ClearCart` on a user who has a cart, when both store calls go
through. -/
theorem ClearCart_found (s : Store F) (flt : Faults) (userID : Nat) (cart : Cart)
    (h0 : flt 0 = none) (h1 : flt 1 = none) (hcart : firstCartByUser s userID = some cart) :
    ClearCart s flt userID = (none, deleteCartBooks s cart.ID) := by
  unfold ClearCart
  simp only [h0, h1, hcart]

/-- Claim C21: when the store calls go through, `ClearCart` returns
`ErrCartNotFound` and leaves the store as it is for a user without a cart;
for a user with a cart it returns no error, no line of that cart is left, the
lines of every other cart are those of before, the cart rows are unchanged, the
user's cart is still found, and a second `ClearCart` returns no error either. -/
theorem clearCart_outcomes (s : Store F) (flt : Faults) (userID : Nat)
    (h0 : flt 0 = none) (h1 : flt 1 = none) :
    (firstCartByUser s userID = none →
      ClearCart s flt userID = (some .ErrCartNotFound, s)) ∧
    (∀ cart, firstCartByUser s userID = some cart →
      (ClearCart s flt userID).1 = none ∧
      cartLines (ClearCart s flt userID).2 cart.ID = [] ∧
      (∀ other, other ≠ cart.ID →
        cartLines (ClearCart s flt userID).2 other = cartLines s other) ∧
      (ClearCart s flt userID).2.cartBooks
        = s.cartBooks.filter (fun cb => decide (cb.CartID ≠ cart.ID)) ∧
      (ClearCart s flt userID).2.carts = s.carts ∧
      firstCartByUser (ClearCart s flt userID).2 userID = some cart ∧
      (ClearCart (ClearCart s flt userID).2 flt userID).1 = none ∧
      (ClearCart (ClearCart s flt userID).2 flt userID).2 = (ClearCart s flt userID).2) := by
  refine ⟨?_, ?_⟩
  · intro hnone
    unfold ClearCart
    simp only [h0, hnone]
  · intro cart hcart
    have e := ClearCart_found s flt userID cart h0 h1 hcart
    have hcart2 : firstCartByUser (deleteCartBooks s cart.ID) userID = some cart := hcart
    have e2 := ClearCart_found (deleteCartBooks s cart.ID) flt userID cart h0 h1 hcart2
    have e3 : deleteCartBooks (deleteCartBooks s cart.ID) cart.ID = deleteCartBooks s cart.ID := by
      simp only [deleteCartBooks, List.filter_filter, Bool.and_self]
    rw [e]
    refine ⟨rfl, cartLines_deleteCartBooks s cart.ID,
      fun other h => cartLines_deleteCartBooks_other s cart.ID other h, ?_, rfl, hcart,
      congrArg Prod.fst e2, (congrArg Prod.snd e2).trans e3⟩
    show (deleteCartBooks s cart.ID).cartBooks = _
    simp only [deleteCartBooks]
    apply List.filter_congr
    intro cb _
    by_cases hc : cb.CartID = cart.ID <;> simp [hc]

/-- Instance of C21: user 1 of the scenario has cart 1 with two lines; clearing
it leaves no line and the cart, and user 2, who has no cart, gets
`ErrCartNotFound`. -/
theorem clearCart_outcomes_witness :
    noFaults 0 = none ∧ noFaults 1 = none ∧
    (cartLines scenarioStore 1).length = 2 ∧
    cartLines (ClearCart scenarioStore noFaults 1).2 1 = [] ∧
    (ClearCart scenarioStore noFaults 1).2.carts = [⟨1, 1⟩] ∧
    (ClearCart (ClearCart scenarioStore noFaults 1).2 noFaults 1).1 = none ∧
    ClearCart scenarioStore noFaults 2 = (some .ErrCartNotFound, scenarioStore) :=
  ⟨rfl, rfl, by decide,
    ((clearCart_outcomes scenarioStore noFaults 1 rfl rfl).2 ⟨1, 1⟩ (by decide)).2.1,
    by decide,
    ((clearCart_outcomes scenarioStore noFaults 1 rfl rfl).2 ⟨1, 1⟩ (by decide)).2.2.2.2.2.2.1,
    (clearCart_outcomes scenarioStore noFaults 2 rfl rfl).1 (by decide)⟩


/-! ## C22: `GetOrdersByStatus` -/

/-- The result of `GetOrdersByStatus` when the query goes through. -/
theorem GetOrdersByStatus_run [Float32 F] (s : Store F) (flt : Faults) (status : String)
    (h0 : flt 0 = none) :
    GetOrdersByStatus s flt status =
      ((s.orders.filter (fun o => LOWER o.Status == LOWER status)).map
        (fun order => toOrderResponse order (preloadOrderBooks s order.ID)), none) := by
  unfold GetOrdersByStatus
  simp only [h0]

/-- With unique primary keys, the lookup by id of a row of the list finds that
row. -/
theorem find?_key_of_nodup {α : Type} (key : α → Nat) (l : List α)
    (hnd : (l.map key).Nodup) (x : α) (hx : x ∈ l) :
    l.find? (fun r => key r == key x) = some x := by
  induction l with
  | nil => cases hx
  | cons a l ih =>
    rw [List.map_cons, List.nodup_cons] at hnd
    rcases List.mem_cons.mp hx with e | hmem
    · subst e
      simp [List.find?_cons]
    · have hne : key a ≠ key x := fun e => hnd.1 (e ▸ List.mem_map_of_mem key hmem)
      have eb : (key a == key x) = false := by simpa using hne
      simp only [List.find?_cons, eb]
      exact ih hnd.2 hmem

/-- Claim C22: when the query goes through, `GetOrdersByStatus` returns no
error and the projections, in store order, of exactly the orders whose status
in lower case is the argument in lower case; with unique order ids each of
them is the projection `GetOrder` returns for that order.  The function is a
read: it returns no store. -/
theorem getOrdersByStatus_filter [Float32 F] (s : Store F) (flt : Faults) (status : String)
    (h0 : flt 0 = none) :
    (GetOrdersByStatus s flt status).2 = none ∧
    (GetOrdersByStatus s flt status).1 =
      (s.orders.filter (fun o => decide (LOWER o.Status = LOWER status))).map
        (fun o => toOrderResponse o (preloadOrderBooks s o.ID)) ∧
    (∀ r, r ∈ (GetOrdersByStatus s flt status).1 ↔
      ∃ o ∈ s.orders, LOWER o.Status = LOWER status ∧
        r = toOrderResponse o (preloadOrderBooks s o.ID)) ∧
    ((s.orders.map (fun o => o.ID)).Nodup → ∀ o ∈ s.orders,
      GetOrder s flt o.ID = (some (toOrderResponse o (preloadOrderBooks s o.ID)), none)) := by
  have e := GetOrdersByStatus_run s flt status h0
  have ef : s.orders.filter (fun o => LOWER o.Status == LOWER status) =
      s.orders.filter (fun o => decide (LOWER o.Status = LOWER status)) := by
    apply List.filter_congr
    intro o _
    by_cases h : LOWER o.Status = LOWER status <;> simp [h]
  rw [e]
  refine ⟨rfl, congrArg _ ef, ?_, ?_⟩
  · intro r
    show r ∈ List.map _ _ ↔ _
    rw [List.mem_map]
    constructor
    · rintro ⟨o, ho, rfl⟩
      rw [List.mem_filter] at ho
      exact ⟨o, ho.1, by simpa using ho.2, rfl⟩
    · rintro ⟨o, ho, hl, rfl⟩
      exact ⟨o, List.mem_filter.mpr ⟨ho, by simpa using hl⟩, rfl⟩
  · intro hnd o ho
    have hf : firstOrder s o.ID = some o := find?_key_of_nodup (fun (r : Order F) => r.ID) s.orders hnd o ho
    unfold GetOrder
    simp only [h0, hf]

/-- Instance of C22: the order of the scenario, once stored as "shipped", is
the one result of the query for "SHIPPED", and the query for "pending" has no
result. -/
theorem getOrdersByStatus_filter_witness :
    noFaults 0 = none ∧
    LOWER "SHIPPED" = LOWER "shipped" ∧
    ((UpdateStatus orderedStore noFaults 1 "shipped").2.orders.map (fun o => (o.ID, o.Status)))
      = [(1, "shipped")] ∧
    (GetOrdersByStatus (UpdateStatus orderedStore noFaults 1 "shipped").2 noFaults "SHIPPED").1
      = (((UpdateStatus orderedStore noFaults 1 "shipped").2.orders.filter
          (fun o => decide (LOWER o.Status = LOWER "SHIPPED"))).map
        (fun o => toOrderResponse o
          (preloadOrderBooks (UpdateStatus orderedStore noFaults 1 "shipped").2 o.ID))) ∧
    ((GetOrdersByStatus (UpdateStatus orderedStore noFaults 1 "shipped").2 noFaults "SHIPPED").1.map
      (fun r => (r.ID, r.Status))) = [(1, "shipped")] ∧
    (GetOrdersByStatus (UpdateStatus orderedStore noFaults 1 "shipped").2 noFaults "pending").1 = [] :=
  ⟨rfl, by decide, by decide,
    (getOrdersByStatus_filter (UpdateStatus orderedStore noFaults 1 "shipped").2 noFaults "SHIPPED"
      rfl).2.1,
    by decide, by decide⟩

/-! ## C27: the cancel guard and the status filter -/

/-- An order of the store whose status matches in lower case is among the
results of `GetOrdersByStatus`. -/
theorem GetOrdersByStatus_mem [Float32 F] (s : Store F) (flt : Faults) (status : String)
    (h0 : flt 0 = none) (o : Order F) (ho : o ∈ s.orders) (hl : LOWER o.Status = LOWER status) :
    toOrderResponse o (preloadOrderBooks s o.ID) ∈ (GetOrdersByStatus s flt status).1 := by
  rw [GetOrdersByStatus_run s flt status h0]
  exact List.mem_map.mpr ⟨o, List.mem_filter.mpr ⟨ho, by simpa using hl⟩, rfl⟩

/-- Claim C27: once `UpdateStatus` has stored, for an existing order, a status
`variant` that is neither "pending" nor "approved" as a string but equals
`status` in lower case (such as "Pending" for "pending"), the query
`GetOrdersByStatus status` includes that order with the stored status, and
`CancelOrder` on it returns `ErrOrderCancel` and leaves the store as it is. -/
theorem cancel_guard_exact_filter_folds [Float32 F] (s : Store F) (flt : Faults) (orderID : Nat)
    (order : Order F) (variant status : String)
    (h0 : flt 0 = none) (h1 : flt 1 = none) (hfound : firstOrder s orderID = some order)
    (hp : variant ≠ "pending") (ha : variant ≠ "approved")
    (hl : LOWER variant = LOWER status) :
    (UpdateStatus s flt orderID variant).1 = none ∧
    (∃ r ∈ (GetOrdersByStatus (UpdateStatus s flt orderID variant).2 flt status).1,
      r.ID = orderID ∧ r.Status = variant) ∧
    CancelOrder (UpdateStatus s flt orderID variant).2 flt orderID =
      (some .ErrOrderCancel, (UpdateStatus s flt orderID variant).2) := by
  have hid := firstOrder_id hfound
  have e := UpdateStatus_found s flt orderID variant order h0 h1 hfound
  have hf2 : firstOrder (saveOrder s { order with Status := variant }) orderID
      = some { order with Status := variant } :=
    firstOrder_saveOrder s orderID order _ hfound hid
  have hmem : ({ order with Status := variant } : Order F) ∈
      (saveOrder s { order with Status := variant }).orders :=
    List.mem_of_find?_eq_some hf2
  rw [e]
  refine ⟨rfl, ⟨_, GetOrdersByStatus_mem _ flt status h0 _ hmem hl, hid, rfl⟩, ?_⟩
  show CancelOrder (saveOrder s { order with Status := variant }) flt orderID = _
  rw [CancelOrder_found _ flt orderID _ h0 h1 hf2]
  exact if_pos ⟨hp, ha⟩

/-- Instance of C27: the order of the scenario stored as "Pending" is listed
under "pending" and cannot be cancelled, while the same order stored as
"pending" can. -/
theorem cancel_guard_exact_filter_folds_witness :
    firstOrder orderedStore 1 = some ⟨1, 1, "pending", "Main St", ⟨40⟩⟩ ∧
    LOWER "Pending" = LOWER "pending" ∧
    (CancelOrder orderedStore noFaults 1).1 = none ∧
    ((GetOrdersByStatus (UpdateStatus orderedStore noFaults 1 "Pending").2 noFaults "pending").1.map
      (fun r => (r.ID, r.Status))) = [(1, "Pending")] ∧
    CancelOrder (UpdateStatus orderedStore noFaults 1 "Pending").2 noFaults 1 =
      (some .ErrOrderCancel, (UpdateStatus orderedStore noFaults 1 "Pending").2) ∧
    CancelOrder (UpdateStatus orderedStore noFaults 1 "APPROVED").2 noFaults 1 =
      (some .ErrOrderCancel, (UpdateStatus orderedStore noFaults 1 "APPROVED").2) :=
  ⟨by decide, by decide, by decide, by decide,
    (cancel_guard_exact_filter_folds orderedStore noFaults 1 ⟨1, 1, "pending", "Main St", ⟨40⟩⟩
      "Pending" "pending" rfl rfl (by decide) (by decide) (by decide) (by decide)).2.2,
    (cancel_guard_exact_filter_folds orderedStore noFaults 1 ⟨1, 1, "pending", "Main St", ⟨40⟩⟩
      "APPROVED" "approved" rfl rfl (by decide) (by decide) (by decide) (by decide)).2.2⟩


/-! ## The tables an operation leaves alone -/

/-- The increment or creation of a cart line touches the table of cart lines
only. -/
theorem addLine_tables (s : Store F) (flt : Faults) (cart : Cart) (bookID : Nat) (q : Int) :
    (addLine s flt cart bookID q).2.orders = s.orders ∧
    (addLine s flt cart bookID q).2.users = s.users ∧
    (addLine s flt cart bookID q).2.books = s.books ∧
    (addLine s flt cart bookID q).2.carts = s.carts ∧
    (addLine s flt cart bookID q).2.nextCartID = s.nextCartID := by
  rcases addLine_cases s flt cart bookID q with h | ⟨line, _, h⟩ | ⟨_, h⟩ <;> rw [h] <;>
    exact ⟨rfl, rfl, rfl, rfl, rfl⟩

/-- Outside the cart lines, `AddToCart` changes at most the table of carts, by
the creation of the cart of a user who has none. -/
theorem AddToCart_tables (s : Store F) (flt : Faults) (userID bookID : Nat) (q : Int) :
    (AddToCart s flt userID bookID q).2.orders = s.orders ∧
    (AddToCart s flt userID bookID q).2.users = s.users ∧
    (AddToCart s flt userID bookID q).2.books = s.books ∧
    (((AddToCart s flt userID bookID q).2.carts = s.carts ∧
      (AddToCart s flt userID bookID q).2.nextCartID = s.nextCartID) ∨
     (firstCartByUser s userID = none ∧
      (AddToCart s flt userID bookID q).2.carts = s.carts ++ [⟨s.nextCartID, userID⟩] ∧
      (AddToCart s flt userID bookID q).2.nextCartID = s.nextCartID + 1)) := by
  rcases AddToCart_cases s flt userID bookID q with h | ⟨cart, _, h⟩ | ⟨hn, h⟩
  · rw [h]
    exact ⟨rfl, rfl, rfl, Or.inl ⟨rfl, rfl⟩⟩
  · rw [h]
    have t := addLine_tables s flt cart bookID q
    exact ⟨t.1, t.2.1, t.2.2.1, Or.inl ⟨t.2.2.2.1, t.2.2.2.2⟩⟩
  · rw [h]
    have t := addLine_tables (createCart s userID).2 flt (createCart s userID).1 bookID q
    exact ⟨t.1, t.2.1, t.2.2.1, Or.inr ⟨hn, t.2.2.2.1, t.2.2.2.2⟩⟩

/-- The other cart operations touch the table of cart lines only. -/
theorem cart_operations_tables (s : Store F) (flt : Faults) (userID bookID : Nat) (q : Int) :
    ((UpdateQuantity s flt userID bookID q).2.orders = s.orders ∧
     (UpdateQuantity s flt userID bookID q).2.users = s.users ∧
     (UpdateQuantity s flt userID bookID q).2.books = s.books ∧
     (UpdateQuantity s flt userID bookID q).2.carts = s.carts) ∧
    ((RemoveFromCart s flt userID bookID).2.orders = s.orders ∧
     (RemoveFromCart s flt userID bookID).2.users = s.users ∧
     (RemoveFromCart s flt userID bookID).2.books = s.books ∧
     (RemoveFromCart s flt userID bookID).2.carts = s.carts) ∧
    ((ClearCart s flt userID).2.orders = s.orders ∧
     (ClearCart s flt userID).2.users = s.users ∧
     (ClearCart s flt userID).2.books = s.books ∧
     (ClearCart s flt userID).2.carts = s.carts) := by
  refine ⟨?_, ?_, ?_⟩
  · rcases UpdateQuantity_cases s flt userID bookID q with h | ⟨cart, line, _, _, h⟩ <;> rw [h] <;>
      exact ⟨rfl, rfl, rfl, rfl⟩
  · rcases RemoveFromCart_cases s flt userID bookID with h | ⟨cart, _, h⟩ <;> rw [h] <;>
      exact ⟨rfl, rfl, rfl, rfl⟩
  · rcases ClearCart_cases s flt userID with h | ⟨cart, _, h⟩ <;> rw [h] <;>
      exact ⟨rfl, rfl, rfl, rfl⟩

/-- The tables `CreateOrder` leaves alone, and what it does to the table of
orders: nothing, or the insertion of one row with the next id. -/
theorem CreateOrder_tables [Float32 F] (s : Store F) (flt : Faults) (userID : Nat)
    (address : String) :
    (CreateOrder s flt userID address).2.users = s.users ∧
    (CreateOrder s flt userID address).2.books = s.books ∧
    (CreateOrder s flt userID address).2.carts = s.carts ∧
    ((CreateOrder s flt userID address).2.orders = s.orders ∨
     ∃ o : Order F, o.ID = s.nextOrderID ∧
      (CreateOrder s flt userID address).2.orders = s.orders ++ [o]) := by
  cases h0 : flt 0 with
  | some e =>
    have : (CreateOrder s flt userID address).2 = s := by simp only [CreateOrder, h0]
    rw [this]
    exact ⟨rfl, rfl, rfl, Or.inl rfl⟩
  | none =>
    cases hc : firstCartByUser s userID with
    | none =>
      rw [createOrder_empty_cart_eq s flt userID address h0 (Or.inl hc)]
      exact ⟨rfl, rfl, rfl, Or.inl rfl⟩
    | some cart =>
      by_cases hl : cartLines s cart.ID = []
      · rw [createOrder_empty_cart_eq s flt userID address h0 (Or.inr ⟨cart, hc, hl⟩)]
        exact ⟨rfl, rfl, rfl, Or.inl rfl⟩
      · rw [(CreateOrder_store s flt userID address cart h0 hc hl).2.2]
        have h1 : (createOrderStep s flt (builtOrder s userID address cart)
              (builtLines s cart)).2.2.users = s.users ∧
            (createOrderStep s flt (builtOrder s userID address cart)
              (builtLines s cart)).2.2.books = s.books ∧
            (createOrderStep s flt (builtOrder s userID address cart)
              (builtLines s cart)).2.2.carts = s.carts ∧
            ((createOrderStep s flt (builtOrder s userID address cart)
              (builtLines s cart)).2.2.orders = s.orders ∨
             ∃ o : Order F, o.ID = s.nextOrderID ∧
              (createOrderStep s flt (builtOrder s userID address cart)
                (builtLines s cart)).2.2.orders = s.orders ++ [o]) := by
          rcases createOrderStep_cases s flt (builtOrder s userID address cart)
            (builtLines s cart) with e | ⟨_, _, e⟩
          · rw [e]; exact ⟨rfl, rfl, rfl, Or.inl rfl⟩
          · rw [e]; exact ⟨rfl, rfl, rfl, Or.inr ⟨_, rfl, rfl⟩⟩
        unfold deleteLinesStep
        split
        · exact h1
        · exact h1

/-- The order operations that change a status store nothing, or the found
order with another status. -/
theorem status_operations_cases (s : Store F) (flt : Faults) (orderID : Nat) (status : String) :
    (((CancelOrder s flt orderID).1 ≠ none ∧ (CancelOrder s flt orderID).2 = s) ∨
      ∃ order, firstOrder s orderID = some order ∧ (CancelOrder s flt orderID).1 = none ∧
        (CancelOrder s flt orderID).2 = saveOrder s { order with Status := "cancelled" }) ∧
    (((UpdateStatus s flt orderID status).1 ≠ none ∧ (UpdateStatus s flt orderID status).2 = s) ∨
      ∃ order, firstOrder s orderID = some order ∧ (UpdateStatus s flt orderID status).1 = none ∧
        (UpdateStatus s flt orderID status).2 = saveOrder s { order with Status := status }) := by
  constructor
  · unfold CancelOrder
    cases flt 0 with
    | some e => exact Or.inl ⟨by simp, rfl⟩
    | none =>
      cases hf : firstOrder s orderID with
      | none => exact Or.inl ⟨by simp, rfl⟩
      | some order =>
        simp only []
        split
        · exact Or.inl ⟨by simp, rfl⟩
        · cases flt 1 with
          | some e => exact Or.inl ⟨by simp, rfl⟩
          | none => exact Or.inr ⟨order, rfl, rfl, rfl⟩
  · unfold UpdateStatus
    cases flt 0 with
    | some e => exact Or.inl ⟨by simp, rfl⟩
    | none =>
      cases hf : firstOrder s orderID with
      | none => exact Or.inl ⟨by simp, rfl⟩
      | some order =>
        cases flt 1 with
        | some e => exact Or.inl ⟨by simp, rfl⟩
        | none => exact Or.inr ⟨order, rfl, rfl, rfl⟩

/-- The book operations and `Register` store nothing, or one row of their own
table. -/
theorem catalog_and_user_operations_cases (s : Store F) (flt : Faults) (req : BookRequest F)
    (bookID : Nat) (GenerateFromPassword : String → Option String) (request : RegisterRequest) :
    ((CreateBook s flt req).2 = s ∨ ∃ b, (CreateBook s flt req).2 = createBook s b) ∧
    ((UpdateStock s flt bookID).2 = s ∨
      ∃ book, firstBook s bookID = some book ∧
        (UpdateStock s flt bookID).2 = saveBook s { book with InStock := !book.InStock }) ∧
    ((Register s flt GenerateFromPassword request).2 = s ∨
      ∃ u, (Register s flt GenerateFromPassword request).2 = createUser s u) := by
  refine ⟨?_, ?_, ?_⟩
  · unfold CreateBook
    cases req.Price with
    | none => exact Or.inl rfl
    | some price =>
      simp only []
      split
      · exact Or.inl rfl
      · cases flt 0 with
        | some e => exact Or.inl rfl
        | none => exact Or.inr ⟨_, rfl⟩
  · unfold UpdateStock
    cases flt 0 with
    | some e => exact Or.inl rfl
    | none =>
      cases hf : firstBook s bookID with
      | none => exact Or.inl rfl
      | some book =>
        cases flt 1 with
        | some e => exact Or.inl rfl
        | none =>
          refine Or.inr ⟨book, rfl, ?_⟩
          cases hb : book.InStock <;> simp only [hb] <;> rfl
  · unfold Register
    split
    · exact Or.inl rfl
    · cases flt 0 with
      | some e => exact Or.inl rfl
      | none =>
        cases firstUserByUsername s request.Username with
        | some _ => exact Or.inl rfl
        | none =>
          cases flt 1 with
          | some e => exact Or.inl rfl
          | none =>
            cases firstUserByEmail s request.Email with
            | some _ => exact Or.inl rfl
            | none =>
              cases GenerateFromPassword request.Password with
              | none => exact Or.inl rfl
              | some hashed =>
                cases flt 3 with
                | some e => exact Or.inl rfl
                | none => exact Or.inr ⟨_, rfl⟩


/-! ## C24: orders are never removed -/

/-- A store with the same table of orders keeps every order. -/
theorem ordersKept_of_eq {s s2 : Store F} (h : s2.orders = s.orders) : ordersKept s s2 := by
  unfold ordersKept
  rw [h]

/-- The insertion of rows after the existing ones keeps every order. -/
theorem ordersKept_of_append {s s2 : Store F} (more : List (Order F))
    (h : s2.orders = s.orders ++ more) : ordersKept s s2 := by
  unfold ordersKept
  rw [h, List.map_append]
  exact List.prefix_append _ _

/-- `Save(&order)` keeps the ids of the table of orders. -/
theorem saveOrder_ids (s : Store F) (x : Order F) :
    (saveOrder s x).orders.map (fun o => o.ID) = s.orders.map (fun o => o.ID) := by
  simp only [saveOrder, List.map_map]
  apply List.map_congr_left
  intro r _
  by_cases h : r.ID = x.ID
  · simp [h]
  · simp [h]

/-- `Save(&order)` keeps every order. -/
theorem ordersKept_saveOrder (s : Store F) (x : Order F) : ordersKept s (saveOrder s x) := by
  unfold ordersKept
  rw [saveOrder_ids]

/-- An order kept is still found by its id. -/
theorem ordersKept_mem {s s2 : Store F} (h : ordersKept s s2) (o : Order F) (ho : o ∈ s.orders) :
    ∃ o2 ∈ s2.orders, o2.ID = o.ID := by
  obtain ⟨t, ht⟩ := h
  have hm : o.ID ∈ s2.orders.map (fun o => o.ID) := by
    rw [← ht]
    exact List.mem_append_left _ (List.mem_map_of_mem _ ho)
  obtain ⟨o2, ho2, e⟩ := List.mem_map.mp hm
  exact ⟨o2, ho2, e⟩

/-- Claim C24: each operation of the cart, order, book and user services, from
any store and under any pattern of store failures, keeps every order of the
store, at its position and with its id, so that each order present before is
present afterwards; and after a `CancelOrder` that returns no error, `GetOrder`
on that id, when its query goes through, returns the order with status
"cancelled" and no error. -/
theorem orders_never_removed [Float32 F] (s : Store F) (flt : Faults) :
    ((∀ userID bookID quantity, ordersKept s (AddToCart s flt userID bookID quantity).2) ∧
     (∀ userID bookID quantity, ordersKept s (UpdateQuantity s flt userID bookID quantity).2) ∧
     (∀ userID bookID, ordersKept s (RemoveFromCart s flt userID bookID).2) ∧
     (∀ userID, ordersKept s (ClearCart s flt userID).2) ∧
     (∀ userID address, ordersKept s (CreateOrder s flt userID address).2) ∧
     (∀ orderID, ordersKept s (CancelOrder s flt orderID).2) ∧
     (∀ orderID status, ordersKept s (UpdateStatus s flt orderID status).2) ∧
     (∀ req, ordersKept s (CreateBook s flt req).2) ∧
     (∀ bookID, ordersKept s (UpdateStock s flt bookID).2) ∧
     (∀ GenerateFromPassword request,
        ordersKept s (Register s flt GenerateFromPassword request).2)) ∧
    (∀ s2 : Store F, ordersKept s s2 → ∀ o ∈ s.orders, ∃ o2 ∈ s2.orders, o2.ID = o.ID) ∧
    (∀ orderID, (CancelOrder s flt orderID).1 = none →
      ∀ flt2 : Faults, flt2 0 = none →
        ∃ r, GetOrder (CancelOrder s flt orderID).2 flt2 orderID = (some r, none) ∧
          r.ID = orderID ∧ r.Status = "cancelled") := by
  refine ⟨⟨?_, ?_, ?_, ?_, ?_, ?_, ?_, ?_, ?_, ?_⟩, fun s2 h o ho => ordersKept_mem h o ho, ?_⟩
  · intro userID bookID quantity
    exact ordersKept_of_eq (AddToCart_tables s flt userID bookID quantity).1
  · intro userID bookID quantity
    exact ordersKept_of_eq (cart_operations_tables s flt userID bookID quantity).1.1
  · intro userID bookID
    exact ordersKept_of_eq (cart_operations_tables s flt userID bookID 0).2.1.1
  · intro userID
    exact ordersKept_of_eq (cart_operations_tables s flt userID 0 0).2.2.1
  · intro userID address
    rcases (CreateOrder_tables s flt userID address).2.2.2 with h | ⟨o, _, h⟩
    · exact ordersKept_of_eq h
    · exact ordersKept_of_append [o] h
  · intro orderID
    rcases (status_operations_cases s flt orderID "").1 with h | ⟨order, _, _, h⟩
    · rw [h.2]; exact ordersKept_of_eq rfl
    · rw [h]; exact ordersKept_saveOrder s _
  · intro orderID status
    rcases (status_operations_cases s flt orderID status).2 with h | ⟨order, _, _, h⟩
    · rw [h.2]; exact ordersKept_of_eq rfl
    · rw [h]; exact ordersKept_saveOrder s _
  · intro req
    rcases (catalog_and_user_operations_cases s flt req 0 (fun _ => none) ⟨"", "", ""⟩).1
      with h | ⟨b, h⟩
    · rw [h]; exact ordersKept_of_eq rfl
    · rw [h]; exact ordersKept_of_eq rfl
  · intro bookID
    rcases (catalog_and_user_operations_cases s flt ⟨"", "", "", none⟩ bookID (fun _ => none)
      ⟨"", "", ""⟩).2.1 with h | ⟨b, _, h⟩
    · rw [h]; exact ordersKept_of_eq rfl
    · rw [h]; exact ordersKept_of_eq rfl
  · intro GenerateFromPassword request
    rcases (catalog_and_user_operations_cases s flt ⟨"", "", "", none⟩ 0 GenerateFromPassword
      request).2.2 with h | ⟨u, h⟩
    · rw [h]; exact ordersKept_of_eq rfl
    · rw [h]; exact ordersKept_of_eq rfl
  · intro orderID hok flt2 hq
    rcases (status_operations_cases s flt orderID "").1 with h | ⟨order, hf, _, h⟩
    · exact absurd hok h.1
    · rw [h]
      have hid := firstOrder_id hf
      have hf2 := firstOrder_saveOrder s orderID order { order with Status := "cancelled" } hf hid
      refine ⟨toOrderResponse { order with Status := "cancelled" }
        (preloadOrderBooks (saveOrder s { order with Status := "cancelled" }) order.ID), ?_, hid, rfl⟩
      unfold GetOrder
      simp only [hq, hf2]

/-- Instance of C24: the order of the scenario is kept by its cancellation and
by a second checkout, and is read back as "cancelled". -/
theorem orders_never_removed_witness :
    orderedStore.orders.map (fun o => o.ID) = [1] ∧
    ordersKept orderedStore (CancelOrder orderedStore noFaults 1).2 ∧
    ordersKept orderedStore (CreateOrder orderedStore noFaults 1 "Main St").2 ∧
    (∃ r, GetOrder (CancelOrder orderedStore noFaults 1).2 noFaults 1 = (some r, none) ∧
      r.ID = 1 ∧ r.Status = "cancelled") :=
  ⟨by decide,
    (orders_never_removed orderedStore noFaults).1.2.2.2.2.2.1 1,
    (orders_never_removed orderedStore noFaults).1.2.2.2.2.1 1 "Main St",
    (orders_never_removed orderedStore noFaults).2.2 1 (by decide) noFaults rfl⟩


/-! ## C25: `UpdateStock` -/

/-- The book found by id has that id. -/
theorem firstBook_id {s : Store F} {bookID : Nat} {book : Book F}
    (h : firstBook s bookID = some book) : book.ID = bookID := by
  have := List.find?_some h
  simpa using this

/-- The run of `UpdateStock` on an existing book, when both store calls go
through. -/
theorem UpdateStock_found (s : Store F) (flt : Faults) (bookID : Nat) (book : Book F)
    (h0 : flt 0 = none) (h1 : flt 1 = none) (hfound : firstBook s bookID = some book) :
    UpdateStock s flt bookID = (none, saveBook s { book with InStock := !book.InStock }) := by
  unfold UpdateStock
  simp only [h0, h1, hfound]
  cases hb : book.InStock <;> rfl

/-- With unique ids, `Save` of the found book with its flag negated is the
toggle of that row alone. -/
theorem saveBook_toggle (s : Store F) (bookID : Nat) (book : Book F)
    (hnd : (s.books.map (fun b => b.ID)).Nodup) (hfound : firstBook s bookID = some book) :
    (saveBook s { book with InStock := !book.InStock }).books = s.books.map (toggleStock bookID) := by
  have hid := firstBook_id hfound
  simp only [saveBook]
  apply List.map_congr_left
  intro r hr
  have hfr : s.books.find? (fun b => b.ID == r.ID) = some r :=
    find?_key_of_nodup (fun (b : Book F) => b.ID) s.books hnd r hr
  by_cases h : r.ID = bookID
  · have e : r = book := by
      rw [h] at hfr
      exact Option.some.inj (hfr.symm.trans hfound)
    simp [toggleStock, e, hid]
  · simp [toggleStock, h, hid]

/-- Claim C25: when the store calls go through, `UpdateStock` on an unknown id
returns `ErrBookNotFound` and leaves the store as it is; on an existing book,
in a table with unique ids, it returns no error, replaces that row by the same
row with the flag negated and leaves every other row and table as it is, and a
second `UpdateStock` on the same id gives back the original store.
`CreateOrder`, under any pattern of store failures, leaves the table of books
as it is. -/
theorem updateStock_toggles [Float32 F] (s : Store F) (flt : Faults) (bookID : Nat)
    (h0 : flt 0 = none) (h1 : flt 1 = none) :
    (firstBook s bookID = none → UpdateStock s flt bookID = (some .ErrBookNotFound, s)) ∧
    (∀ book, firstBook s bookID = some book → (s.books.map (fun b => b.ID)).Nodup →
      (UpdateStock s flt bookID).1 = none ∧
      (UpdateStock s flt bookID).2 =
        { s with books := s.books.map (toggleStock bookID) } ∧
      firstBook (UpdateStock s flt bookID).2 bookID
        = some { book with InStock := !book.InStock } ∧
      UpdateStock (UpdateStock s flt bookID).2 flt bookID = (none, s)) ∧
    (∀ (flt2 : Faults) userID address, (CreateOrder s flt2 userID address).2.books = s.books) := by
  refine ⟨?_, ?_, fun flt2 userID address => (CreateOrder_tables s flt2 userID address).2.1⟩
  · intro hnone
    unfold UpdateStock
    simp only [h0, hnone]
  · intro book hfound hnd
    have hid := firstBook_id hfound
    have e := UpdateStock_found s flt bookID book h0 h1 hfound
    have hsome : (s.books.find? (fun r => r.ID == bookID)).isSome = true := by
      have : s.books.find? (fun r => r.ID == bookID) = some book := hfound
      rw [this]; rfl
    have hf2 : firstBook (saveBook s { book with InStock := !book.InStock }) bookID
        = some { book with InStock := !book.InStock } := by
      have := find?_map_replace (fun (b : Book F) => b.ID) bookID
        { book with InStock := !book.InStock } hid s.books hsome
      simp only [firstBook, saveBook]
      rw [← this, hid]
    have hbooks := saveBook_toggle s bookID book hnd hfound
    have hs1 : saveBook s { book with InStock := !book.InStock } =
        { s with books := s.books.map (toggleStock bookID) } := by
      show ({ s with books := (saveBook s { book with InStock := !book.InStock }).books } : Store F) = _
      rw [hbooks]
    have e2 := UpdateStock_found (saveBook s { book with InStock := !book.InStock }) flt bookID
      { book with InStock := !book.InStock } h0 h1 hf2
    have hback : saveBook (saveBook s { book with InStock := !book.InStock })
        { book with InStock := !(!book.InStock) } = s := by
      have hb : ({ book with InStock := !(!book.InStock) } : Book F) = book := by
        cases book
        simp
      have hl : (s.books.map (fun r => if r.ID == book.ID then
            ({ book with InStock := !book.InStock } : Book F) else r)).map
          (fun r => if r.ID == book.ID then book else r) = s.books := by
        rw [List.map_map]
        conv => rhs; rw [← List.map_id s.books]
        apply List.map_congr_left
        intro r hr
        have hfr : s.books.find? (fun b => b.ID == r.ID) = some r :=
          find?_key_of_nodup (fun (b : Book F) => b.ID) s.books hnd r hr
        by_cases h : r.ID = book.ID
        · have er : r = book := by
            rw [h, hid] at hfr
            exact Option.some.inj (hfr.symm.trans hfound)
          simp [er]
        · simp [h]
      rw [hb]
      show ({ s with books := _ } : Store F) = s
      simp only [saveBook]
      rw [hl]
    rw [e]
    refine ⟨rfl, hs1, hf2, ?_⟩
    show UpdateStock (saveBook s { book with InStock := !book.InStock }) flt bookID = _
    rw [e2]
    exact congrArg (Prod.mk none) hback

/-- Instance of C25: book 1 of the catalog, in stock, is out of stock after one
`UpdateStock`, book 2 is untouched, a second call restores the catalog, and an
unknown id gives `ErrBookNotFound`. -/
theorem updateStock_toggles_witness :
    noFaults 0 = none ∧ noFaults 1 = none ∧
    catalogStore.books.map (fun b => (b.ID, b.InStock)) = [(1, true), (2, true)] ∧
    (UpdateStock catalogStore noFaults 1).2.books.map (fun b => (b.ID, b.InStock))
      = [(1, false), (2, true)] ∧
    UpdateStock (UpdateStock catalogStore noFaults 1).2 noFaults 1 = (none, catalogStore) ∧
    UpdateStock catalogStore noFaults 7 = (some .ErrBookNotFound, catalogStore) ∧
    (CreateOrder scenarioStore noFaults 1 "Main St").2.books = scenarioStore.books :=
  ⟨rfl, rfl, by decide, by decide,
    ((updateStock_toggles catalogStore noFaults 1 rfl rfl).2.1
      ⟨1, "B1", "author", "text", ⟨10⟩, true⟩ (by decide) (by decide)).2.2.2,
    (updateStock_toggles catalogStore noFaults 7 rfl rfl).1 (by decide),
    (updateStock_toggles scenarioStore noFaults 1 rfl rfl).2.2 noFaults 1 "Main St"⟩


/-! ## C23: the order projection and the catalog -/

/-- The snapshot part of a projection does not depend on the books loaded with
the lines. -/
theorem snapshot_toOrderResponse (o : Order F) (lines : List (OrderBook F))
    (f : OrderBook F → Book F) :
    (toOrderResponse o (lines.map (fun ob => (ob, f ob)))).snapshot =
      (o.ID, o.Status, o.Total, o.Address,
        lines.map (fun ob => (wrapInt ob.Quantity, ob.Price))) := by
  simp [toOrderResponse, OrderResponse.snapshot, List.map_map, Function.comp]

/-- The snapshot part of the projection of an order of the store. -/
theorem snapshot_projection [Float32 F] (s : Store F) (o : Order F) :
    (toOrderResponse o (preloadOrderBooks s o.ID)).snapshot =
      (o.ID, o.Status, o.Total, o.Address,
        (orderLines s o.ID).map (fun ob => (wrapInt ob.Quantity, ob.Price))) :=
  snapshot_toOrderResponse o (orderLines s o.ID) (fun ob => preloadBook s ob.BookID)

/-- The snapshot parts of the projections of a list of orders are the same in
two stores with the same order lines. -/
theorem snapshot_projections [Float32 F] (s s2 : Store F) (hob : s2.orderBooks = s.orderBooks)
    (l : List (Order F)) :
    (l.map (fun order => toOrderResponse order (preloadOrderBooks s2 order.ID))).map
        OrderResponse.snapshot =
      (l.map (fun order => toOrderResponse order (preloadOrderBooks s order.ID))).map
        OrderResponse.snapshot := by
  rw [List.map_map, List.map_map]
  apply List.map_congr_left
  intro o _
  simp only [Function.comp, snapshot_projection, orderLines, hob]

/-- C23 as stated fails: `retitledStore` differs from `orderedStore` only in the
titles of its books, and `GetOrder` on order 1 returns other titles. -/
theorem order_projection_counterexample :
    retitledStore = withBooks orderedStore retitledStore.books ∧
    retitledStore.books.map (fun b => (b.ID, b.Author, b.Description, b.Price, b.InStock)) =
      orderedStore.books.map (fun b => (b.ID, b.Author, b.Description, b.Price, b.InStock)) ∧
    (GetOrder orderedStore noFaults 1).1.map OrderResponse.display
      = some [("B1", "author"), ("B2", "author")] ∧
    (GetOrder retitledStore noFaults 1).1.map OrderResponse.display
      = some [("Second edition", "author"), ("Second edition", "author")] ∧
    ¬ ∀ (books : List (Book IntF32)) (orderID : Nat),
        GetOrder (withBooks orderedStore books) noFaults orderID
          = GetOrder orderedStore noFaults orderID := by
  refine ⟨rfl, by decide, by decide, by decide, ?_⟩
  intro h
  have h1 := h retitledStore.books 1
  revert h1
  decide

/-- Claim C23, amended: in any two store states that differ only in the table
of books, and under the same store failures, `GetOrder`, `GetUserOrders` and
`GetOrdersByStatus` return the same error and projections with the same id,
status, total, address, and quantity and price of each line; the title and the
author of each line are those of the book the store now holds under the line's
book id (empty where it holds none). -/
theorem order_projection_snapshot [Float32 F] (s : Store F) (books : List (Book F))
    (flt : Faults) :
    (∀ orderID,
      (GetOrder (withBooks s books) flt orderID).2 = (GetOrder s flt orderID).2 ∧
      (GetOrder (withBooks s books) flt orderID).1.map OrderResponse.snapshot
        = (GetOrder s flt orderID).1.map OrderResponse.snapshot) ∧
    (∀ userID,
      (GetUserOrders (withBooks s books) flt userID).2 = (GetUserOrders s flt userID).2 ∧
      (GetUserOrders (withBooks s books) flt userID).1.map OrderResponse.snapshot
        = (GetUserOrders s flt userID).1.map OrderResponse.snapshot) ∧
    (∀ status,
      (GetOrdersByStatus (withBooks s books) flt status).2 = (GetOrdersByStatus s flt status).2 ∧
      (GetOrdersByStatus (withBooks s books) flt status).1.map OrderResponse.snapshot
        = (GetOrdersByStatus s flt status).1.map OrderResponse.snapshot) ∧
    (∀ orderID r, (GetOrder s flt orderID).1 = some r →
      r.display = (orderLines s r.ID).map
        (fun ob => ((preloadBook s ob.BookID).Title, (preloadBook s ob.BookID).Author))) := by
  refine ⟨?_, ?_, ?_, ?_⟩
  · intro orderID
    unfold GetOrder
    cases flt 0 with
    | some e => exact ⟨rfl, rfl⟩
    | none =>
      have hf : firstOrder (withBooks s books) orderID = firstOrder s orderID := rfl
      rw [hf]
      cases firstOrder s orderID with
      | none => exact ⟨rfl, rfl⟩
      | some order =>
        refine ⟨rfl, ?_⟩
        simp only [Option.map_some']
        rw [snapshot_projection, snapshot_projection]
        rfl
  · intro userID
    unfold GetUserOrders
    cases flt 0 with
    | some e => exact ⟨rfl, rfl⟩
    | none => exact ⟨rfl, snapshot_projections s (withBooks s books) rfl _⟩
  · intro status
    unfold GetOrdersByStatus
    cases flt 0 with
    | some e => exact ⟨rfl, rfl⟩
    | none => exact ⟨rfl, snapshot_projections s (withBooks s books) rfl _⟩
  · intro orderID r hr
    unfold GetOrder at hr
    cases h0 : flt 0 with
    | some e => rw [h0] at hr; cases hr
    | none =>
      rw [h0] at hr
      cases hf : firstOrder s orderID with
      | none => rw [hf] at hr; cases hr
      | some order =>
        rw [hf] at hr
        have e : r = toOrderResponse order (preloadOrderBooks s order.ID) :=
          (Option.some.inj hr).symm
        subst e
        simp [OrderResponse.display, toOrderResponse, preloadOrderBooks, orderLines, List.map_map,
          Function.comp]

/-- Instance of C23: the order of the scenario keeps id, status, total, address,
quantities and prices across the catalog edit of `retitledStore`, and its
titles are those of the books as they now are. -/
theorem order_projection_snapshot_witness :
    (GetOrder retitledStore noFaults 1).1.map OrderResponse.snapshot
      = (GetOrder orderedStore noFaults 1).1.map OrderResponse.snapshot ∧
    (GetOrder orderedStore noFaults 1).1.map OrderResponse.snapshot
      = some (1, "pending", ⟨40⟩, "Main St", [(2, ⟨10⟩), (1, ⟨20⟩)]) ∧
    (GetOrder retitledStore noFaults 1).1.map OrderResponse.display
      = some [("Second edition", "author"), ("Second edition", "author")] :=
  ⟨((order_projection_snapshot orderedStore retitledStore.books noFaults).1 1).2,
    rfl, by decide⟩


/-! ## C26: signed cart quantities, unsigned order quantities -/

/-- When `S` on related elements comes down to a property of the left element,
`S` holds element by element iff the property holds on the first list. -/
theorem forall₂_iff_left {α β : Type} {R S : α → β → Prop} {P : α → Prop} {l1 : List α}
    {l2 : List β} (h : List.Forall₂ R l1 l2) (hs : ∀ a ∈ l1, ∀ b, R a b → (S a b ↔ P a)) :
    List.Forall₂ S l1 l2 ↔ ∀ a ∈ l1, P a := by
  induction h with
  | nil => exact ⟨fun _ a ha => absurd ha (List.not_mem_nil a), fun _ => List.Forall₂.nil⟩
  | @cons a b l1 l2 hab _ ih =>
    have ih2 := ih (fun a ha b hr => hs a (List.mem_cons_of_mem _ ha) b hr)
    have h1 := hs a (List.mem_cons_self _ _) b hab
    constructor
    · intro hall
      cases hall with
      | cons hsab hrest =>
        intro x hx
        rcases List.mem_cons.mp hx with e | hx
        · rw [e]; exact h1.mp hsab
        · exact ih2.mp hrest x hx
    · intro hall
      exact List.Forall₂.cons (h1.mpr (hall a (List.mem_cons_self _ _)))
        (ih2.mpr (fun x hx => hall x (List.mem_cons_of_mem _ hx)))

/-- The conversion to `uint` of an `int` is the unsigned copy of it. -/
theorem unsignedCopy_of_uintQuantity (q : Int) (n : Nat) (hq : isInt q) (h : uintQuantity q n) :
    unsignedCopy q n := by
  have e64 : (2 : Int) ^ 64 = 18446744073709551616 := by norm_num
  have e63 : (2 : Int) ^ 63 = 9223372036854775808 := by norm_num
  unfold isInt at hq
  unfold uintQuantity at h
  unfold unsignedCopy
  rw [e63] at hq
  rw [e64, e63] at h
  rw [e64]
  refine ⟨fun h0 => h.2 h0 hq.2, fun hneg => ⟨h.1, ?_⟩⟩
  have := h.1
  omega

/-- The total and the lines the loop of `CreateOrder` builds from the cart. -/
theorem orderLoop_cart [Float32 F] (s : Store F) (cart : Cart) :
    orderLoop (preloadCartBooks s cart.ID) Float32.zero [] =
      (cartTotal s (cartLines s cart.ID), builtLines s cart) := by
  simp only [orderLoop_eq, preloadCartBooks_eq, builtLines, List.map_map, List.nil_append,
    cartTotal, Function.comp_def]

/-- Claim C26: the loop of `CreateOrder` builds, from a cart whose quantities
are `int`s, one order line per cart line, in cart order, whose quantity is the
unsigned copy of the cart line's signed quantity (the quantity itself when
non-negative, the quantity modulo `2^64` when negative), while the total is
accumulated over the signed quantities; the built quantity equals the cart
quantity on every line if and only if every cart quantity is non-negative.
These are the total and the lines `CreateOrder` hands to `Create(&order)`; the
lines are accepted by the store when every cart quantity is non-negative, and
refused when one is negative. -/
theorem createOrder_unsigned_quantities [Float32 F] (s : Store F) (cart : Cart)
    (hint : ∀ cb ∈ cartLines s cart.ID, isInt cb.Quantity) :
    (orderLoop (preloadCartBooks s cart.ID) Float32.zero []).1
      = cartTotal s (cartLines s cart.ID) ∧
    List.Forall₂
      (fun cb ob => ob.BookID = cb.BookID ∧ unsignedCopy cb.Quantity ob.Quantity ∧
        ob.Price = (preloadBook s cb.BookID).Price)
      (cartLines s cart.ID) (orderLoop (preloadCartBooks s cart.ID) Float32.zero []).2 ∧
    (List.Forall₂ (fun cb ob => sameQuantity cb.Quantity ob.Quantity)
        (cartLines s cart.ID) (orderLoop (preloadCartBooks s cart.ID) Float32.zero []).2 ↔
      ∀ cb ∈ cartLines s cart.ID, 0 ≤ cb.Quantity) ∧
    (storable (orderLoop (preloadCartBooks s cart.ID) Float32.zero []).2 = true ↔
      ∀ cb ∈ cartLines s cart.ID, 0 ≤ cb.Quantity) ∧
    (∀ (flt : Faults) (userID : Nat) (address : String), flt 0 = none →
      firstCartByUser s userID = some cart → cartLines s cart.ID ≠ [] →
      (CreateOrder s flt userID address).2 =
        deleteLinesStep
          (createOrderStep s flt
            { ID := 0, UserID := userID, Status := "pending", Address := address,
              Total := (orderLoop (preloadCartBooks s cart.ID) Float32.zero []).1 }
            (orderLoop (preloadCartBooks s cart.ID) Float32.zero []).2).2.2 flt cart.ID) := by
  rw [orderLoop_cart]
  have hrel : List.Forall₂
      (fun cb (ob : OrderBook F) => ob.BookID = cb.BookID ∧ uintQuantity cb.Quantity ob.Quantity ∧
        ob.Price = (preloadBook s cb.BookID).Price)
      (cartLines s cart.ID) (builtLines s cart) := by
    unfold builtLines
    rw [List.forall₂_map_right_iff]
    exact List.forall₂_same.mpr (fun cb _ => ⟨rfl, toUint_uintQuantity cb.Quantity, rfl⟩)
  have e63 : (2 : Int) ^ 63 = 9223372036854775808 := by norm_num
  refine ⟨rfl, ?_, ?_, ?_, ?_⟩
  · exact forall₂_imp_mem hrel
      (fun cb hcb ob hr => ⟨hr.1, unsignedCopy_of_uintQuantity _ _ (hint cb hcb) hr.2.1, hr.2.2⟩)
  · apply forall₂_iff_left hrel
    intro cb hcb ob hr
    have hu := unsignedCopy_of_uintQuantity _ _ (hint cb hcb) hr.2.1
    unfold sameQuantity
    constructor
    · intro e
      rw [← e]
      exact Int.ofNat_nonneg _
    · intro hnn
      exact hu.1 hnn
  · constructor
    · intro hfit cb hcb
      by_contra hneg
      have := not_storable_builtLines s cart ⟨cb, hcb, by omega, hint cb hcb⟩
      rw [hfit] at this
      cases this
    · intro hnn
      exact storable_builtLines s cart (fun cb hcb => ⟨hnn cb hcb, (hint cb hcb).2⟩)
  · intro flt userID address h0 hcart hlines
    exact (CreateOrder_store s flt userID address cart h0 hcart hlines).2.2

/-- Instance of C26: the cart of `negativeStore` holds one line of quantity
`-1` of book 1, of price 10; the line built has quantity `2^64 - 1`, the total
is `-10`, and the line does not fit its column.  In the scenario the quantities
2 and 1 are copied as they are. -/
theorem createOrder_unsigned_quantities_witness :
    (∀ cb ∈ cartLines negativeStore 1, isInt cb.Quantity) ∧
    (cartLines negativeStore 1).map (fun cb => cb.Quantity) = [-1] ∧
    (orderLoop (preloadCartBooks negativeStore 1) Float32.zero []).1
      = cartTotal negativeStore (cartLines negativeStore 1) ∧
    (orderLoop (preloadCartBooks negativeStore 1) Float32.zero []).1 = (⟨-10⟩ : IntF32) ∧
    (orderLoop (preloadCartBooks negativeStore 1) (Float32.zero : IntF32) []).2.map
      (fun ob => ob.Quantity) = [18446744073709551615] ∧
    storable (orderLoop (preloadCartBooks negativeStore 1) (Float32.zero : IntF32) []).2 = false ∧
    (orderLoop (preloadCartBooks scenarioStore 1) (Float32.zero : IntF32) []).2.map
      (fun ob => ob.Quantity) = [2, 1] :=
  ⟨by decide, by decide,
    (createOrder_unsigned_quantities negativeStore ⟨1, 1⟩ (by decide)).1,
    by decide, by decide, by decide, by decide⟩

/-! ## C28: the cart `AddToCart` leaves behind -/

/-- `AddToCart` keeps the carts of distinct users distinct: it creates a cart
only for a user who has none. -/
theorem AddToCart_oneCartPerUser (s : Store F) (flt : Faults) (userID bookID : Nat) (q : Int)
    (h : s.oneCartPerUser) : (AddToCart s flt userID bookID q).2.oneCartPerUser := by
  unfold Store.oneCartPerUser at h ⊢
  rcases (AddToCart_tables s flt userID bookID q).2.2.2 with hc | ⟨hn, hc, _⟩
  · rw [hc.1]
    exact h
  · rw [hc, List.map_append, List.nodup_append]
    refine ⟨h, List.nodup_singleton _, ?_⟩
    intro x hx hx2
    have ex : x = userID := by simpa using hx2
    obtain ⟨c, hcm, e⟩ := List.mem_map.mp hx
    have hnot := List.find?_eq_none.mp hn c hcm
    apply hnot
    simp only [beq_iff_eq]
    exact e.trans ex

/-- In every reachable store no two carts belong to the same user. -/
theorem oneCartPerUser_reachable [Float32 F] (s : Store F) (h : Reachable s) :
    s.oneCartPerUser := by
  induction h with
  | empty => exact List.nodup_nil
  | createUser s u _ ih => exact ih
  | addToCart s flt userID bookID q _ _ ih => exact AddToCart_oneCartPerUser s flt userID bookID q ih
  | updateQuantity s flt userID bookID q _ _ ih =>
    unfold Store.oneCartPerUser
    rw [(cart_operations_tables s flt userID bookID q).1.2.2.2]
    exact ih
  | removeFromCart s flt userID bookID _ ih =>
    unfold Store.oneCartPerUser
    rw [(cart_operations_tables s flt userID bookID 0).2.1.2.2.2]
    exact ih
  | clearCart s flt userID _ ih =>
    unfold Store.oneCartPerUser
    rw [(cart_operations_tables s flt userID 0 0).2.2.2.2.2]
    exact ih
  | createOrder s flt userID address _ ih =>
    unfold Store.oneCartPerUser
    rw [(CreateOrder_tables s flt userID address).2.2.1]
    exact ih
  | cancelOrder s flt orderID _ ih =>
    rcases (status_operations_cases s flt orderID "").1 with h | ⟨order, _, _, h⟩
    · rw [h.2]; exact ih
    · rw [h]; exact ih
  | updateStatus s flt orderID status _ ih =>
    rcases (status_operations_cases s flt orderID status).2 with h | ⟨order, _, _, h⟩
    · rw [h.2]; exact ih
    · rw [h]; exact ih
  | createBook s flt req _ ih =>
    rcases (catalog_and_user_operations_cases s flt req 0 (fun _ => none) ⟨"", "", ""⟩).1
      with h | ⟨b, h⟩
    · rw [h]; exact ih
    · rw [h]; exact ih
  | updateStock s flt bookID _ ih =>
    rcases (catalog_and_user_operations_cases s flt ⟨"", "", "", none⟩ bookID (fun _ => none)
      ⟨"", "", ""⟩).2.1 with h | ⟨b, _, h⟩
    · rw [h]; exact ih
    · rw [h]; exact ih

/-- The run of `AddToCart` for a user without a cart and an unknown book, when
the store calls go through: the error, and the store with the new cart. -/
theorem AddToCart_no_cart_no_book (s : Store F) (flt : Faults) (userID bookID : Nat) (q : Int)
    (h0 : flt 0 = none) (h1 : flt 1 = none) (h2 : flt 2 = none)
    (hc : firstCartByUser s userID = none) (hb : firstBook s bookID = none) :
    AddToCart s flt userID bookID q = (some .ErrBookNotFound, (createCart s userID).2) := by
  have hb2 : firstBook (createCart s userID).2 bookID = none := hb
  unfold AddToCart addLine
  simp only [h0, hc, h1, h2, hb2]

/-- Claim C28: for a user who has no cart and a book id that resolves to no
book, `AddToCart` (its store calls going through) returns `ErrBookNotFound`,
yet the store afterwards is the store of before with one more cart row, that
user's, which has no line; so `ClearCart` for that user, which returned
`ErrCartNotFound` before, now returns no error.  `AddToCart` never gives a
second cart to a user, and in every reachable store no two carts belong to the
same user. -/
theorem addToCart_leaves_empty_cart [Float32 F] :
    (∀ (s : Store F) (flt : Faults) (userID bookID : Nat) (q : Int),
      flt 0 = none → flt 1 = none → flt 2 = none →
      firstCartByUser s userID = none → firstBook s bookID = none → s.wf →
        (AddToCart s flt userID bookID q).1 = some .ErrBookNotFound ∧
        (AddToCart s flt userID bookID q).2 = (createCart s userID).2 ∧
        (AddToCart s flt userID bookID q).2.carts = s.carts ++ [⟨s.nextCartID, userID⟩] ∧
        (AddToCart s flt userID bookID q).2.cartBooks = s.cartBooks ∧
        firstCartByUser (AddToCart s flt userID bookID q).2 userID
          = some ⟨s.nextCartID, userID⟩ ∧
        cartLines (AddToCart s flt userID bookID q).2 s.nextCartID = [] ∧
        (ClearCart s flt userID).1 = some .ErrCartNotFound ∧
        (ClearCart (AddToCart s flt userID bookID q).2 flt userID).1 = none) ∧
    (∀ (s : Store F) (flt : Faults) (userID bookID : Nat) (q : Int),
      s.oneCartPerUser → (AddToCart s flt userID bookID q).2.oneCartPerUser) ∧
    (∀ s : Store F, Reachable s → s.oneCartPerUser) := by
  refine ⟨?_, AddToCart_oneCartPerUser, oneCartPerUser_reachable⟩
  intro s flt userID bookID q h0 h1 h2 hc hb hwf
  have e := AddToCart_no_cart_no_book s flt userID bookID q h0 h1 h2 hc hb
  have hfound : firstCartByUser (createCart s userID).2 userID = some ⟨s.nextCartID, userID⟩ := by
    have hn : s.carts.find? (fun c => c.UserID == userID) = none := hc
    simp [firstCartByUser, createCart, List.find?_append, hn]
  have hclear := ClearCart_found (createCart s userID).2 flt userID ⟨s.nextCartID, userID⟩ h0 h1
    hfound
  have hempty : cartLines (createCart s userID).2 s.nextCartID = [] := by
    show s.cartBooks.filter (fun cb => cb.CartID == s.nextCartID) = []
    rw [List.filter_eq_nil_iff]
    intro cb hcb
    have := (hwf.1 cb hcb).2
    simp only [beq_iff_eq]
    omega
  have hbefore : ClearCart s flt userID = (some .ErrCartNotFound, s) := by
    unfold ClearCart
    simp only [h0, hc]
  rw [e, hbefore]
  exact ⟨rfl, rfl, rfl, rfl, hfound, hempty, rfl, congrArg Prod.fst hclear⟩

/-- Instance of C28: alice, user 1 of the catalog, has no cart yet and there is
no book 9999; `AddToCart` returns `ErrBookNotFound` and leaves cart 1, hers,
with no line, which `ClearCart` then clears without error. -/
theorem addToCart_leaves_empty_cart_witness :
    (catalogStore.users.map (fun u => u.ID) = [1] ∧ firstCartByUser catalogStore 1 = none ∧
      firstBook catalogStore 9999 = none) ∧
    (AddToCart catalogStore noFaults 1 9999 1).1 = some .ErrBookNotFound ∧
    (AddToCart catalogStore noFaults 1 9999 1).2.carts = [⟨1, 1⟩] ∧
    cartLines (AddToCart catalogStore noFaults 1 9999 1).2 1 = [] ∧
    (ClearCart catalogStore noFaults 1).1 = some .ErrCartNotFound ∧
    (ClearCart (AddToCart catalogStore noFaults 1 9999 1).2 noFaults 1).1 = none ∧
    orderedStore.oneCartPerUser :=
  ⟨⟨by decide, by decide, by decide⟩,
    (addToCart_leaves_empty_cart.1 catalogStore noFaults 1 9999 1 rfl rfl rfl (by decide)
      (by decide) (by unfold Store.wf; decide)).1,
    by decide, by decide, by decide, by decide,
    addToCart_leaves_empty_cart.2.2 orderedStore reachable_scenario⟩

/-! ## C29: `Register` and the uniqueness of credentials -/

/-- A `Register` that returns an error leaves the store as it is. -/
theorem Register_failed (s : Store F) (flt : Faults) (GenerateFromPassword : String → Option String)
    (req : RegisterRequest) (herr : (Register s flt GenerateFromPassword req).1 ≠ none) :
    (Register s flt GenerateFromPassword req).2 = s := by
  revert herr
  unfold Register
  split
  · exact fun _ => rfl
  · cases flt 0 with
    | some e => exact fun _ => rfl
    | none =>
      cases firstUserByUsername s req.Username with
      | some _ => exact fun _ => rfl
      | none =>
        cases flt 1 with
        | some e => exact fun _ => rfl
        | none =>
          cases firstUserByEmail s req.Email with
          | some _ => exact fun _ => rfl
          | none =>
            cases GenerateFromPassword req.Password with
            | none => exact fun _ => rfl
            | some hashed =>
              cases flt 3 with
              | some e => exact fun _ => rfl
              | none => exact fun h => absurd rfl h

/-- A value that no row of the list has under `key` can be appended to a list
with distinct keys. -/
theorem nodup_map_append_fresh {α : Type} (key : α → String) (l : List α) (x : α)
    (hnd : (l.map key).Nodup) (hfresh : l.find? (fun r => key r == key x) = none) :
    ((l ++ [x]).map key).Nodup := by
  rw [List.map_append, List.nodup_append]
  refine ⟨hnd, List.nodup_singleton _, ?_⟩
  intro k hk hk2
  have ek : k = key x := by simpa using hk2
  obtain ⟨r, hr, e⟩ := List.mem_map.mp hk
  apply List.find?_eq_none.mp hfresh r hr
  simp only [beq_iff_eq]
  exact e.trans ek

/-- Claim C29: from a store in which no two users share a username and no two
share an email, any call to `Register`, under any pattern of store failures,
gives such a store again; a call that returns an error leaves the store as it
is, and a call that returns none adds exactly one row to the table of users,
with the next id, the username and the email of the request, and as password
the hash bcrypt returned for the request's password. -/
theorem register_preserves_uniqueness (s : Store F) (flt : Faults)
    (GenerateFromPassword : String → Option String) (req : RegisterRequest)
    (h : s.uniqueCredentials) :
    (Register s flt GenerateFromPassword req).2.uniqueCredentials ∧
    ((Register s flt GenerateFromPassword req).1 ≠ none →
      (Register s flt GenerateFromPassword req).2 = s) ∧
    ((Register s flt GenerateFromPassword req).1 = none →
      ∃ hashed role, GenerateFromPassword req.Password = some hashed ∧
        (Register s flt GenerateFromPassword req).2.users =
          s.users ++ [⟨s.nextUserID, req.Username, hashed, req.Email, role⟩] ∧
        (∀ u ∈ s.users, u.Username ≠ req.Username ∧ u.Email ≠ req.Email)) := by
  have hok : (Register s flt GenerateFromPassword req).1 = none →
      ∃ hashed role, GenerateFromPassword req.Password = some hashed ∧
        (Register s flt GenerateFromPassword req).2.users =
          s.users ++ [⟨s.nextUserID, req.Username, hashed, req.Email, role⟩] ∧
        firstUserByUsername s req.Username = none ∧ firstUserByEmail s req.Email = none := by
    intro hnone
    obtain ⟨hashed, hh, hu, he, hs⟩ := Register_ok s flt GenerateFromPassword req hnone
    exact ⟨hashed, _, hh, by rw [hs]; rfl, hu, he⟩
  refine ⟨?_, Register_failed s flt GenerateFromPassword req, ?_⟩
  · cases hr : (Register s flt GenerateFromPassword req).1 with
    | some e =>
      rw [Register_failed s flt GenerateFromPassword req (by rw [hr]; exact fun h => by cases h)]
      exact h
    | none =>
      obtain ⟨hashed, role, _, hs, hu, he⟩ := hok hr
      unfold Store.uniqueCredentials
      rw [hs]
      exact ⟨nodup_map_append_fresh (fun (u : User) => u.Username) s.users _ h.1 hu,
        nodup_map_append_fresh (fun (u : User) => u.Email) s.users _ h.2 he⟩
  · intro hnone
    obtain ⟨hashed, role, hh, hs, hu, he⟩ := hok hnone
    refine ⟨hashed, role, hh, hs, fun u hu2 => ⟨?_, ?_⟩⟩
    · have := List.find?_eq_none.mp hu u hu2
      simpa using this
    · have := List.find?_eq_none.mp he u hu2
      simpa using this

/-- Instance of C29: after alice, bob registers and is stored with the hash of
his password; a second registration under alice's email is refused and changes
nothing. -/
theorem register_preserves_uniqueness_witness :
    aliceStore.uniqueCredentials ∧
    (Register aliceStore noFaults hashOf ⟨"bob", "pw2", "b@x.com"⟩).2.uniqueCredentials ∧
    (Register aliceStore noFaults hashOf ⟨"bob", "pw2", "b@x.com"⟩).2.users =
      [⟨1, "alice", "hash of pw", "a@x.com", "admin"⟩,
       ⟨2, "bob", "hash of pw2", "b@x.com", "user"⟩] ∧
    Register aliceStore noFaults hashOf ⟨"carol", "pw3", "a@x.com"⟩
      = (some .ErrEmailExist, aliceStore) :=
  ⟨by unfold Store.uniqueCredentials; decide,
    (register_preserves_uniqueness aliceStore noFaults hashOf ⟨"bob", "pw2", "b@x.com"⟩
      (by unfold Store.uniqueCredentials; decide)).1,
    by decide, by decide⟩


/-! ## C30: `ParseIDsFromPath` -/

/-- Writing position `k` and keeping the first `k + 1` elements is keeping the
first `k` and appending the value written. -/
theorem take_set_succ {α : Type} (l : List α) (k : Nat) (v : α) (h : k < l.length) :
    (l.set k v).take (k + 1) = l.take k ++ [v] := by
  induction l generalizing k with
  | nil => cases h
  | cons a l ih =>
    cases k with
    | zero => rfl
    | succ k =>
      simp only [List.set_cons_succ, List.take_succ_cons, List.cons_append]
      rw [ih k (Nat.lt_of_succ_lt_succ h)]

/-- The loop of `ParseIDsFromPath` from position `i`, with the slice of ids of
the right length: it never panics, it ends with `ErrInvalidId` when `Atoi`
rejects a remaining segment, and otherwise with the ids written so far followed
by the values of the remaining segments. -/
theorem idLoop_eq (Atoi : String → Option Int) (parts : List String) (idStartIndex : Nat) :
    ∀ (n i : Nat) (IDs : List Int), i + n = parts.length → idStartIndex ≤ i →
      IDs.length = parts.length - idStartIndex →
      idLoop Atoi parts idStartIndex n i IDs =
        match atoiAll Atoi (parts.drop i) with
        | none => .failed .ErrInvalidId
        | some ids => .ok (IDs.take (i - idStartIndex) ++ ids) := by
  intro n
  induction n with
  | zero =>
    intro i IDs hi hs hlen
    have e : parts.drop i = [] := List.drop_of_length_le (by omega)
    have e2 : IDs.take (i - idStartIndex) = IDs := List.take_of_length_le (by omega)
    rw [e]
    simp only [idLoop, atoiAll, e2, List.append_nil]
  | succ n ih =>
    intro i IDs hi hs hlen
    have hlt : i < parts.length := by omega
    have hget : parts[i]? = some parts[i] := List.getElem?_eq_getElem hlt
    have hdrop : parts.drop i = parts[i] :: parts.drop (i + 1) := List.drop_eq_getElem_cons hlt
    rw [hdrop]
    simp only [idLoop, hget, atoiAll]
    cases Atoi parts[i] with
    | none => rfl
    | some id =>
      have hk : i - idStartIndex < IDs.length := by omega
      simp only [hk, if_true]
      rw [ih (i + 1) (IDs.set (i - idStartIndex) id) (by omega) (by omega)
        (by rw [List.length_set]; exact hlen)]
      cases atoiAll Atoi (parts.drop (i + 1)) with
      | none => rfl
      | some ids =>
        have e1 : i + 1 - idStartIndex = (i - idStartIndex) + 1 := by omega
        simp only [Option.map_some']
        rw [e1, take_set_succ IDs (i - idStartIndex) id hk, List.append_assoc]
        rfl

/-- The run of `ParseIDsFromPath` once the path has the expected number of
segments. -/
theorem ParseIDsFromPath_run (Atoi : String → Option Int) (path : String)
    (expectedParts idStartIndex : Nat) (hle : idStartIndex ≤ expectedParts)
    (hlen : (Split (Trim path '/') '/').length = expectedParts) :
    ParseIDsFromPath Atoi path expectedParts idStartIndex =
      match atoiAll Atoi ((Split (Trim path '/') '/').drop idStartIndex) with
      | none => .failed .ErrInvalidId
      | some ids => .ok ids := by
  unfold ParseIDsFromPath
  have h1 : ¬ (Split (Trim path '/') '/').length ≠ expectedParts := fun h => h hlen
  have h2 : ¬ expectedParts < idStartIndex := by omega
  simp only [h1, h2, if_false]
  rw [idLoop_eq Atoi _ idStartIndex (expectedParts - idStartIndex) idStartIndex _ (by omega)
    (Nat.le_refl _) (by rw [List.length_replicate, hlen])]
  simp only [Nat.sub_self, List.take_zero, List.nil_append]

/-- `Atoi` rejects one of the segments exactly when it rejects a segment of the
list. -/
theorem atoiAll_eq_none (Atoi : String → Option Int) (l : List String) :
    atoiAll Atoi l = none ↔ ∃ seg ∈ l, Atoi seg = none := by
  induction l with
  | nil => simp [atoiAll]
  | cons a l ih =>
    simp only [atoiAll]
    cases ha : Atoi a with
    | none => simp [ha]
    | some id =>
      simp only [Option.map_eq_none', ih, List.mem_cons]
      constructor
      · rintro ⟨seg, hs, hn⟩
        exact ⟨seg, Or.inr hs, hn⟩
      · rintro ⟨seg, hs | hs, hn⟩
        · rw [hs, ha] at hn; cases hn
        · exact ⟨seg, hs, hn⟩

/-- The ids of a list of segments are their values under `Atoi`, in order. -/
theorem atoiAll_eq_some (Atoi : String → Option Int) (l : List String) (ids : List Int)
    (h : atoiAll Atoi l = some ids) : l.map Atoi = ids.map some := by
  induction l generalizing ids with
  | nil =>
    simp only [atoiAll, Option.some.injEq] at h
    rw [← h]; rfl
  | cons a l ih =>
    simp only [atoiAll] at h
    cases ha : Atoi a with
    | none => rw [ha] at h; cases h
    | some id =>
      rw [ha] at h
      cases hr : atoiAll Atoi l with
      | none => rw [hr] at h; cases h
      | some rest =>
        rw [hr] at h
        simp only [Option.map_some', Option.some.injEq] at h
        rw [← h, List.map_cons, List.map_cons, ha, ih rest hr]


/-- What `atoiAll` says of the segments from position `start` on: it fails
exactly when `Atoi` rejects one of them, and its ids are, position by position,
the values of those segments. -/
theorem atoiAll_drop (Atoi : String → Option Int) (l : List String) (start : Nat) :
    (atoiAll Atoi (l.drop start) = none ↔
      ∃ i seg, start ≤ i ∧ l[i]? = some seg ∧ Atoi seg = none) ∧
    (∀ ids, atoiAll Atoi (l.drop start) = some ids →
      ids.length = l.length - start ∧
      ∀ i, i < l.length - start →
        ∃ seg id, l[start + i]? = some seg ∧ Atoi seg = some id ∧ ids[i]? = some id) := by
  constructor
  · rw [atoiAll_eq_none]
    constructor
    · rintro ⟨seg, hmem, hn⟩
      obtain ⟨n, hn2⟩ := List.mem_iff_getElem?.mp hmem
      rw [List.getElem?_drop] at hn2
      exact ⟨start + n, seg, Nat.le_add_right _ _, hn2, hn⟩
    · rintro ⟨i, seg, hi, hget, hn⟩
      refine ⟨seg, List.mem_iff_getElem?.mpr ⟨i - start, ?_⟩, hn⟩
      rw [List.getElem?_drop]
      have e : start + (i - start) = i := by omega
      rw [e]
      exact hget
  · intro ids h
    have hm := atoiAll_eq_some Atoi _ ids h
    have hl : ids.length = l.length - start := by
      have := congrArg List.length hm
      simpa using this.symm
    refine ⟨hl, fun i hi => ?_⟩
    have hi2 : i < ids.length := by omega
    have hi3 : start + i < l.length := by omega
    have hx := congrArg (fun (m : List (Option Int)) => m[i]?) hm
    simp only [List.getElem?_map, List.getElem?_drop] at hx
    rw [List.getElem?_eq_getElem hi3, List.getElem?_eq_getElem hi2] at hx
    simp only [Option.map_some', Option.some.injEq] at hx
    exact ⟨l[start + i], ids[i], List.getElem?_eq_getElem hi3, hx, List.getElem?_eq_getElem hi2⟩

/-- Claim C30: for `idStartIndex ≤ expectedParts`, `ParseIDsFromPath` never
panics on an index or a length; it returns `ErrInvalidPath` exactly when the
path without its leading and trailing slashes does not split at the slashes
into `expectedParts` segments; with that many segments it returns
`ErrInvalidId` exactly when `strconv.Atoi` rejects a segment at an index from
`idStartIndex` on; and when `Atoi` accepts them all it returns a slice of
`expectedParts - idStartIndex` ids whose `i`-th element is the value `Atoi`
gives for the segment at `idStartIndex + i`. -/
theorem parseIDsFromPath_outcomes (Atoi : String → Option Int) (path : String)
    (expectedParts idStartIndex : Nat) (hle : idStartIndex ≤ expectedParts) :
    ParseIDsFromPath Atoi path expectedParts idStartIndex ≠ .panic ∧
    (ParseIDsFromPath Atoi path expectedParts idStartIndex = .failed .ErrInvalidPath ↔
      (Split (Trim path '/') '/').length ≠ expectedParts) ∧
    ((Split (Trim path '/') '/').length = expectedParts →
      (ParseIDsFromPath Atoi path expectedParts idStartIndex = .failed .ErrInvalidId ↔
        ∃ i seg, idStartIndex ≤ i ∧ (Split (Trim path '/') '/')[i]? = some seg ∧
          Atoi seg = none)) ∧
    ((Split (Trim path '/') '/').length = expectedParts →
      (∀ i seg, idStartIndex ≤ i → (Split (Trim path '/') '/')[i]? = some seg →
        Atoi seg ≠ none) →
      ∃ IDs, ParseIDsFromPath Atoi path expectedParts idStartIndex = .ok IDs ∧
        IDs.length = expectedParts - idStartIndex ∧
        ∀ i, i < expectedParts - idStartIndex →
          ∃ seg id, (Split (Trim path '/') '/')[idStartIndex + i]? = some seg ∧
            Atoi seg = some id ∧ IDs[i]? = some id) := by
  by_cases hlen : (Split (Trim path '/') '/').length = expectedParts
  · have hrun := ParseIDsFromPath_run Atoi path expectedParts idStartIndex hle hlen
    have hspec := atoiAll_drop Atoi (Split (Trim path '/') '/') idStartIndex
    cases hall : atoiAll Atoi ((Split (Trim path '/') '/').drop idStartIndex) with
    | none =>
      rw [hall] at hrun
      rw [hrun]
      refine ⟨(fun h => by cases h), ⟨(fun h => by cases h), fun h => absurd hlen h⟩,
        fun _ => ⟨fun _ => hspec.1.mp hall, fun _ => rfl⟩, ?_⟩
      intro _ hacc
      obtain ⟨i, seg, hi, hget, hn⟩ := hspec.1.mp hall
      exact absurd hn (hacc i seg hi hget)
    | some ids =>
      rw [hall] at hrun
      rw [hrun]
      refine ⟨(fun h => by cases h), ⟨(fun h => by cases h), fun h => absurd hlen h⟩,
        fun _ => ⟨(fun h => by cases h), fun h => ?_⟩, ?_⟩
      · have := hspec.1.mpr h
        rw [hall] at this
        cases this
      · intro _ _
        have := hspec.2 ids hall
        rw [hlen] at this
        exact ⟨ids, rfl, this.1, this.2⟩
  · have hrun : ParseIDsFromPath Atoi path expectedParts idStartIndex
        = .failed .ErrInvalidPath := by
      unfold ParseIDsFromPath
      simp only [ne_eq, hlen, not_false_eq_true, if_true]
    rw [hrun]
    exact ⟨(fun h => by cases h), ⟨fun _ => hlen, fun _ => rfl⟩, fun h => absurd h hlen,
      fun h => absurd h hlen⟩

/-- Instance of C30, with `decimalAtoi` for `strconv.Atoi`: the path of a cart
update gives the two ids, a negative one included; a path with another number
of segments is an invalid path, and a segment that is no number an invalid id. -/
theorem parseIDsFromPath_outcomes_witness :
    (2 ≤ 4 ∧ Split (Trim "/cart/update/12/-3/" '/') '/' = ["cart", "update", "12", "-3"]) ∧
    ParseIDsFromPath decimalAtoi "/cart/update/12/-3/" 4 2 ≠ .panic ∧
    ParseIDsFromPath decimalAtoi "/cart/update/12/-3/" 4 2 = .ok [12, -3] ∧
    ParseIDsFromPath decimalAtoi "/cart/update/12" 4 2 = .failed .ErrInvalidPath ∧
    ParseIDsFromPath decimalAtoi "/cart/update/12/x3" 4 2 = .failed .ErrInvalidId ∧
    ParseIDsFromPath decimalAtoi "/cart/update//3" 4 2 = .failed .ErrInvalidId ∧
    ParseIDsFromPath decimalAtoi "" 1 0 = .failed .ErrInvalidId :=
  ⟨⟨by decide, by decide⟩,
    (parseIDsFromPath_outcomes decimalAtoi "/cart/update/12/-3/" 4 2 (by decide)).1,
    by decide, by decide, by decide, by decide, by decide⟩

end BookVault
